import Mathlib

/-!
The program `fanap`: temperature-driven fan control.

A shallow embedding of the control core of `fanap` (Go):

* `pkg/fan/fan.go`          the PWM fan (`PWMFan`)
* `pkg/cooling/cooling.go`  the thermal cooling device (`CoolingDevice`) and its
  detection (`findCoolingDevice`, `NewDevice`)
* `pkg/temp/temp.go`, `pkg/thermal/thermal.go`  the two temperature sensors
* `pkg/controller/controller.go`  the two actuators (`FanControllerImpl`,
  `CoolingDeviceController`) and the temperature controller (`TempController`)
* `main.go`                 the resolution of the settings and `runFanController`

Modelling conventions.

* Go `int` is the 64-bit two's-complement integer: a value is an `Int` within
  `minInt..maxInt`, the sum, difference and product of two `int`s wrap around
  (`wrapInt64`), and `/` on `int` is truncated division (`Int.tdiv`).
* Go `float64` is IEEE 754 binary64 (`F64`): every operation yields the exact result
  rounded to nearest, ties to even (`F64.round`), with overflow to the infinities,
  gradual underflow, signed zeros and not-a-number.  No expression of the program
  adds to a `float64` product, so no operation can be fused with another.  The
  conversion `int(x)` discards the fraction (`truncToInt`); where Go leaves its
  result to the implementation, the result comes from a parameter (`Arch`).
* The device tree is the environment.  What a call reads from a device file is
  an argument of the embedded function, the outcome of an `os.WriteFile` it may
  attempt is a boolean argument, and every function returns the list of
  `os.WriteFile` calls it made, in order.  A function that walks the tree
  (`NewDevice`) takes the tree as a `FileSystem`; a constructor of the controller
  takes the outcomes of the probes it makes.
* The mutexes of the actuators only serialise calls; the embedding is sequential.
  `Start` reports whether it spawned the control loop; the loop itself is not
  embedded.  Console output (`fmt.Printf`, `log`) is not part of the state.
-/

namespace Fanap

/-! ## Errors and device writes -/

/-- Abnormal outcomes of a Go call: a returned non-nil `error`, or a run-time panic. -/
inductive GoError where
  | error (msg : String)
  | panic (msg : String)
  deriving DecidableEq, Repr

/-- One call of `os.WriteFile(path, data, 0644)`. -/
structure DeviceWrite where
  path : String
  data : String
  deriving DecidableEq, Repr

/-! ## `strconv` -/

/-- Bounds of a 64-bit Go `int`. -/
def maxInt : Int := 9223372036854775807

/-- Least value of a 64-bit Go `int`. -/
def minInt : Int := -9223372036854775808

/-- Value of a run of decimal digits, `none` if some character is not a digit. -/
def parseDigits : List Char → Nat → Option Nat
  | [], acc => some acc
  | c :: cs, acc =>
    if c.isDigit then parseDigits cs (acc * 10 + (c.toNat - 48)) else none

/-- The digits of a Go decimal literal after its optional sign: at least one digit,
the signed value within the range of `int`. -/
def parseSigned (neg : Bool) (ds : List Char) : Option Int :=
  match ds with
  | [] => none
  | _ =>
    match parseDigits ds 0 with
    | none => none
    | some n =>
      let v : Int := if neg then -(n : Int) else (n : Int)
      if minInt ≤ v ∧ v ≤ maxInt then some v else none

/-- Go `strconv.Atoi`: an optional sign followed by at least one decimal digit,
the value within the range of `int`. -/
def Atoi (s : String) : Option Int :=
  match s.data with
  | [] => none
  | '-' :: ds => parseSigned true ds
  | '+' :: ds => parseSigned false ds
  | ds => parseSigned false ds

/-- Go `strconv.Itoa`. -/
def Itoa (n : Int) : String :=
  match n with
  | Int.ofNat m => Nat.repr m
  | Int.negSucc m => "-" ++ Nat.repr (m + 1)

/-- Go `data[:len(data)-1]` on the bytes of a file: all but the last byte;
slicing an empty file panics (`none`).  A file is a string of characters here: when
its last character is not ASCII, cutting its last byte leaves the leading bytes of
that character behind, which no parser of numbers accepts; the replacement
character stands for them. -/
def dropLastByte (data : String) : Option String :=
  match data.data.getLast? with
  | none => none
  | some c =>
    if c.toNat < 128 then some (String.mk data.data.dropLast)
    else some (String.mk (data.data.dropLast ++ [Char.ofNat 65533]))

/-- Go `filepath.Join` of a clean directory path and a file name. -/
def filepathJoin (dir name : String) : String :=
  dir ++ "/" ++ name

/-! ## Machine arithmetic: 64-bit `int` and `float64` -/

/-- Go arithmetic on a 64-bit `int`: the exact result modulo `2^64`, read in two's
complement. -/
def wrapInt64 (x : Int) : Int :=
  (x + 9223372036854775808) % 18446744073709551616 - 9223372036854775808

/-- The binary logarithm of a natural number rounded down, by halving; `fuel` bounds
the number of halvings. -/
def log2Fuel : Nat → Nat → Nat
  | 0, _ => 0
  | fuel + 1, n => if n < 2 then 0 else log2Fuel fuel (n / 2) + 1

/-- The binary exponent of a rational that is not zero: the `e` with
`2^e ≤ |q| < 2^(e+1)`. -/
def binade (q : ℚ) : Int :=
  let e0 : Int := (log2Fuel q.num.natAbs q.num.natAbs : Int) - (log2Fuel q.den q.den : Int)
  if (2 : ℚ) ^ e0 ≤ |q| then e0 else e0 - 1

/-- Rounding to the nearest integer, a tie going to the even one. -/
def roundHalfEven (x : ℚ) : Int :=
  let f := ⌊x⌋
  if x - f < 1 / 2 then f
  else if 1 / 2 < x - f then f + 1
  else if f % 2 = 0 then f else f + 1

/-- The exponent of the unit in the last place of a `float64` near `q`: 52 below the
binary exponent, and not below `-1074` (subnormal numbers). -/
def ulpExponent (q : ℚ) : Int :=
  max (binade q) (-1022) - 52

/-- Rounding of a rational to 53 significant bits, to nearest and ties to even, the
exponent bounded below (gradual underflow) and unbounded above. -/
def roundQ (q : ℚ) : ℚ :=
  (roundHalfEven (q / 2 ^ ulpExponent q) : ℚ) * 2 ^ ulpExponent q

/-- A value of Go `float64` (IEEE 754 binary64): not a number, an infinity, the
negative zero, or a finite number given by its rational value (`fin 0` is the
positive zero). -/
inductive F64 where
  | nan
  | posInf
  | negInf
  | negZero
  | fin (q : ℚ)
  deriving DecidableEq

/-- The sign bit of a `float64`. -/
def F64.isNeg : F64 → Bool
  | .negInf => true
  | .negZero => true
  | .fin q => decide (q < 0)
  | _ => false

/-- The rational value of a finite `float64`; `0` for the others. -/
def F64.toRat : F64 → ℚ
  | .fin q => q
  | _ => 0

/-- Whether a `float64` is an infinity. -/
def F64.isInf : F64 → Bool
  | .posInf => true
  | .negInf => true
  | _ => false

/-- Whether a `float64` is one of the two zeros. -/
def F64.isZero : F64 → Bool
  | .negZero => true
  | .fin q => decide (q = 0)
  | _ => false

/-- Whether a `float64` is a finite number. -/
def F64.isFinite : F64 → Bool
  | .negZero => true
  | .fin _ => true
  | _ => false

/-- The zero of the given sign. -/
def F64.zero (neg : Bool) : F64 :=
  if neg then .negZero else .fin 0

/-- The infinity of the given sign. -/
def F64.inf (neg : Bool) : F64 :=
  if neg then .negInf else .posInf

/-- The `float64` nearest to the exact result `q` of an operation whose sign is `neg`:
an infinity from `2^1024` on, a zero of that sign when the result rounds to zero. -/
def F64.round (neg : Bool) (q : ℚ) : F64 :=
  if (2 : ℚ) ^ (1024 : Nat) ≤ roundQ q then .posInf
  else if roundQ q ≤ -(2 : ℚ) ^ (1024 : Nat) then .negInf
  else if roundQ q = 0 then F64.zero neg
  else .fin (roundQ q)

/-- Whether a value is one a `float64` can hold: rounding leaves it as it is.  Every
value the program meets is one; the type `F64` has others, since `fin` takes any
rational. -/
def F64.representable : F64 → Bool
  | .fin q => decide (F64.round (decide (q < 0)) q = .fin q)
  | _ => true

/-- The comparison `x <= y` of Go on `float64`: false when either is not a number,
the two zeros equal. -/
def F64.le : F64 → F64 → Bool
  | .nan, _ => false
  | _, .nan => false
  | .negInf, _ => true
  | _, .posInf => true
  | .posInf, _ => false
  | _, .negInf => false
  | x, y => decide (x.toRat ≤ y.toRat)

/-- The comparison `x < y` of Go on `float64`. -/
def F64.lt : F64 → F64 → Bool
  | .nan, _ => false
  | _, .nan => false
  | .posInf, _ => false
  | _, .negInf => false
  | .negInf, _ => true
  | _, .posInf => true
  | x, y => decide (x.toRat < y.toRat)

/-- The comparison `x == y` of Go on `float64`: false when either is not a number,
the two zeros equal. -/
def F64.beq : F64 → F64 → Bool
  | .nan, _ => false
  | _, .nan => false
  | .posInf, y => decide (y = .posInf)
  | .negInf, y => decide (y = .negInf)
  | _, .posInf => false
  | _, .negInf => false
  | x, y => decide (x.toRat = y.toRat)

instance : LE F64 := ⟨fun x y => F64.le x y = true⟩

instance : LT F64 := ⟨fun x y => F64.lt x y = true⟩

instance (x y : F64) : Decidable (x ≤ y) := inferInstanceAs (Decidable (F64.le x y = true))

instance (x y : F64) : Decidable (x < y) := inferInstanceAs (Decidable (F64.lt x y = true))

/-- The difference `x - y` of Go on `float64`. -/
def F64.sub : F64 → F64 → F64
  | .nan, _ => .nan
  | _, .nan => .nan
  | .posInf, .posInf => .nan
  | .negInf, .negInf => .nan
  | .posInf, _ => .posInf
  | .negInf, _ => .negInf
  | _, .posInf => .negInf
  | _, .negInf => .posInf
  | x, y =>
    if x.toRat - y.toRat = 0 then F64.zero (x.isNeg && !y.isNeg)
    else F64.round (decide (x.toRat - y.toRat < 0)) (x.toRat - y.toRat)

/-- The product `x * y` of Go on `float64`. -/
def F64.mul : F64 → F64 → F64
  | .nan, _ => .nan
  | _, .nan => .nan
  | x, y =>
    if x.isInf || y.isInf then
      if x.isZero || y.isZero then .nan else F64.inf (x.isNeg != y.isNeg)
    else F64.round (x.isNeg != y.isNeg) (x.toRat * y.toRat)

/-- The quotient `x / y` of Go on `float64`. -/
def F64.div : F64 → F64 → F64
  | .nan, _ => .nan
  | _, .nan => .nan
  | x, y =>
    if x.isInf then
      if y.isInf then .nan else F64.inf (x.isNeg != y.isNeg)
    else if y.isInf then F64.zero (x.isNeg != y.isNeg)
    else if y.isZero then
      if x.isZero then .nan else F64.inf (x.isNeg != y.isNeg)
    else F64.round (x.isNeg != y.isNeg) (x.toRat / y.toRat)

instance : Sub F64 := ⟨F64.sub⟩

instance : Mul F64 := ⟨F64.mul⟩

instance : Div F64 := ⟨F64.div⟩

/-- The conversion `float64(n)` of an `int`. -/
def F64.ofInt (n : Int) : F64 :=
  F64.round (decide (n < 0)) (n : ℚ)

/-- What Go leaves to the implementation. -/
structure Arch where
  /-- The value a conversion `int(x)` yields when `int` cannot represent `x`, taken
  modulo `2^64`. -/
  invalidInt : F64 → Int

/-- The amd64 implementation: a conversion that cannot be represented yields the
smallest `int`. -/
def amd64 : Arch :=
  { invalidInt := fun _ => minInt }

/-- Truncation of a rational towards zero. -/
def truncToInt (x : ℚ) : Int :=
  if 0 ≤ x then ⌊x⌋ else ⌈x⌉

/-- The conversion `int(x)` of a `float64`: the fraction is discarded; the result is
some `int` that depends on the implementation when `x` is not a number, is infinite
or is out of range. -/
def F64.toInt (arch : Arch) (x : F64) : Int :=
  match x with
  | .nan => wrapInt64 (arch.invalidInt x)
  | .posInf => wrapInt64 (arch.invalidInt x)
  | .negInf => wrapInt64 (arch.invalidInt x)
  | x =>
    if minInt ≤ truncToInt x.toRat ∧ truncToInt x.toRat ≤ maxInt then truncToInt x.toRat
    else wrapInt64 (arch.invalidInt x)

/-! ## `pkg/fan`: the PWM fan -/

/-- The struct `fan.PWMFan`. -/
structure PWMFan where
  pwmPath : String
  enablePath : String
  originalMode : Int
  verbose : Bool
  deriving DecidableEq, Repr

/-- The function `fan.createPWMFan`.  `enableData` is what `os.ReadFile(enablePath)`
returns (`none`: the read fails); `writeOk` tells whether writing the manual
mode succeeds. -/
def createPWMFan (pwmPath : String) (verbose : Bool)
    (enableData : Option String) (writeOk : Bool) :
    Except GoError PWMFan × List DeviceWrite :=
  let enablePath := pwmPath ++ "_enable"
  match enableData with
  | none => (.error (.error "读取风扇模式失败"), [])
  | some data =>
    match dropLastByte data with
    | none => (.error (.panic "slice bounds out of range"), [])
    | some body =>
      match Atoi body with
      | none => (.error (.error "解析风扇模式失败"), [])
      | some mode =>
        let fan : PWMFan :=
          { pwmPath := pwmPath, enablePath := enablePath,
            originalMode := mode, verbose := verbose }
        if writeOk then (.ok fan, [⟨enablePath, "1"⟩])
        else (.error (.error "设置风扇为手动模式失败"), [⟨enablePath, "1"⟩])

/-- The method `(*PWMFan).SetSpeed`. -/
def PWMFan.SetSpeed (f : PWMFan) (pwm : Int) (writeOk : Bool) :
    Except GoError Unit × List DeviceWrite :=
  if pwm < 0 ∨ pwm > 255 then (.error (.error "PWM值必须在0-255之间"), [])
  else
    let pwmStr := Itoa pwm ++ "\n"
    if writeOk then (.ok (), [⟨f.pwmPath, pwmStr⟩])
    else (.error (.error "设置风扇速度失败"), [⟨f.pwmPath, pwmStr⟩])

/-- The method `(*PWMFan).Close`. -/
def PWMFan.Close (f : PWMFan) (writeOk : Bool) :
    Except GoError Unit × List DeviceWrite :=
  let modeStr := Itoa f.originalMode ++ "\n"
  if writeOk then (.ok (), [⟨f.enablePath, modeStr⟩])
  else (.error (.error "恢复风扇模式失败"), [⟨f.enablePath, modeStr⟩])

/-! ## `pkg/cooling`: the thermal cooling device -/

/-- The struct `cooling.CoolingDevice`. -/
structure CoolingDevice where
  devicePath : String
  typePath : String
  maxState : Int
  curState : Int
  verbose : Bool
  deriving DecidableEq, Repr

/-- The level `(*CoolingDevice).SetLevel` writes: its argument clamped, first
from below at `0`, then from above at `maxState`. -/
def CoolingDevice.clampLevel (d : CoolingDevice) (level : Int) : Int :=
  let level := if level < 0 then 0 else level
  if level > d.maxState then d.maxState else level

/-- The method `(*CoolingDevice).SetLevel`. -/
def CoolingDevice.SetLevel (d : CoolingDevice) (level : Int) (writeOk : Bool) :
    Except GoError Unit × CoolingDevice × List DeviceWrite :=
  let level := d.clampLevel level
  let curStatePath := filepathJoin d.devicePath "cur_state"
  let levelStr := Itoa level ++ "\n"
  if writeOk then (.ok (), { d with curState := level }, [⟨curStatePath, levelStr⟩])
  else (.error (.error "设置冷却级别失败"), d, [⟨curStatePath, levelStr⟩])

/-- The method `(*CoolingDevice).GetMaxLevel`; it never fails. -/
def CoolingDevice.GetMaxLevel (d : CoolingDevice) : Int :=
  d.maxState

/-- The method `(*CoolingDevice).Close`: nothing to restore. -/
def CoolingDevice.Close (_d : CoolingDevice) :
    Except GoError Unit × List DeviceWrite :=
  (.ok (), [])

/-! ## `pkg/controller`: the two actuators -/

/-- The struct `controller.FanControllerImpl` (without its mutex). -/
structure FanControllerImpl where
  fan : PWMFan
  minPWM : Int
  maxPWM : Int
  verbose : Bool
  lastPWM : Int
  deriving DecidableEq, Repr

/-- The function `controller.NewFanController`, given the outcome of
`fan.NewPWMFan`. -/
def NewFanController (pwmFan : Except GoError PWMFan) (minPWM maxPWM : Int)
    (verbose : Bool) : Except GoError FanControllerImpl :=
  match pwmFan with
  | .error e => .error e
  | .ok f =>
    .ok { fan := f, minPWM := minPWM, maxPWM := maxPWM, verbose := verbose, lastPWM := 0 }

/-- The clamping prologue of `(*FanControllerImpl).SetSpeed`. -/
def FanControllerImpl.clampPWM (fc : FanControllerImpl) (pwm : Int) : Int :=
  let pwm := if pwm < fc.minPWM then fc.minPWM else pwm
  if pwm > fc.maxPWM then fc.maxPWM else pwm

/-- The method `(*FanControllerImpl).SetSpeed`. -/
def FanControllerImpl.SetSpeed (fc : FanControllerImpl) (pwm : Int) (writeOk : Bool) :
    Except GoError Unit × FanControllerImpl × List DeviceWrite :=
  let pwm := fc.clampPWM pwm
  if pwm = fc.lastPWM then (.ok (), fc, [])
  else
    match fc.fan.SetSpeed pwm writeOk with
    | (.error e, ws) => (.error e, fc, ws)
    | (.ok (), ws) => (.ok (), { fc with lastPWM := pwm }, ws)

/-- The method `(*FanControllerImpl).Close`. -/
def FanControllerImpl.Close (fc : FanControllerImpl) (writeOk : Bool) :
    Except GoError Unit × List DeviceWrite :=
  fc.fan.Close writeOk

/-- The method `(*FanControllerImpl).GetMinSpeed`. -/
def FanControllerImpl.GetMinSpeed (fc : FanControllerImpl) : Int :=
  fc.minPWM

/-- The method `(*FanControllerImpl).GetMaxSpeed`. -/
def FanControllerImpl.GetMaxSpeed (fc : FanControllerImpl) : Int :=
  fc.maxPWM

/-- The struct `controller.CoolingDeviceController` (without its mutex). -/
structure CoolingDeviceController where
  cooling : CoolingDevice
  verbose : Bool
  lastLevel : Int
  deriving DecidableEq, Repr

/-- The function `controller.NewCoolingDeviceController`, given the outcome of
`cooling.NewDevice("auto", verbose)`. -/
def NewCoolingDeviceController (coolingDevice : Except GoError CoolingDevice)
    (verbose : Bool) : Except GoError CoolingDeviceController :=
  match coolingDevice with
  | .error e => .error e
  | .ok d => .ok { cooling := d, verbose := verbose, lastLevel := 0 }

/-- The native level `(*CoolingDeviceController).SetSpeed` computes from the
unified speed: the proportional level, replaced by a threshold for a device with
the two levels off and on. -/
def CoolingDeviceController.nativeLevel (speed maxLevel : Int) : Int :=
  let level := Int.tdiv (wrapInt64 (speed * maxLevel)) 255
  if maxLevel = 1 then
    if speed > 127 then 1 else 0
  else level

/-- The method `(*CoolingDeviceController).SetSpeed`. -/
def CoolingDeviceController.SetSpeed (cc : CoolingDeviceController) (speed : Int)
    (writeOk : Bool) :
    Except GoError Unit × CoolingDeviceController × List DeviceWrite :=
  let maxLevel := cc.cooling.GetMaxLevel
  let level := CoolingDeviceController.nativeLevel speed maxLevel
  if level = cc.lastLevel then (.ok (), cc, [])
  else
    match cc.cooling.SetLevel level writeOk with
    | (.error e, d, ws) => (.error e, { cc with cooling := d }, ws)
    | (.ok (), d, ws) => (.ok (), { cc with cooling := d, lastLevel := level }, ws)

/-- The method `(*CoolingDeviceController).GetMinSpeed`. -/
def CoolingDeviceController.GetMinSpeed (_cc : CoolingDeviceController) : Int :=
  0

/-- The method `(*CoolingDeviceController).GetMaxSpeed`. -/
def CoolingDeviceController.GetMaxSpeed (_cc : CoolingDeviceController) : Int :=
  255

/-- The method `(*CoolingDeviceController).Close`. -/
def CoolingDeviceController.Close (cc : CoolingDeviceController) :
    Except GoError Unit × List DeviceWrite :=
  cc.cooling.Close

/-- The interface `controller.FanController` with its two implementations. -/
inductive FanController where
  | pwm (fc : FanControllerImpl)
  | cooling (cc : CoolingDeviceController)
  deriving DecidableEq, Repr

/-- Interface method `GetMinSpeed`. -/
def FanController.GetMinSpeed : FanController → Int
  | .pwm fc => fc.GetMinSpeed
  | .cooling cc => cc.GetMinSpeed

/-- Interface method `GetMaxSpeed`. -/
def FanController.GetMaxSpeed : FanController → Int
  | .pwm fc => fc.GetMaxSpeed
  | .cooling cc => cc.GetMaxSpeed

/-- Interface method `SetSpeed`. -/
def FanController.SetSpeed (a : FanController) (speed : Int) (writeOk : Bool) :
    Except GoError Unit × FanController × List DeviceWrite :=
  match a with
  | .pwm fc =>
    match fc.SetSpeed speed writeOk with
    | (r, fc1, ws) => (r, .pwm fc1, ws)
  | .cooling cc =>
    match cc.SetSpeed speed writeOk with
    | (r, cc1, ws) => (r, .cooling cc1, ws)

/-- Interface method `Close`. -/
def FanController.Close (a : FanController) (writeOk : Bool) :
    Except GoError Unit × List DeviceWrite :=
  match a with
  | .pwm fc => fc.Close writeOk
  | .cooling cc => cc.Close

/-! ## `pkg/controller`: the temperature controller -/

/-- The struct `temp.HWSensor`. -/
structure HWSensor where
  path : String
  deriving DecidableEq, Repr

/-- The struct `thermal.ThermalZone`. -/
structure ThermalZone where
  path : String
  deriving DecidableEq, Repr

/-- The interface `controller.TempSensor` with its two implementations. -/
inductive TempSensor where
  | hwmon (s : HWSensor)
  | zone (z : ThermalZone)
  deriving DecidableEq, Repr

/-- The struct `controller.TempController`.  `interval` is in nanoseconds;
`stopChanClosed` records whether `stopChan` has been closed. -/
structure TempController where
  sensor : TempSensor
  fan : FanController
  lowTemp : F64
  highTemp : F64
  interval : Nat
  verbose : Bool
  stopChanClosed : Bool
  running : Bool

/-- The method `(*TempController).calculatePWM`; `arch` is the implementation the
program runs on. -/
def TempController.calculatePWM (arch : Arch) (c : TempController) (temp : F64) : Int :=
  let minPWM := c.fan.GetMinSpeed
  let maxPWM := c.fan.GetMaxSpeed
  if temp ≤ c.lowTemp then minPWM
  else if temp ≥ c.highTemp then maxPWM
  else
    let ratio := (temp - c.lowTemp) / (c.highTemp - c.lowTemp)
    let pwm := wrapInt64 (minPWM + F64.toInt arch (F64.ofInt (wrapInt64 (maxPWM - minPWM)) * ratio))
    pwm

/-- A PWM fan at a fixed path, used in examples. -/
def examplePWMFan : PWMFan :=
  { pwmPath := "/sys/class/hwmon/hwmon0/pwm1",
    enablePath := "/sys/class/hwmon/hwmon0/pwm1_enable",
    originalMode := 2, verbose := false }

/-- The controller of the defaults of `main.go`: PWM range 50..255, thresholds
40.0 and 75.0 degrees. -/
def exampleController : TempController :=
  { sensor := .hwmon { path := "/sys/class/hwmon/hwmon0/temp1_input" },
    fan := .pwm { fan := examplePWMFan, minPWM := 50, maxPWM := 255,
                  verbose := false, lastPWM := 0 },
    lowTemp := .fin 40, highTemp := .fin 75, interval := 5000000000, verbose := false,
    stopChanClosed := false, running := false }

/-- Writes of two consecutive `SetSpeed` calls with the same level on an actuator,
the device accepting every write. -/
def FanController.setSpeedTwice (a : FanController) (level : Int) : List DeviceWrite :=
  let first := a.SetSpeed level true
  let second := first.2.1.SetSpeed level true
  first.2.2 ++ second.2.2

/-- A sequence of `SetSpeed` calls on a PWM actuator, each with its level and the
outcome of the device write it may attempt: the actuator afterwards and all writes
made. -/
def FanControllerImpl.setSpeeds (fc : FanControllerImpl) :
    List (Int × Bool) → FanControllerImpl × List DeviceWrite
  | [] => (fc, [])
  | (pwm, writeOk) :: rest =>
    let step := fc.SetSpeed pwm writeOk
    let tail := FanControllerImpl.setSpeeds step.2.1 rest
    (tail.1, step.2.2 ++ tail.2)

/-- The mode `createPWMFan` reads from the bytes of the control-mode file. -/
def readMode (data : String) : Option Int :=
  (dropLastByte data).bind Atoi

/-! ## `strings` and `path/filepath` -/

/-- Go `unicode.IsSpace`, the white space `strings.TrimSpace` removes. -/
def isSpace (c : Char) : Bool :=
  let n := c.toNat
  n = 9 || n = 10 || n = 11 || n = 12 || n = 13 || n = 32 || n = 133 || n = 160 ||
  n = 5760 || (8192 ≤ n && n ≤ 8202) || n = 8232 || n = 8233 || n = 8239 ||
  n = 8287 || n = 12288

/-- Go `strings.TrimSpace`: the string without its leading and trailing white
space. -/
def TrimSpace (s : String) : String :=
  String.mk ((s.data.dropWhile isSpace).reverse.dropWhile isSpace).reverse

/-- Go `unicode.ToLower` as far as ASCII letters are concerned: the letters `A..Z`,
and the two characters outside ASCII whose lower case is an ASCII letter (the
Kelvin sign and the dotted capital I).  Other letters outside ASCII turn into
letters outside ASCII and are left as they are. -/
def toLowerChar (c : Char) : Char :=
  if c.toNat = 8490 then 'k'
  else if c.toNat = 304 then 'i'
  else c.toLower

/-- Go `strings.ToLower`. -/
def ToLower (s : String) : String :=
  String.mk (s.data.map toLowerChar)

/-- Go `strings.Contains`. -/
def Contains (s substr : String) : Bool :=
  decide (substr.data <:+: s.data)

/-- Go `strings.HasPrefix`. -/
def HasPrefix (s pre : String) : Bool :=
  decide (pre.data <+: s.data)

/-- Go `filepath.IsAbs` on Unix. -/
def filepathIsAbs (path : String) : Bool :=
  HasPrefix path "/"

/-- Go `fmt.Errorf("context: %w", err)` for a returned error; a panic passes
through. -/
def wrapError (context : String) (e : GoError) : GoError :=
  match e with
  | .error msg => .error (context ++ ": " ++ msg)
  | .panic msg => .panic msg

/-- Largest value of a Go `uint64`. -/
def maxUint64 : Nat := 18446744073709551615

/-- How Go `strconv.ParseUint` in base 10 ends: with a value, or at the first
character that is not a digit, or at the first digit that overflows `uint64`. -/
inductive UintOutcome where
  | value (n : Nat)
  | syntaxError
  | rangeError
  deriving DecidableEq, Repr

/-- Go `strconv.ParseUint(s, 10, 64)`, reading the characters from left to right. -/
def parseUint : List Char → Nat → UintOutcome
  | [], n => .value n
  | c :: cs, n =>
    if !c.isDigit then .syntaxError
    else if n ≥ maxUint64 / 10 + 1 then .rangeError
    else if n * 10 + (c.toNat - 48) > maxUint64 then .rangeError
    else parseUint cs (n * 10 + (c.toNat - 48))

/-- First result of Go `strconv.Atoi` after the sign, also when it fails: `0` on
a syntax error, the nearest bound of `int` when out of range. -/
def parseSignedValue (neg : Bool) (ds : List Char) : Int :=
  match ds with
  | [] => 0
  | _ =>
    match parseUint ds 0 with
    | .syntaxError => 0
    | .rangeError => if neg then minInt else maxInt
    | .value n =>
      let v : Int := if neg then -(n : Int) else (n : Int)
      if v < minInt then minInt else if v > maxInt then maxInt else v

/-- First result of Go `strconv.Atoi`, the value a caller gets who drops the
error. -/
def AtoiValue (s : String) : Int :=
  match s.data with
  | [] => 0
  | '-' :: ds => parseSignedValue true ds
  | '+' :: ds => parseSignedValue false ds
  | ds => parseSignedValue false ds

/-! ## The device tree -/

/-- An entry `os.ReadDir` returns. -/
structure DirEntry where
  name : String
  isDir : Bool
  deriving DecidableEq, Repr

/-- The device tree as the program sees it: `os.ReadFile` (`none`: the read
fails), `os.ReadDir` (`none`: it fails) and whether `os.Stat` succeeds. -/
structure FileSystem where
  readFile : String → Option String
  readDir : String → Option (List DirEntry)
  stat : String → Bool

/-! ## `pkg/cooling`: finding the cooling device -/

/-- The loop of `cooling.findCoolingDevice` over the cooling devices: the path of
the first one whose type contains "fan"; a device whose type cannot be read is
skipped. -/
def findFanTyped (fs : FileSystem) (thermalPath : String) : List String → Option String
  | [] => none
  | deviceName :: rest =>
    let devicePath := filepathJoin thermalPath deviceName
    let typePath := filepathJoin devicePath "type"
    match fs.readFile typePath with
    | none => findFanTyped fs thermalPath rest
    | some typeData =>
      let deviceType := ToLower (TrimSpace typeData)
      if Contains deviceType "fan" then some devicePath
      else findFanTyped fs thermalPath rest

/-- The function `cooling.findCoolingDevice`. -/
def findCoolingDevice (_verbose : Bool) (fs : FileSystem) : Except GoError String :=
  let thermalPath := "/sys/class/thermal"
  match fs.readDir thermalPath with
  | none => .error (.error "读取thermal目录失败")
  | some entries =>
    let coolingDevices :=
      (entries.filter (fun entry => HasPrefix entry.name "cooling_device")).map
        (fun entry => entry.name)
    match coolingDevices with
    | [] => .error (.error "未找到任何冷却设备")
    | first :: _ =>
      match findFanTyped fs thermalPath coolingDevices with
      | some devicePath => .ok devicePath
      | none => .ok (filepathJoin thermalPath first)

/-- The function `cooling.NewDevice`. -/
def NewDevice (deviceName : String) (verbose : Bool) (fs : FileSystem) :
    Except GoError CoolingDevice :=
  let found : Except GoError String :=
    if filepathIsAbs deviceName then
      if fs.stat deviceName then .ok deviceName
      else .error (.error "冷却设备路径不存在")
    else
      match findCoolingDevice verbose fs with
      | .ok path => .ok path
      | .error e => .error (wrapError "查找冷却设备失败" e)
  match found with
  | .error e => .error e
  | .ok devicePath =>
    let typePath := filepathJoin devicePath "type"
    match fs.readFile typePath with
    | none => .error (.error "读取设备类型失败")
    | some deviceType =>
      if !Contains (ToLower deviceType) "fan" then
        .error (.error ("设备不是风扇类型: " ++ TrimSpace deviceType))
      else
        match fs.readFile (filepathJoin devicePath "max_state") with
        | none => .error (.error "读取最大状态失败")
        | some maxStateData =>
          match Atoi (TrimSpace maxStateData) with
          | none => .error (.error "解析最大状态失败")
          | some maxState =>
            let curState : Int :=
              match fs.readFile (filepathJoin devicePath "cur_state") with
              | none => 0
              | some curStateData => AtoiValue (TrimSpace curStateData)
            .ok { devicePath := devicePath, typePath := typePath, maxState := maxState,
                  curState := curState, verbose := verbose }

/-! ## `pkg/temp` and `pkg/thermal`: reading the temperature -/

/-- The method `(*HWSensor).GetTemperature`; `data` is what `os.ReadFile(s.path)`
returns.  The result is in degrees Celsius. -/
def HWSensor.GetTemperature (_s : HWSensor) (data : Option String) : Except GoError F64 :=
  match data with
  | none => .error (.error "读取温度失败")
  | some data =>
    match dropLastByte data with
    | none => .error (.panic "slice bounds out of range")
    | some body =>
      match Atoi body with
      | none => .error (.error "解析温度值失败")
      | some tempRaw => .ok (F64.ofInt tempRaw / F64.fin 1000)

/-- The method `(*ThermalZone).GetTemperature`; `data` is what `os.ReadFile` of the
file `temp` of the zone returns.  The result is in degrees Celsius. -/
def ThermalZone.GetTemperature (_z : ThermalZone) (data : Option String) :
    Except GoError F64 :=
  match data with
  | none => .error (.error "读取温度失败")
  | some data =>
    match Atoi (TrimSpace data) with
    | none => .error (.error "解析温度值失败")
    | some tempRaw => .ok (F64.ofInt tempRaw / F64.fin 1000)

/-- Interface method `GetTemperature`. -/
def TempSensor.GetTemperature (s : TempSensor) (data : Option String) : Except GoError F64 :=
  match s with
  | .hwmon h => h.GetTemperature data
  | .zone z => z.GetTemperature data

/-! ## `pkg/controller`: construction and life cycle -/

/-- The function `controller.detectSensor`, given the outcomes of
`thermal.NewZone("auto")` and, tried only when that fails, of
`temp.NewSensor("auto")`. -/
def detectSensor (zone : Except GoError ThermalZone) (hwSensor : Except GoError HWSensor) :
    Except GoError TempSensor :=
  match zone with
  | .ok z => .ok (.zone z)
  | .error _ =>
    match hwSensor with
    | .error _ => .error (.error "无法找到任何温度传感器")
    | .ok h => .ok (.hwmon h)

/-- The function `controller.detectFanController`, given the outcome of
`cooling.NewDevice("auto", verbose)` and, tried only when that fails, the outcome
of `fan.NewPWMFan("auto", verbose)` with the device writes it made. -/
def detectFanController (coolingDevice : Except GoError CoolingDevice)
    (pwmFan : Except GoError PWMFan × List DeviceWrite) (verbose : Bool) :
    Except GoError FanController × List DeviceWrite :=
  match NewCoolingDeviceController coolingDevice verbose with
  | .ok cc => (.ok (.cooling cc), [])
  | .error _ =>
    match NewFanController pwmFan.1 50 255 verbose with
    | .error _ => (.error (.error "无法找到任何风扇控制器"), pwmFan.2)
    | .ok fc => (.ok (.pwm fc), pwmFan.2)

/-- The function `controller.NewController`, given the outcomes of the device
probes it makes. -/
def NewController (zone : Except GoError ThermalZone) (hwSensor : Except GoError HWSensor)
    (coolingDevice : Except GoError CoolingDevice)
    (pwmFan : Except GoError PWMFan × List DeviceWrite)
    (lowTemp highTemp : F64) (interval : Nat) (verbose : Bool) :
    Except GoError TempController × List DeviceWrite :=
  match detectSensor zone hwSensor with
  | .error e => (.error (wrapError "检测温度传感器失败" e), [])
  | .ok sensor =>
    match detectFanController coolingDevice pwmFan verbose with
    | (.error e, ws) => (.error (wrapError "检测风扇控制器失败" e), ws)
    | (.ok fanCtrl, ws) =>
      (.ok { sensor := sensor, fan := fanCtrl, lowTemp := lowTemp, highTemp := highTemp,
             interval := interval, verbose := verbose, stopChanClosed := false,
             running := false }, ws)

/-- The function `controller.NewControllerWithPWM`, given the outcome of
`temp.NewSensor("auto")` and, tried only when that succeeds, the outcome of
`fan.NewPWMFan(pwmDevice, verbose)` with the device writes it made. -/
def NewControllerWithPWM (hwSensor : Except GoError HWSensor)
    (pwmFan : Except GoError PWMFan × List DeviceWrite) (minPWM maxPWM : Int)
    (lowTemp highTemp : F64) (interval : Nat) (verbose : Bool) :
    Except GoError TempController × List DeviceWrite :=
  match hwSensor with
  | .error e => (.error (wrapError "初始化温度传感器失败" e), [])
  | .ok sensor =>
    match NewFanController pwmFan.1 minPWM maxPWM verbose with
    | .error e => (.error (wrapError "初始化风扇控制器失败" e), pwmFan.2)
    | .ok fanCtrl =>
      (.ok { sensor := .hwmon sensor, fan := .pwm fanCtrl, lowTemp := lowTemp,
             highTemp := highTemp, interval := interval, verbose := verbose,
             stopChanClosed := false, running := false }, pwmFan.2)

/-- The method `(*TempController).Start`: its result, the controller afterwards and
whether a control loop was spawned. -/
def TempController.Start (c : TempController) : Except GoError Unit × TempController × Bool :=
  if c.running then (.error (.error "控制器已在运行"), c, false)
  else (.ok (), { c with running := true }, true)

/-- The method `(*TempController).Stop`: whether it returns or panics (closing a
closed channel panics), the controller afterwards and the device writes made. -/
def TempController.Stop (c : TempController) :
    Except GoError Unit × TempController × List DeviceWrite :=
  if !c.running then (.ok (), c, [])
  else if c.stopChanClosed then (.error (.panic "close of closed channel"), c, [])
  else (.ok (), { c with stopChanClosed := true, running := false }, [])

/-- A sequence of `Close` calls on a PWM actuator, one per outcome of the device
write: all writes made. -/
def FanControllerImpl.closes (fc : FanControllerImpl) : List Bool → List DeviceWrite
  | [] => []
  | writeOk :: rest => (fc.Close writeOk).2 ++ FanControllerImpl.closes fc rest

/-! ## `main`: configuration and start-up -/

/-- The settings of `main.go` after flags and environment are resolved. -/
structure Config where
  interval : Nat
  lowTemp : F64
  highTemp : F64
  minPWM : Int
  maxPWM : Int
  tempSensor : String
  pwmDevice : String
  verbose : Bool

/-- How `runFanController` ends up: `log.Fatal` with a message, or a running
controller that waits for the signal. -/
inductive RunOutcome where
  | fatal (msg : String)
  | started (c : TempController)

/-- The outcomes of the device probes the constructors may make. -/
structure Probes where
  zone : Except GoError ThermalZone
  hwSensor : Except GoError HWSensor
  coolingDevice : Except GoError CoolingDevice
  pwmFan : String → Except GoError PWMFan × List DeviceWrite

/-- The function `runFanController` of `main.go` up to the wait for the signal. -/
def runFanController (cfg : Config) (p : Probes) : RunOutcome × List DeviceWrite :=
  if cfg.lowTemp ≥ cfg.highTemp then (.fatal "错误: 低温阈值必须小于高温阈值", [])
  else if cfg.minPWM < 0 ∨ cfg.minPWM > 255 then
    (.fatal "错误: 最小PWM值必须在0-255之间", [])
  else if cfg.maxPWM < 0 ∨ cfg.maxPWM > 255 then
    (.fatal "错误: 最大PWM值必须在0-255之间", [])
  else if cfg.minPWM ≥ cfg.maxPWM then (.fatal "错误: 最小PWM值必须小于最大PWM值", [])
  else
    let built :=
      if cfg.tempSensor ≠ "auto" ∨ cfg.pwmDevice ≠ "auto" then
        NewControllerWithPWM p.hwSensor (p.pwmFan cfg.pwmDevice) cfg.minPWM cfg.maxPWM
          cfg.lowTemp cfg.highTemp cfg.interval cfg.verbose
      else
        NewController p.zone p.hwSensor p.coolingDevice (p.pwmFan "auto")
          cfg.lowTemp cfg.highTemp cfg.interval cfg.verbose
    match built with
    | (.error _, ws) => (.fatal "初始化控制器失败", ws)
    | (.ok ctrl, ws) =>
      match ctrl.Start with
      | (.error _, _, _) => (.fatal "启动控制器失败", ws)
      | (.ok (), running, _) => (.started running, ws)

/-- What `runFanController` does once the signal has arrived: it returns, which runs
the deferred `ctrl.Stop()`. -/
def shutdown (c : TempController) : Except GoError Unit × TempController × List DeviceWrite :=
  c.Stop

/-- The default of the flag `min-pwm`. -/
def DefaultMinPWM : Int := 50

/-- The default of the flag `max-pwm`. -/
def DefaultMaxPWM : Int := 255

/-- The default of the flag `low-temp`. -/
def DefaultLowTemp : F64 := .fin 40

/-- The default of the flag `high-temp`. -/
def DefaultHighTemp : F64 := .fin 75

/-- The default of the flag `interval`, five seconds in nanoseconds. -/
def DefaultInterval : Nat := 5000000000

/-- The default of the flag `sensor`. -/
def DefaultTempSensor : String := "auto"

/-- The default of the flag `pwm`. -/
def DefaultPWMDevice : String := "auto"

/-- The function `getEnvInt` of `main.go`; `val` is what `os.Getenv(key)` returns,
empty when the variable is not set. -/
def getEnvInt (val : String) (defaultValue : Int) : Int :=
  if val ≠ "" then
    match Atoi val with
    | some i => i
    | none => defaultValue
  else defaultValue

/-- The function `getEnvFloat` of `main.go`; `parseFloat` stands for
`strconv.ParseFloat`. -/
def getEnvFloat (parseFloat : String → Option F64) (val : String) (defaultValue : F64) :
    F64 :=
  if val ≠ "" then
    match parseFloat val with
    | some f => f
    | none => defaultValue
  else defaultValue

/-- The function `getEnvDuration` of `main.go`; `parseDuration` stands for
`time.ParseDuration`. -/
def getEnvDuration (parseDuration : String → Option Nat) (val : String)
    (defaultValue : Nat) : Nat :=
  if val ≠ "" then
    match parseDuration val with
    | some d => d
    | none => defaultValue
  else defaultValue

/-- The function `getEnvString` of `main.go`. -/
def getEnvString (val : String) (defaultValue : String) : String :=
  if val ≠ "" then val else defaultValue

/-- The function `getEnvBool` of `main.go`; `parseBool` stands for
`strconv.ParseBool`. -/
def getEnvBool (parseBool : String → Option Bool) (val : String) (defaultValue : Bool) :
    Bool :=
  if val ≠ "" then
    match parseBool val with
    | some b => b
    | none => defaultValue
  else defaultValue

/-- The flags given on the command line; `none`: the flag is absent (for the boolean
flag `verbose`, absent is `false`). -/
structure CommandLine where
  interval : Option Nat
  lowTemp : Option F64
  highTemp : Option F64
  minPWM : Option Int
  maxPWM : Option Int
  tempSensor : Option String
  pwmDevice : Option String
  verbose : Bool

/-- The values of the `FANAP_*` variables as `os.Getenv` returns them. -/
structure Environment where
  interval : String
  lowTemp : String
  highTemp : String
  minPWM : String
  maxPWM : String
  tempSensor : String
  pwmDevice : String
  verbose : String

/-- The parsers of the Go library that `main.go` applies to environment values. -/
structure Parsers where
  parseFloat : String → Option F64
  parseDuration : String → Option Nat
  parseBool : String → Option Bool

/-- The settings after `flag.Parse()`: the value of a flag given on the command
line, else its default. -/
def flagParse (cli : CommandLine) : Config :=
  { interval := cli.interval.getD DefaultInterval,
    lowTemp := cli.lowTemp.getD DefaultLowTemp,
    highTemp := cli.highTemp.getD DefaultHighTemp,
    minPWM := cli.minPWM.getD DefaultMinPWM,
    maxPWM := cli.maxPWM.getD DefaultMaxPWM,
    tempSensor := cli.tempSensor.getD DefaultTempSensor,
    pwmDevice := cli.pwmDevice.getD DefaultPWMDevice,
    verbose := cli.verbose }

/-- The configuration step of `main`: after `flag.Parse()`, every setting that
equals its default is read from the environment. -/
def resolveConfig (ps : Parsers) (cli : CommandLine) (env : Environment) : Config :=
  let flags := flagParse cli
  { interval :=
      if flags.interval = DefaultInterval then
        getEnvDuration ps.parseDuration env.interval DefaultInterval
      else flags.interval,
    lowTemp :=
      if F64.beq flags.lowTemp DefaultLowTemp then
        getEnvFloat ps.parseFloat env.lowTemp DefaultLowTemp
      else flags.lowTemp,
    highTemp :=
      if F64.beq flags.highTemp DefaultHighTemp then
        getEnvFloat ps.parseFloat env.highTemp DefaultHighTemp
      else flags.highTemp,
    minPWM :=
      if flags.minPWM = DefaultMinPWM then getEnvInt env.minPWM DefaultMinPWM
      else flags.minPWM,
    maxPWM :=
      if flags.maxPWM = DefaultMaxPWM then getEnvInt env.maxPWM DefaultMaxPWM
      else flags.maxPWM,
    tempSensor :=
      if flags.tempSensor = DefaultTempSensor then
        getEnvString env.tempSensor DefaultTempSensor
      else flags.tempSensor,
    pwmDevice :=
      if flags.pwmDevice = DefaultPWMDevice then
        getEnvString env.pwmDevice DefaultPWMDevice
      else flags.pwmDevice,
    verbose :=
      if !flags.verbose then getEnvBool ps.parseBool env.verbose false
      else flags.verbose }

/-! ## Example devices and actuators -/

/-- A cooling device with the two states off and on. -/
def exampleBinaryDevice : CoolingDevice :=
  { devicePath := "/sys/class/thermal/cooling_device0",
    typePath := "/sys/class/thermal/cooling_device0/type",
    maxState := 1, curState := 0, verbose := false }

/-- A cooling device with the states 0..4. -/
def exampleLevelDevice : CoolingDevice :=
  { devicePath := "/sys/class/thermal/cooling_device4",
    typePath := "/sys/class/thermal/cooling_device4/type",
    maxState := 4, curState := 0, verbose := false }

/-- A PWM actuator with the default range 50..255 that has written nothing yet. -/
def exampleFanController : FanControllerImpl :=
  { fan := examplePWMFan, minPWM := 50, maxPWM := 255, verbose := false, lastPWM := 0 }

/-- A PWM actuator with the range 0..255, as `NewFanController` returns it. -/
def freshFullRangeFan : FanControllerImpl :=
  { fan := examplePWMFan, minPWM := 0, maxPWM := 255, verbose := false, lastPWM := 0 }

/-- A discrete actuator on the five-state device, as `NewCoolingDeviceController`
returns it. -/
def freshLevelController : CoolingDeviceController :=
  { cooling := exampleLevelDevice, verbose := false, lastLevel := 0 }

/-- The example controller while its control loop runs. -/
def runningExampleController : TempController :=
  { exampleController with running := true }

/-- Settings with the thresholds in the wrong order. -/
def swappedThresholdConfig : Config :=
  { interval := 5000000000, lowTemp := .fin 75, highTemp := .fin 40, minPWM := 50,
    maxPWM := 255,
    tempSensor := "auto", pwmDevice := "/sys/class/hwmon/hwmon0/pwm1", verbose := false }

/-- Probes of a machine with a hwmon temperature input and a PWM fan, without thermal
zones and cooling devices. -/
def exampleProbes : Probes :=
  { zone := .error (.error "查找温度区域失败"),
    hwSensor := .ok { path := "/sys/class/hwmon/hwmon0/temp1_input" },
    coolingDevice := .error (.error "查找冷却设备失败"),
    pwmFan := fun _ =>
      (.ok examplePWMFan, [⟨"/sys/class/hwmon/hwmon0/pwm1_enable", "1"⟩]) }

/-- A thermal directory with one zone and one cooling device, of type `Processor`. -/
def processorOnlyFS : FileSystem :=
  { readFile := fun path =>
      if path = "/sys/class/thermal/cooling_device0/type" then some "Processor\n"
      else if path = "/sys/class/thermal/cooling_device0/max_state" then some "10\n"
      else if path = "/sys/class/thermal/cooling_device0/cur_state" then some "0\n"
      else none,
    readDir := fun path =>
      if path = "/sys/class/thermal" then
        some [⟨"thermal_zone0", true⟩, ⟨"cooling_device0", true⟩]
      else none,
    stat := fun _ => false }

/-- A thermal directory whose second cooling device is a fan. -/
def fanSecondFS : FileSystem :=
  { readFile := fun path =>
      if path = "/sys/class/thermal/cooling_device0/type" then some "Processor\n"
      else if path = "/sys/class/thermal/cooling_device1/type" then some "Fan\n"
      else if path = "/sys/class/thermal/cooling_device1/max_state" then some "4\n"
      else if path = "/sys/class/thermal/cooling_device1/cur_state" then some "1\n"
      else none,
    readDir := fun path =>
      if path = "/sys/class/thermal" then
        some [⟨"cooling_device0", true⟩, ⟨"cooling_device1", true⟩]
      else none,
    stat := fun _ => false }

/-- A hwmon temperature sensor, used in examples. -/
def exampleHWSensor : HWSensor :=
  { path := "/sys/class/hwmon/hwmon0/temp1_input" }

/-- A thermal zone, used in examples. -/
def exampleThermalZone : ThermalZone :=
  { path := "/sys/class/thermal/thermal_zone0" }

/-- A command line that gives only `-min-pwm=50`, the default value. -/
def minPWMDefaultCommandLine : CommandLine :=
  { interval := none, lowTemp := none, highTemp := none, minPWM := some 50,
    maxPWM := none, tempSensor := none, pwmDevice := none, verbose := false }

/-- An environment that sets only `FANAP_MIN_PWM=80`. -/
def minPWMEnvironment : Environment :=
  { interval := "", lowTemp := "", highTemp := "", minPWM := "80", maxPWM := "",
    tempSensor := "", pwmDevice := "", verbose := "" }

/-- A call of the life cycle of the controller. -/
inductive LifecycleCall where
  | start
  | stop
  deriving DecidableEq, Repr

/-- A sequence of `Start` and `Stop` calls on a controller: the controller
afterwards, or the panic that ended the sequence.  The error `Start` returns on a
running controller is an ordinary result and the sequence goes on. -/
def TempController.calls (c : TempController) : List LifecycleCall → Except GoError TempController
  | [] => .ok c
  | .start :: rest => TempController.calls c.Start.2.1 rest
  | .stop :: rest =>
    match c.Stop with
    | (.error e, _, _) => .error e
    | (.ok (), stopped, _) => TempController.calls stopped rest

/-- No `Start` comes after a `Stop` in a sequence of calls. -/
def noRestart : List LifecycleCall → Bool
  | [] => true
  | .start :: rest => noRestart rest
  | .stop :: rest => rest.all (fun call => call = .stop)

/-- A sequence of `SetSpeed` calls on a discrete actuator, each with its speed and
the outcome of the device write it may attempt: the actuator afterwards and all
writes made. -/
def CoolingDeviceController.setSpeeds (cc : CoolingDeviceController) :
    List (Int × Bool) → CoolingDeviceController × List DeviceWrite
  | [] => (cc, [])
  | (speed, writeOk) :: rest =>
    let step := cc.SetSpeed speed writeOk
    let tail := CoolingDeviceController.setSpeeds step.2.1 rest
    (tail.1, step.2.2 ++ tail.2)

/-- A discrete actuator on a device that reports a negative `max_state`. -/
def negativeMaxController : CoolingDeviceController :=
  { cooling := { devicePath := "/sys/class/thermal/cooling_device4",
                 typePath := "/sys/class/thermal/cooling_device4/type",
                 maxState := -4, curState := 0, verbose := false },
    verbose := false, lastLevel := 0 }

/-- A controller with the thresholds 0.0 and 100.0 on a PWM actuator with the range
0..100. -/
def percentController : TempController :=
  { exampleController with
    fan := .pwm { fan := examplePWMFan, minPWM := 0, maxPWM := 100, verbose := false,
                  lastPWM := 0 },
    lowTemp := .fin 0, highTemp := .fin 100 }

/-- A controller with the default thresholds on a PWM actuator with the range
`-2^62..2^62`. -/
def wideRangeController : TempController :=
  { exampleController with
    fan := .pwm { fan := examplePWMFan, minPWM := -4611686018427387904,
                  maxPWM := 4611686018427387904, verbose := false, lastPWM := 0 } }

/-- The default controller with the low threshold `-Inf`, which `-low-temp=-Inf` sets. -/
def infiniteLowController : TempController :=
  { exampleController with lowTemp := .negInf }

/-- A thermal directory whose cooling device is a fan that reports the least
`max_state` for which `255 * max_state` exceeds the range of `int`. -/
def hugeLevelFS : FileSystem :=
  { readFile := fun path =>
      if path = "/sys/class/thermal/cooling_device0/type" then some "Fan\n"
      else if path = "/sys/class/thermal/cooling_device0/max_state" then
        some "36170086419038337\n"
      else if path = "/sys/class/thermal/cooling_device0/cur_state" then some "0\n"
      else none,
    readDir := fun path =>
      if path = "/sys/class/thermal" then some [⟨"cooling_device0", true⟩]
      else none,
    stat := fun _ => false }

/-- The cooling device `NewDevice` finds in `hugeLevelFS`. -/
def hugeLevelDevice : CoolingDevice :=
  { devicePath := "/sys/class/thermal/cooling_device0",
    typePath := "/sys/class/thermal/cooling_device0/type",
    maxState := 36170086419038337, curState := 0, verbose := false }

/-- A discrete actuator on `hugeLevelDevice`, as `NewCoolingDeviceController` returns
it. -/
def hugeLevelController : CoolingDeviceController :=
  { cooling := hugeLevelDevice, verbose := false, lastLevel := 0 }

/-- The cooling device `NewDevice` finds in `fanSecondFS`: a fan with the states 0..4
that runs at state 1. -/
def runningLevelDevice : CoolingDevice :=
  { devicePath := "/sys/class/thermal/cooling_device1",
    typePath := "/sys/class/thermal/cooling_device1/type",
    maxState := 4, curState := 1, verbose := false }

/-- The settings `-low-temp=-Inf -pwm=/sys/class/hwmon/hwmon0/pwm1` give, the others at
their defaults. -/
def infiniteLowConfig : Config :=
  { interval := 5000000000, lowTemp := .negInf, highTemp := .fin 75, minPWM := 50,
    maxPWM := 255, tempSensor := "auto", pwmDevice := "/sys/class/hwmon/hwmon0/pwm1",
    verbose := false }

/-! ## Rounding to `float64` -/

theorem log2Fuel_eq_log (fuel n : Nat) (h : n ≤ fuel) : log2Fuel fuel n = Nat.log 2 n := by
  induction fuel generalizing n with
  | zero =>
    have : n = 0 := by omega
    subst this
    simp [log2Fuel]
  | succ fuel ih =>
    unfold log2Fuel
    by_cases h2 : n < 2
    · simp only [h2, if_true]
      exact (Nat.log_of_lt h2).symm
    · simp only [h2, if_false]
      rw [ih (n / 2) (by omega)]
      exact (Nat.log_of_one_lt_of_le (by decide) (by omega)).symm

theorem log2Fuel_spec (n : Nat) (hn : n ≠ 0) :
    2 ^ log2Fuel n n ≤ n ∧ n < 2 ^ (log2Fuel n n + 1) := by
  rw [log2Fuel_eq_log n n le_rfl]
  exact ⟨Nat.pow_log_le_self 2 hn, Nat.lt_pow_succ_log_self (by decide) n⟩

theorem abs_eq_natAbs_div_den (q : ℚ) : |q| = (q.num.natAbs : ℚ) / (q.den : ℚ) := by
  have hden : (0 : ℚ) < q.den := by exact_mod_cast q.den_pos
  rw [Nat.cast_natAbs]
  conv_lhs => rw [← Rat.num_div_den q]
  rw [abs_div, abs_of_pos hden]
  norm_cast

/-- The binary exponent brackets the number. -/
theorem binade_spec (q : ℚ) (hq : q ≠ 0) :
    (2 : ℚ) ^ binade q ≤ |q| ∧ |q| < (2 : ℚ) ^ (binade q + 1) := by
  have hnum : q.num.natAbs ≠ 0 := by
    intro h
    exact hq (Rat.zero_of_num_zero (Int.natAbs_eq_zero.mp h))
  have hn := log2Fuel_spec q.num.natAbs hnum
  have hd := log2Fuel_spec q.den q.den_nz
  have hdpos : (0 : ℚ) < q.den := by exact_mod_cast q.den_pos
  have habs := abs_eq_natAbs_div_den q
  set a := log2Fuel q.num.natAbs q.num.natAbs with ha
  set b := log2Fuel q.den q.den with hb
  have h2 : (0 : ℚ) < 2 := by norm_num
  have hn1 : ((2 : ℚ) ^ a) ≤ (q.num.natAbs : ℚ) := by exact_mod_cast hn.1
  have hn2 : (q.num.natAbs : ℚ) < (2 : ℚ) ^ (a + 1) := by exact_mod_cast hn.2
  have hd1 : ((2 : ℚ) ^ b) ≤ (q.den : ℚ) := by exact_mod_cast hd.1
  have hd2 : (q.den : ℚ) < (2 : ℚ) ^ (b + 1) := by exact_mod_cast hd.2
  have hpb : (0 : ℚ) < 2 ^ b := pow_pos h2 b
  -- upper bound
  have hup : |q| < (2 : ℚ) ^ ((a : ℤ) - (b : ℤ) + 1) := by
    rw [habs, div_lt_iff₀ hdpos]
    have : (2 : ℚ) ^ ((a : ℤ) - (b : ℤ) + 1) = 2 ^ (a + 1) / 2 ^ b := by
      rw [show (a : ℤ) - (b : ℤ) + 1 = ((a + 1 : ℕ) : ℤ) - ((b : ℕ) : ℤ) by push_cast; ring,
        zpow_sub₀ (by norm_num), zpow_natCast, zpow_natCast]
    rw [this, div_mul_eq_mul_div, lt_div_iff₀ hpb]
    calc (q.num.natAbs : ℚ) * 2 ^ b < 2 ^ (a + 1) * 2 ^ b :=
          mul_lt_mul_of_pos_right hn2 hpb
      _ ≤ 2 ^ (a + 1) * q.den := mul_le_mul_of_nonneg_left hd1 (by positivity)
  have hlow : (2 : ℚ) ^ ((a : ℤ) - (b : ℤ) - 1) < |q| := by
    rw [habs, lt_div_iff₀ hdpos]
    have : (2 : ℚ) ^ ((a : ℤ) - (b : ℤ) - 1) = 2 ^ a / 2 ^ (b + 1) := by
      rw [show (a : ℤ) - (b : ℤ) - 1 = ((a : ℕ) : ℤ) - ((b + 1 : ℕ) : ℤ) by push_cast; ring,
        zpow_sub₀ (by norm_num), zpow_natCast, zpow_natCast]
    rw [this, div_mul_eq_mul_div, div_lt_iff₀ (by positivity)]
    calc (2 : ℚ) ^ a * q.den < 2 ^ a * 2 ^ (b + 1) :=
          mul_lt_mul_of_pos_left hd2 (by positivity)
      _ ≤ q.num.natAbs * 2 ^ (b + 1) := mul_le_mul_of_nonneg_right hn1 (by positivity)
  unfold binade
  simp only [← ha, ← hb]
  by_cases hc : (2 : ℚ) ^ ((a : ℤ) - (b : ℤ)) ≤ |q|
  · rw [if_pos hc]
    exact ⟨hc, hup⟩
  · rw [if_neg hc]
    refine ⟨hlow.le, ?_⟩
    rw [sub_add_cancel]
    exact not_le.mp hc

theorem roundHalfEven_intCast (n : Int) : roundHalfEven (n : ℚ) = n := by
  unfold roundHalfEven
  simp

theorem roundHalfEven_mono {x y : ℚ} (h : x ≤ y) : roundHalfEven x ≤ roundHalfEven y := by
  have hf : ⌊x⌋ ≤ ⌊y⌋ := Int.floor_mono h
  have hx1 := Int.floor_le x
  have hx2 := Int.lt_floor_add_one x
  have hy1 := Int.floor_le y
  have hy2 := Int.lt_floor_add_one y
  rcases lt_or_eq_of_le hf with hlt | heq
  · have hxle : roundHalfEven x ≤ ⌊x⌋ + 1 := by
      unfold roundHalfEven
      simp only
      split_ifs <;> omega
    have hyge : ⌊y⌋ ≤ roundHalfEven y := by
      unfold roundHalfEven
      simp only
      split_ifs <;> omega
    omega
  · have hfr : x - ⌊x⌋ ≤ y - ⌊y⌋ := by
      rw [heq]
      linarith
    unfold roundHalfEven
    simp only
    rw [heq] at hfr ⊢
    split_ifs <;> first | omega | (exfalso; linarith)

theorem roundHalfEven_le_of_le {x : ℚ} {n : Int} (h : x ≤ n) : roundHalfEven x ≤ n := by
  have := roundHalfEven_mono h
  rwa [roundHalfEven_intCast] at this

theorem roundHalfEven_ge_of_ge {x : ℚ} {n : Int} (h : (n : ℚ) ≤ x) : n ≤ roundHalfEven x := by
  have := roundHalfEven_mono h
  rwa [roundHalfEven_intCast] at this

theorem two_zpow_pos (e : Int) : (0 : ℚ) < 2 ^ e := zpow_pos (by norm_num) e

theorem ulpExponent_ge (q : ℚ) : -1074 ≤ ulpExponent q := by
  unfold ulpExponent
  have := le_max_right (binade q) (-1022)
  omega

theorem binade_le_of_le {x y : ℚ} (hx : 0 < x) (h : x ≤ y) : binade x ≤ binade y := by
  have hy : 0 < y := lt_of_lt_of_le hx h
  have sx := binade_spec x hx.ne'
  have sy := binade_spec y hy.ne'
  rw [abs_of_pos hx] at sx
  rw [abs_of_pos hy] at sy
  have : (2 : ℚ) ^ binade x < 2 ^ (binade y + 1) := lt_of_le_of_lt (sx.1.trans h) sy.2
  have := (zpow_lt_zpow_iff_right₀ (by norm_num : (1 : ℚ) < 2)).mp this
  omega

/-- The scaled value of a positive number stays below `2^53`. -/
theorem scaled_lt (x : ℚ) (hx : 0 < x) : x / 2 ^ ulpExponent x < 2 ^ (53 : Nat) := by
  have sx := binade_spec x hx.ne'
  rw [abs_of_pos hx] at sx
  rw [div_lt_iff₀ (two_zpow_pos _)]
  have hle : binade x + 1 ≤ ulpExponent x + 53 := by
    unfold ulpExponent
    have := le_max_left (binade x) (-1022)
    omega
  calc x < 2 ^ (binade x + 1) := sx.2
    _ ≤ 2 ^ (ulpExponent x + 53) := zpow_le_zpow_right₀ (by norm_num) hle
    _ = 2 ^ (53 : Nat) * 2 ^ ulpExponent x := by
      rw [zpow_add₀ (by norm_num), mul_comm, zpow_ofNat]

theorem roundQ_nonneg {x : ℚ} (hx : 0 ≤ x) : 0 ≤ roundQ x := by
  unfold roundQ
  have h0 : (0 : ℚ) ≤ x / 2 ^ ulpExponent x := div_nonneg hx (two_zpow_pos _).le
  have : (0 : Int) ≤ roundHalfEven (x / 2 ^ ulpExponent x) :=
    roundHalfEven_ge_of_ge (by simpa using h0)
  exact mul_nonneg (by exact_mod_cast this) (two_zpow_pos _).le

/-- Rounding keeps the order of numbers that are not negative. -/
theorem roundQ_mono_of_nonneg {x y : ℚ} (hx : 0 ≤ x) (h : x ≤ y) : roundQ x ≤ roundQ y := by
  rcases eq_or_lt_of_le hx with h0 | hpos
  · have hz : roundQ x = 0 := by
      rw [← h0]
      unfold roundQ
      simp [roundHalfEven_intCast, roundHalfEven]
    rw [hz]
    exact roundQ_nonneg (hx.trans h)
  · have hy : 0 < y := lt_of_lt_of_le hpos h
    have hb := binade_le_of_le hpos h
    have he : ulpExponent x ≤ ulpExponent y := by
      unfold ulpExponent
      have := max_le_max hb (le_refl (-1022 : Int))
      omega
    rcases eq_or_lt_of_le he with heq | hlt
    · unfold roundQ
      rw [heq]
      have hdiv : x / 2 ^ ulpExponent y ≤ y / 2 ^ ulpExponent y :=
        div_le_div_of_nonneg_right h (two_zpow_pos _).le
      have := roundHalfEven_mono hdiv
      exact mul_le_mul_of_nonneg_right (by exact_mod_cast this) (two_zpow_pos _).le
    · -- the rounded `x` stays at or below the power of two that `y` starts from
      have hxs := scaled_lt x hpos
      have hxr : roundHalfEven (x / 2 ^ ulpExponent x) ≤ (2 ^ (53 : Nat) : Int) :=
        roundHalfEven_le_of_le (by push_cast; exact hxs.le)
      have hymax : max (binade y) (-1022) = binade y := by
        unfold ulpExponent at hlt
        have := le_max_right (binade x) (-1022)
        rcases max_cases (binade y) (-1022) with hc | hc
        · exact hc.1
        · omega
      have hey : ulpExponent y + 52 = binade y := by
        unfold ulpExponent
        omega
      have sy := binade_spec y hy.ne'
      rw [abs_of_pos hy] at sy
      have hys : (2 : ℚ) ^ (52 : Nat) ≤ y / 2 ^ ulpExponent y := by
        rw [le_div_iff₀ (two_zpow_pos _)]
        calc (2 : ℚ) ^ (52 : Nat) * 2 ^ ulpExponent y = 2 ^ (ulpExponent y + 52) := by
              rw [zpow_add₀ (by norm_num), mul_comm, zpow_ofNat]
          _ = 2 ^ binade y := by rw [hey]
          _ ≤ y := sy.1
      have hyr : (2 ^ (52 : Nat) : Int) ≤ roundHalfEven (y / 2 ^ ulpExponent y) :=
        roundHalfEven_ge_of_ge (by push_cast; exact hys)
      unfold roundQ
      calc (roundHalfEven (x / 2 ^ ulpExponent x) : ℚ) * 2 ^ ulpExponent x
          ≤ (2 ^ (53 : Nat) : ℚ) * 2 ^ ulpExponent x :=
            mul_le_mul_of_nonneg_right (by exact_mod_cast hxr) (two_zpow_pos _).le
        _ = 2 ^ (ulpExponent x + 53) := by
            rw [zpow_add₀ (by norm_num), mul_comm, zpow_ofNat]
        _ ≤ 2 ^ (ulpExponent y + 52) := zpow_le_zpow_right₀ (by norm_num) (by omega)
        _ = (2 ^ (52 : Nat) : ℚ) * 2 ^ ulpExponent y := by
            rw [zpow_add₀ (by norm_num), mul_comm, zpow_ofNat]
        _ ≤ (roundHalfEven (y / 2 ^ ulpExponent y) : ℚ) * 2 ^ ulpExponent y :=
            mul_le_mul_of_nonneg_right (by exact_mod_cast hyr) (two_zpow_pos _).le

theorem wrapInt64_of_range {x : Int} (h1 : minInt ≤ x) (h2 : x ≤ maxInt) : wrapInt64 x = x := by
  unfold wrapInt64
  unfold minInt at h1
  unfold maxInt at h2
  omega

theorem roundQ_zero : roundQ 0 = 0 := by
  unfold roundQ
  simp [roundHalfEven]

/-- A number that is a whole multiple of its unit in the last place is not changed by
rounding. -/
theorem roundQ_of_scaled_int {q : ℚ} (n : Int) (h : q / 2 ^ ulpExponent q = n) :
    roundQ q = q := by
  unfold roundQ
  rw [h, roundHalfEven_intCast, ← h]
  exact div_mul_cancel₀ q (two_zpow_pos _).ne'

/-- Integers up to `2^53` are `float64` values. -/
theorem roundQ_intCast {a : Int} (h0 : 0 ≤ a) (h1 : a ≤ 2 ^ (53 : Nat)) :
    roundQ (a : ℚ) = a := by
  rcases eq_or_lt_of_le h0 with hz | hpos
  · rw [← hz]
    simpa using roundQ_zero
  · have hq : (0 : ℚ) < a := by exact_mod_cast hpos
    have sp := binade_spec (a : ℚ) hq.ne'
    rw [abs_of_pos hq] at sp
    have h1q : (1 : ℚ) ≤ a := by exact_mod_cast hpos
    have h53 : (a : ℚ) ≤ 2 ^ (53 : Int) := by
      rw [zpow_ofNat]
      exact_mod_cast h1
    have he0 : 0 ≤ binade (a : ℚ) := by
      have : (2 : ℚ) ^ (0 : Int) < 2 ^ (binade (a : ℚ) + 1) := by
        rw [zpow_zero]
        exact lt_of_le_of_lt h1q sp.2
      have := (zpow_lt_zpow_iff_right₀ (by norm_num : (1 : ℚ) < 2)).mp this
      omega
    have he53 : binade (a : ℚ) ≤ 53 :=
      (zpow_le_zpow_iff_right₀ (by norm_num : (1 : ℚ) < 2)).mp (sp.1.trans h53)
    have hu : ulpExponent (a : ℚ) = binade (a : ℚ) - 52 := by
      unfold ulpExponent
      rw [max_eq_left (by omega)]
    rcases eq_or_lt_of_le he53 with he | hlt
    · -- the integer is `2^53` itself
      have ha : (a : ℚ) = 2 ^ (53 : Int) := le_antisymm h53 (by rw [← he]; exact sp.1)
      apply roundQ_of_scaled_int (2 ^ (52 : Nat))
      rw [hu, he, ha]
      norm_num
    · obtain ⟨k, hk⟩ : ∃ k : Nat, (k : Int) = 52 - binade (a : ℚ) := ⟨(52 - binade (a : ℚ)).toNat, by omega⟩
      apply roundQ_of_scaled_int (a * 2 ^ k)
      have hexp : binade (a : ℚ) - 52 = -(k : Int) := by omega
      rw [hu, hexp, zpow_neg, zpow_natCast, div_inv_eq_mul]
      push_cast
      ring

theorem roundQ_one : roundQ 1 = 1 := by
  have := roundQ_intCast (a := 1) (by decide) (by norm_num)
  simpa using this

/-- The smallest positive `float64`. -/
theorem roundQ_minSubnormal : roundQ ((2 : ℚ) ^ (-1074 : Int)) = (2 : ℚ) ^ (-1074 : Int) := by
  decide!

theorem roundQ_pos_of_ge {x : ℚ} (h : (2 : ℚ) ^ (-1074 : Int) ≤ x) : 0 < roundQ x := by
  have := roundQ_mono_of_nonneg (two_zpow_pos (-1074)).le h
  rw [roundQ_minSubnormal] at this
  exact lt_of_lt_of_le (two_zpow_pos (-1074)) this

/-- Every number rounding produces is a whole multiple of `2^(-1074)`. -/
theorem roundQ_multiple (q : ℚ) : ∃ m : Int, roundQ q = m * (2 : ℚ) ^ (-1074 : Int) := by
  obtain ⟨k, hk⟩ : ∃ k : Nat, (k : Int) = ulpExponent q + 1074 :=
    ⟨(ulpExponent q + 1074).toNat, by have := ulpExponent_ge q; omega⟩
  refine ⟨roundHalfEven (q / 2 ^ ulpExponent q) * 2 ^ k, ?_⟩
  have he : ulpExponent q = (k : Int) + (-1074) := by omega
  unfold roundQ
  rw [he, zpow_add₀ (by norm_num), zpow_natCast]
  push_cast
  ring

/-! ## Operations on `float64` -/

theorem F64.round_of_nonneg {q : ℚ} (h0 : 0 ≤ roundQ q) (h1 : roundQ q < 2 ^ (1024 : Nat)) :
    F64.round false q = .fin (roundQ q) := by
  have hpos : (0 : ℚ) < 2 ^ (1024 : Nat) := by positivity
  unfold F64.round
  rw [if_neg (not_le.mpr h1), if_neg (by intro h; linarith)]
  by_cases hz : roundQ q = 0
  · rw [if_pos hz, hz]
    rfl
  · rw [if_neg hz]

theorem F64.round_lt_of_isFinite {neg : Bool} {q : ℚ} (h : (F64.round neg q).isFinite = true) :
    roundQ q < 2 ^ (1024 : Nat) := by
  by_contra hc
  rw [not_lt] at hc
  unfold F64.round at h
  rw [if_pos hc] at h
  simp [F64.isFinite] at h

/-- The value of a representable `float64` is a whole multiple of `2^(-1074)`. -/
theorem F64.representable_multiple {x : F64} (hr : x.representable = true) :
    ∃ m : Int, x.toRat = m * (2 : ℚ) ^ (-1074 : Int) := by
  cases x with
  | fin q =>
    simp only [F64.representable, decide_eq_true_eq] at hr
    unfold F64.round at hr
    by_cases h1 : (2 : ℚ) ^ (1024 : Nat) ≤ roundQ q
    · rw [if_pos h1] at hr
      cases hr
    · rw [if_neg h1] at hr
      by_cases h2 : roundQ q ≤ -(2 : ℚ) ^ (1024 : Nat)
      · rw [if_pos h2] at hr
        cases hr
      · rw [if_neg h2] at hr
        obtain ⟨m, hm⟩ := roundQ_multiple q
        by_cases h3 : roundQ q = 0
        · rw [if_pos h3] at hr
          unfold F64.zero at hr
          by_cases hneg : q < 0
          · simp [hneg] at hr
          · simp only [hneg, decide_False] at hr
            injection hr with hq
            exact ⟨0, by simp [F64.toRat, ← hq]⟩
        · rw [if_neg h3] at hr
          injection hr with hq
          exact ⟨m, by simp only [F64.toRat]; rw [← hq]; exact hm⟩
  | nan => exact ⟨0, by simp [F64.toRat]⟩
  | posInf => exact ⟨0, by simp [F64.toRat]⟩
  | negInf => exact ⟨0, by simp [F64.toRat]⟩
  | negZero => exact ⟨0, by simp [F64.toRat]⟩

/-- Two representable numbers differ by at least the smallest positive `float64`. -/
theorem F64.representable_gap {x y : F64} (hx : x.representable = true)
    (hy : y.representable = true) (h : x.toRat < y.toRat) :
    (2 : ℚ) ^ (-1074 : Int) ≤ y.toRat - x.toRat := by
  obtain ⟨m, hm⟩ := F64.representable_multiple hx
  obtain ⟨n, hn⟩ := F64.representable_multiple hy
  have hu := two_zpow_pos (-1074)
  rw [hm, hn] at h ⊢
  have hmn : m < n := by
    by_contra hc
    rw [not_lt] at hc
    have : (n : ℚ) * 2 ^ (-1074 : Int) ≤ m * 2 ^ (-1074 : Int) :=
      mul_le_mul_of_nonneg_right (by exact_mod_cast hc) hu.le
    linarith
  have h1 : (1 : ℚ) ≤ (n : ℚ) - m := by
    have : m + 1 ≤ n := hmn
    have : ((m + 1 : Int) : ℚ) ≤ n := by exact_mod_cast this
    push_cast at this
    linarith
  calc (2 : ℚ) ^ (-1074 : Int) = 1 * 2 ^ (-1074 : Int) := (one_mul _).symm
    _ ≤ ((n : ℚ) - m) * 2 ^ (-1074 : Int) := mul_le_mul_of_nonneg_right h1 hu.le
    _ = n * 2 ^ (-1074 : Int) - m * 2 ^ (-1074 : Int) := by ring

theorem F64.lt_iff_toRat {x y : F64} (hx : x.isFinite = true) (hy : y.isFinite = true) :
    x < y ↔ x.toRat < y.toRat := by
  change F64.lt x y = true ↔ _
  cases x <;> cases y <;> simp [F64.isFinite] at hx hy <;> simp [F64.lt, F64.toRat]

theorem F64.le_iff_toRat {x y : F64} (hx : x.isFinite = true) (hy : y.isFinite = true) :
    x ≤ y ↔ x.toRat ≤ y.toRat := by
  change F64.le x y = true ↔ _
  cases x <;> cases y <;> simp [F64.isFinite] at hx hy <;> simp [F64.le, F64.toRat]

theorem F64.not_le_of_lt {x y : F64} (h : x < y) : ¬ y ≤ x := by
  change F64.lt x y = true at h
  change ¬ F64.le y x = true
  cases x <;> cases y <;> simp [F64.lt, F64.le, F64.toRat] at h ⊢ <;> linarith

theorem F64.lt_of_not_le {x y : F64} (hx : x ≠ .nan) (hy : y ≠ .nan) (h : ¬ x ≤ y) : y < x := by
  change ¬ F64.le x y = true at h
  change F64.lt y x = true
  cases x <;> cases y <;> simp [F64.lt, F64.le, F64.toRat] at h hx hy ⊢ <;> linarith

theorem F64.lt_of_le_of_lt {x y z : F64} (h1 : x ≤ y) (h2 : y < z) : x < z := by
  change F64.le x y = true at h1
  change F64.lt y z = true at h2
  change F64.lt x z = true
  cases x <;> cases y <;> cases z <;> simp [F64.lt, F64.le, F64.toRat] at h1 h2 ⊢ <;> linarith

theorem F64.lt_of_lt_of_le {x y z : F64} (h1 : x < y) (h2 : y ≤ z) : x < z := by
  change F64.lt x y = true at h1
  change F64.le y z = true at h2
  change F64.lt x z = true
  cases x <;> cases y <;> cases z <;> simp [F64.lt, F64.le, F64.toRat] at h1 h2 ⊢ <;> linarith

theorem F64.ne_nan_of_le {x y : F64} (h : x ≤ y) : x ≠ .nan ∧ y ≠ .nan := by
  change F64.le x y = true at h
  cases x <;> cases y <;> simp [F64.le] at h ⊢

theorem F64.ne_nan_of_isFinite {x : F64} (h : x.isFinite = true) : x ≠ .nan := by
  cases x <;> simp [F64.isFinite] at h ⊢

theorem F64.isFinite_of_between {lo t hi : F64} (hlo : lo.isFinite = true)
    (hhi : hi.isFinite = true) (h1 : lo < t) (h2 : t < hi) : t.isFinite = true := by
  change F64.lt lo t = true at h1
  change F64.lt t hi = true at h2
  cases lo <;> cases hi <;> simp [F64.isFinite] at hlo hhi <;>
    cases t <;> simp [F64.lt, F64.isFinite] at h1 h2 ⊢

theorem F64.sub_of_isFinite {x y : F64} (hx : x.isFinite = true) (hy : y.isFinite = true) :
    x - y = if x.toRat - y.toRat = 0 then F64.zero (x.isNeg && !y.isNeg)
      else F64.round (decide (x.toRat - y.toRat < 0)) (x.toRat - y.toRat) := by
  change F64.sub x y = _
  cases x <;> cases y <;> simp [F64.isFinite] at hx hy <;> rfl

/-- The difference of two finite numbers, the first the greater: the exact difference,
rounded. -/
theorem F64.sub_of_lt {x y : F64} (hx : x.isFinite = true) (hy : y.isFinite = true)
    (h : y.toRat < x.toRat) : x - y = F64.round false (x.toRat - y.toRat) := by
  have hpos : 0 < x.toRat - y.toRat := sub_pos.mpr h
  rw [F64.sub_of_isFinite hx hy, if_neg hpos.ne', decide_eq_false (not_lt.mpr hpos.le)]

theorem F64.div_fin_fin {a b : ℚ} (ha : 0 ≤ a) (hb : 0 < b) :
    F64.fin a / F64.fin b = F64.round false (a / b) := by
  change F64.div (F64.fin a) (F64.fin b) = _
  simp [F64.div, F64.isInf, F64.isZero, F64.isNeg, F64.toRat, hb.ne', not_lt.mpr ha,
    not_lt.mpr hb.le]

theorem F64.mul_fin_fin {a b : ℚ} (ha : 0 ≤ a) (hb : 0 ≤ b) :
    F64.fin a * F64.fin b = F64.round false (a * b) := by
  change F64.mul (F64.fin a) (F64.fin b) = _
  simp [F64.mul, F64.isInf, F64.isNeg, F64.toRat, not_lt.mpr ha, not_lt.mpr hb]

theorem F64.ofInt_of_le {a : Int} (h0 : 0 ≤ a) (h1 : a ≤ 2 ^ (53 : Nat)) :
    F64.ofInt a = .fin (a : ℚ) := by
  have hr := roundQ_intCast h0 h1
  unfold F64.ofInt
  rw [decide_eq_false (not_lt.mpr h0), F64.round_of_nonneg, hr]
  · rw [hr]
    exact_mod_cast h0
  · rw [hr]
    have : (a : ℚ) ≤ 2 ^ (53 : Nat) := by exact_mod_cast h1
    have h2 : (2 : ℚ) ^ (53 : Nat) < 2 ^ (1024 : Nat) := by norm_num
    linarith

theorem truncToInt_of_nonneg {x : ℚ} (hx : 0 ≤ x) : truncToInt x = ⌊x⌋ := by
  simp [truncToInt, hx]

theorem F64.toInt_fin (arch : Arch) {q : ℚ} (h0 : 0 ≤ q) (h1 : ⌊q⌋ ≤ maxInt) :
    F64.toInt arch (.fin q) = ⌊q⌋ := by
  have hfl : 0 ≤ ⌊q⌋ := Int.floor_nonneg.mpr h0
  have hmin : minInt ≤ ⌊q⌋ := by
    unfold minInt
    omega
  simp [F64.toInt, F64.toRat, truncToInt_of_nonneg h0, hmin, h1]

theorem F64.toInt_of_range (arch : Arch) {q : ℚ}
    (h : minInt ≤ truncToInt q ∧ truncToInt q ≤ maxInt) :
    F64.toInt arch (.fin q) = truncToInt q := by
  simp only [F64.toInt, F64.toRat]
  rw [if_pos h]

/-! ## Interpolation -/

theorem floatRatio_bounds {x d : ℚ} (hx : 0 ≤ x) (hxd : x ≤ d) (hD : 0 < roundQ d) :
    0 ≤ roundQ (roundQ x / roundQ d) ∧ roundQ (roundQ x / roundQ d) ≤ 1 := by
  have hX0 : 0 ≤ roundQ x := roundQ_nonneg hx
  have hXD : roundQ x ≤ roundQ d := roundQ_mono_of_nonneg hx hxd
  have hq0 : 0 ≤ roundQ x / roundQ d := div_nonneg hX0 hD.le
  have hq1 : roundQ x / roundQ d ≤ 1 := (div_le_one hD).mpr hXD
  refine ⟨roundQ_nonneg hq0, ?_⟩
  have := roundQ_mono_of_nonneg hq0 hq1
  rwa [roundQ_one] at this

theorem floatProduct_bounds {a : Int} {r : ℚ} (h0 : 0 ≤ a) (h1 : a ≤ 2 ^ (53 : Nat))
    (hr0 : 0 ≤ r) (hr1 : r ≤ 1) :
    0 ≤ roundQ ((a : ℚ) * r) ∧ roundQ ((a : ℚ) * r) ≤ a := by
  have ha : (0 : ℚ) ≤ a := by exact_mod_cast h0
  have hp0 : 0 ≤ (a : ℚ) * r := mul_nonneg ha hr0
  have hp1 : (a : ℚ) * r ≤ a := by
    calc (a : ℚ) * r ≤ a * 1 := mul_le_mul_of_nonneg_left hr1 ha
      _ = a := mul_one _
  refine ⟨roundQ_nonneg hp0, ?_⟩
  have := roundQ_mono_of_nonneg hp0 hp1
  rwa [roundQ_intCast h0 h1] at this

/-- The interpolated product, each operation rounded, does not decrease when the
temperature rises. -/
theorem floatInterpolation_mono {a : Int} {l h t1 t2 : ℚ} (h0 : 0 ≤ a)
    (hD : 0 < roundQ (h - l)) (h1 : l ≤ t1) (h12 : t1 ≤ t2) :
    roundQ ((a : ℚ) * roundQ (roundQ (t1 - l) / roundQ (h - l))) ≤
      roundQ ((a : ℚ) * roundQ (roundQ (t2 - l) / roundQ (h - l))) := by
  have ha : (0 : ℚ) ≤ a := by exact_mod_cast h0
  have hx1 : 0 ≤ t1 - l := sub_nonneg.mpr h1
  have hX : roundQ (t1 - l) ≤ roundQ (t2 - l) := roundQ_mono_of_nonneg hx1 (by linarith)
  have hq0 : 0 ≤ roundQ (t1 - l) / roundQ (h - l) := div_nonneg (roundQ_nonneg hx1) hD.le
  have hq : roundQ (t1 - l) / roundQ (h - l) ≤ roundQ (t2 - l) / roundQ (h - l) :=
    div_le_div_of_nonneg_right hX hD.le
  have hR : roundQ (roundQ (t1 - l) / roundQ (h - l)) ≤
      roundQ (roundQ (t2 - l) / roundQ (h - l)) := roundQ_mono_of_nonneg hq0 hq
  exact roundQ_mono_of_nonneg (mul_nonneg ha (roundQ_nonneg hq0))
    (mul_le_mul_of_nonneg_left hR ha)

/-! ## The distance between the `float64` interpolation and the exact one -/

theorem roundHalfEven_error (z : ℚ) : |(roundHalfEven z : ℚ) - z| ≤ 1 / 2 := by
  have h1 := Int.floor_le z
  have h2 := Int.lt_floor_add_one z
  unfold roundHalfEven
  simp only
  rw [abs_le]
  split_ifs with ha hb hc
  · constructor <;> linarith
  · push_cast
    constructor <;> linarith
  · constructor <;> linarith
  · push_cast
    constructor <;> linarith

/-- Rounding moves a number by at most half a unit in the last place. -/
theorem roundQ_error_ulp (y : ℚ) : |roundQ y - y| ≤ 2 ^ ulpExponent y / 2 := by
  have hU := two_zpow_pos (ulpExponent y)
  have hy : y = y / 2 ^ ulpExponent y * 2 ^ ulpExponent y := (div_mul_cancel₀ y hU.ne').symm
  have he := roundHalfEven_error (y / 2 ^ ulpExponent y)
  have hrw : roundQ y - y =
      ((roundHalfEven (y / 2 ^ ulpExponent y) : ℚ) - y / 2 ^ ulpExponent y) *
        2 ^ ulpExponent y := by
    unfold roundQ
    rw [sub_mul, ← hy]
  rw [hrw, abs_mul, abs_of_pos hU]
  calc |(roundHalfEven (y / 2 ^ ulpExponent y) : ℚ) - y / 2 ^ ulpExponent y| *
        2 ^ ulpExponent y ≤ 1 / 2 * 2 ^ ulpExponent y :=
        mul_le_mul_of_nonneg_right he hU.le
    _ = 2 ^ ulpExponent y / 2 := by ring

/-- In the normal range rounding has a relative error of at most `2^(-53)`. -/
theorem roundQ_error_normal {y : ℚ} (hy : y ≠ 0) (hb : -1022 ≤ binade y) :
    |roundQ y - y| ≤ |y| * 2 ^ (-53 : Int) := by
  have hs := (binade_spec y hy).1
  have hu : ulpExponent y = binade y + (-52) := by
    unfold ulpExponent
    rw [max_eq_left hb]
    ring
  have h := roundQ_error_ulp y
  rw [hu, zpow_add₀ (by norm_num : (2 : ℚ) ≠ 0)] at h
  have h52 : (2 : ℚ) ^ (-52 : Int) / 2 = 2 ^ (-53 : Int) := by norm_num
  calc |roundQ y - y| ≤ 2 ^ binade y * 2 ^ (-52 : Int) / 2 := h
    _ = 2 ^ binade y * 2 ^ (-53 : Int) := by rw [mul_div_assoc, h52]
    _ ≤ |y| * 2 ^ (-53 : Int) := mul_le_mul_of_nonneg_right hs (two_zpow_pos _).le

/-- Rounding has a relative error of at most `2^(-53)` or, below the normal range, an
absolute error of at most `2^(-1075)`. -/
theorem roundQ_error (y : ℚ) :
    |roundQ y - y| ≤ |y| * 2 ^ (-53 : Int) + 2 ^ (-1075 : Int) := by
  have hs := two_zpow_pos (-1075)
  have hu := two_zpow_pos (-53)
  by_cases hy : y = 0
  · rw [hy, roundQ_zero]
    simp only [sub_zero, abs_zero, zero_mul, zero_add]
    exact hs.le
  · by_cases hb : -1022 ≤ binade y
    · have := roundQ_error_normal hy hb
      linarith
    · have hue : ulpExponent y = -1074 := by
        unfold ulpExponent
        rw [max_eq_right (by omega)]
        norm_num
      have h := roundQ_error_ulp y
      rw [hue] at h
      have h74 : (2 : ℚ) ^ (-1074 : Int) / 2 = 2 ^ (-1075 : Int) := by
        rw [show (-1074 : Int) = -1075 + 1 by norm_num, zpow_add₀ (by norm_num : (2 : ℚ) ≠ 0)]
        norm_num
      rw [h74] at h
      have := mul_nonneg (abs_nonneg y) hu.le
      linarith

/-- A whole multiple of `2^(-1074)`, such as the difference of two `float64` values, is
rounded with a relative error of at most `2^(-53)`: below the normal range it is not
changed. -/
theorem roundQ_error_of_multiple {y : ℚ} (m : Int) (hm : y = m * (2 : ℚ) ^ (-1074 : Int)) :
    |roundQ y - y| ≤ |y| * 2 ^ (-53 : Int) := by
  have hu := two_zpow_pos (-53)
  by_cases hy : y = 0
  · rw [hy, roundQ_zero]
    simp
  · by_cases hb : -1022 ≤ binade y
    · exact roundQ_error_normal hy hb
    · have hue : ulpExponent y = -1074 := by
        unfold ulpExponent
        rw [max_eq_right (by omega)]
        norm_num
      have hex : roundQ y = y := by
        apply roundQ_of_scaled_int m
        rw [hue, hm]
        exact mul_div_cancel_right₀ _ (two_zpow_pos _).ne'
      rw [hex, sub_self, abs_zero]
      exact mul_nonneg (abs_nonneg y) hu.le

/-- The quotient of two rounded numbers against the exact quotient. -/
theorem ratio_error {x d X D u : ℚ} (hx : 0 ≤ x) (hxd : x ≤ d) (hd : 0 < d)
    (hu0 : 0 ≤ u) (hu1 : u ≤ 1 / 3) (hD : 0 < D)
    (hX : |X - x| ≤ x * u) (hDd : |D - d| ≤ d * u) :
    |X / D - x / d| ≤ 3 * u := by
  rw [abs_le] at hX hDd ⊢
  have hxd1 : x / d ≤ 1 := (div_le_one hd).mpr hxd
  have hxd0 : 0 ≤ x / d := div_nonneg hx hd.le
  have hxe : x / d * d = x := div_mul_cancel₀ x hd.ne'
  constructor
  · have key : x / d - 3 * u ≤ X / D := by
      rw [le_div_iff₀ hD]
      by_cases hs : x / d - 3 * u ≤ 0
      · have h1 : (x / d - 3 * u) * D ≤ 0 := mul_nonpos_of_nonpos_of_nonneg hs hD.le
        have h2 : 0 ≤ x * u := mul_nonneg hx hu0
        have h3 : x * u ≤ x * (1 / 3) := mul_le_mul_of_nonneg_left hu1 hx
        linarith
      · rw [not_le] at hs
        have h1 : (x / d - 3 * u) * D ≤ (x / d - 3 * u) * (d + d * u) :=
          mul_le_mul_of_nonneg_left (by linarith) hs.le
        have h2 : (x / d - 3 * u) * (d + d * u) =
            x + x * u - 3 * u * d - 3 * u * u * d := by
          have : (x / d - 3 * u) * (d + d * u) =
              (x / d * d) * (1 + u) - 3 * u * d * (1 + u) := by
            ring
          rw [this, hxe]
          ring
        have h3 : 0 ≤ u * u * d := mul_nonneg (mul_nonneg hu0 hu0) hd.le
        have h4 : x * u ≤ d * u := mul_le_mul_of_nonneg_right hxd hu0
        nlinarith
    linarith
  · have key : X / D ≤ x / d + 3 * u := by
      rw [div_le_iff₀ hD]
      have hpos : 0 ≤ x / d + 3 * u := by linarith
      have h1 : (x / d + 3 * u) * (d - d * u) ≤ (x / d + 3 * u) * D :=
        mul_le_mul_of_nonneg_left (by linarith) hpos
      have h2 : (x / d + 3 * u) * (d - d * u) = x - x * u + 3 * u * d - 3 * u * u * d := by
        have : (x / d + 3 * u) * (d - d * u) = (x / d * d) * (1 - u) + 3 * u * d * (1 - u) := by
          ring
        rw [this, hxe]
        ring
      have h4 : x * u ≤ d * u := mul_le_mul_of_nonneg_right hxd hu0
      have h5 : u * u * d ≤ 1 / 3 * (u * d) := by
        have : u * (u * d) ≤ 1 / 3 * (u * d) :=
          mul_le_mul_of_nonneg_right hu1 (mul_nonneg hu0 hd.le)
        linarith
      nlinarith
    linarith

/-- On a range of at most `2^50` levels the product `float64` computes is less than one
away from the exact product `(max - min) * (temp - lowTemp) / (highTemp - lowTemp)`,
when the thresholds and the temperature are `float64` values. -/
theorem floatInterpolation_error {a : Int} {l h t : ℚ}
    (hl : ∃ m : Int, l = m * (2 : ℚ) ^ (-1074 : Int))
    (hh : ∃ m : Int, h = m * (2 : ℚ) ^ (-1074 : Int))
    (ht : ∃ m : Int, t = m * (2 : ℚ) ^ (-1074 : Int))
    (h0 : 0 ≤ a) (ha : a ≤ 2 ^ (50 : Nat)) (h1 : l < t) (h2 : t < h)
    (hD : 0 < roundQ (h - l)) :
    |roundQ ((a : ℚ) * roundQ (roundQ (t - l) / roundQ (h - l))) -
      (a : ℚ) * (t - l) / (h - l)| < 1 := by
  obtain ⟨ml, hml⟩ := hl
  obtain ⟨mh, hmh⟩ := hh
  obtain ⟨mt, hmt⟩ := ht
  have hx0 : 0 ≤ t - l := by linarith
  have hd0 : 0 < h - l := by linarith
  have hxd : t - l ≤ h - l := by linarith
  have hX := roundQ_error_of_multiple (y := t - l) (mt - ml) (by rw [hmt, hml]; push_cast; ring)
  have hDd := roundQ_error_of_multiple (y := h - l) (mh - ml) (by rw [hmh, hml]; push_cast; ring)
  rw [abs_of_nonneg hx0] at hX
  rw [abs_of_pos hd0] at hDd
  have hu0 : (0 : ℚ) ≤ 2 ^ (-53 : Int) := (two_zpow_pos _).le
  have hu1 : (2 : ℚ) ^ (-53 : Int) ≤ 1 / 3 := by norm_num
  have hq := ratio_error hx0 hxd hd0 hu0 hu1 hD hX hDd
  obtain ⟨hR0, hR1⟩ := floatRatio_bounds hx0 hxd hD
  have hX0 : 0 ≤ roundQ (t - l) := roundQ_nonneg hx0
  have hQ0 : 0 ≤ roundQ (t - l) / roundQ (h - l) := div_nonneg hX0 hD.le
  have hQ1 : roundQ (t - l) / roundQ (h - l) ≤ 1 :=
    (div_le_one hD).mpr (roundQ_mono_of_nonneg hx0 hxd)
  have hR := roundQ_error (roundQ (t - l) / roundQ (h - l))
  rw [abs_of_nonneg hQ0] at hR
  have haq0 : (0 : ℚ) ≤ a := by exact_mod_cast h0
  have haq : (a : ℚ) ≤ 2 ^ (50 : Nat) := by exact_mod_cast ha
  have hP := roundQ_error ((a : ℚ) * roundQ (roundQ (t - l) / roundQ (h - l)))
  rw [abs_of_nonneg (mul_nonneg haq0 hR0)] at hP
  -- the pieces
  set R := roundQ (roundQ (t - l) / roundQ (h - l)) with hRdef
  set Q := roundQ (t - l) / roundQ (h - l) with hQdef
  set P := roundQ ((a : ℚ) * R) with hPdef
  have hsplit : P - (a : ℚ) * (t - l) / (h - l) =
      (P - a * R) + a * ((R - Q) + (Q - (t - l) / (h - l))) := by ring
  have e1 : |R - Q| ≤ 2 ^ (-53 : Int) + 2 ^ (-1075 : Int) := by
    have : Q * 2 ^ (-53 : Int) ≤ 1 * 2 ^ (-53 : Int) := mul_le_mul_of_nonneg_right hQ1 hu0
    linarith
  have e2 : |P - a * R| ≤ (a : ℚ) * 2 ^ (-53 : Int) + 2 ^ (-1075 : Int) := by
    have : (a : ℚ) * R * 2 ^ (-53 : Int) ≤ a * 1 * 2 ^ (-53 : Int) :=
      mul_le_mul_of_nonneg_right (mul_le_mul_of_nonneg_left hR1 haq0) hu0
    linarith
  have e3 : |(a : ℚ) * ((R - Q) + (Q - (t - l) / (h - l)))| ≤
      a * (4 * 2 ^ (-53 : Int) + 2 ^ (-1075 : Int)) := by
    rw [abs_mul, abs_of_nonneg haq0]
    apply mul_le_mul_of_nonneg_left _ haq0
    calc |(R - Q) + (Q - (t - l) / (h - l))| ≤ |R - Q| + |Q - (t - l) / (h - l)| :=
          abs_add _ _
      _ ≤ (2 ^ (-53 : Int) + 2 ^ (-1075 : Int)) + 3 * 2 ^ (-53 : Int) := add_le_add e1 hq
      _ = 4 * 2 ^ (-53 : Int) + 2 ^ (-1075 : Int) := by ring
  rw [hsplit]
  have hs1075 : (2 : ℚ) ^ (-1075 : Int) ≤ 2 ^ (-100 : Int) :=
    zpow_le_zpow_right₀ (by norm_num) (by norm_num)
  have hs0 := two_zpow_pos (-1075)
  calc |(P - a * R) + a * ((R - Q) + (Q - (t - l) / (h - l)))|
      ≤ |P - a * R| + |(a : ℚ) * ((R - Q) + (Q - (t - l) / (h - l)))| := abs_add _ _
    _ ≤ ((a : ℚ) * 2 ^ (-53 : Int) + 2 ^ (-1075 : Int)) +
          a * (4 * 2 ^ (-53 : Int) + 2 ^ (-1075 : Int)) := add_le_add e2 e3
    _ = (a : ℚ) * (5 * 2 ^ (-53 : Int) + 2 ^ (-1075 : Int)) + 2 ^ (-1075 : Int) := by ring
    _ ≤ (2 : ℚ) ^ (50 : Nat) * (5 * 2 ^ (-53 : Int) + 2 ^ (-100 : Int)) + 2 ^ (-100 : Int) := by
        have hpos : (0 : ℚ) ≤ 5 * 2 ^ (-53 : Int) + 2 ^ (-1075 : Int) := by linarith
        have hstep1 : (a : ℚ) * (5 * 2 ^ (-53 : Int) + 2 ^ (-1075 : Int)) ≤
            2 ^ (50 : Nat) * (5 * 2 ^ (-53 : Int) + 2 ^ (-1075 : Int)) :=
          mul_le_mul_of_nonneg_right haq hpos
        have hstep2 : (2 : ℚ) ^ (50 : Nat) * (5 * 2 ^ (-53 : Int) + 2 ^ (-1075 : Int)) ≤
            2 ^ (50 : Nat) * (5 * 2 ^ (-53 : Int) + 2 ^ (-100 : Int)) :=
          mul_le_mul_of_nonneg_left (by linarith) (by positivity)
        linarith
    _ < 1 := by norm_num

/-- Two numbers less than one apart have floors at most one apart. -/
theorem floor_close {p v : ℚ} (h : |p - v| < 1) : ⌊v⌋ - 1 ≤ ⌊p⌋ ∧ ⌊p⌋ ≤ ⌊v⌋ + 1 := by
  rw [abs_lt] at h
  have hp1 := Int.floor_le p
  have hp2 := Int.lt_floor_add_one p
  have hv1 := Int.floor_le v
  have hv2 := Int.lt_floor_add_one v
  constructor
  · have : ((⌊v⌋ - 2 : Int) : ℚ) < ((⌊p⌋ : Int) : ℚ) := by
      push_cast
      linarith
    have := Int.cast_lt.mp this
    omega
  · have : ((⌊p⌋ : Int) : ℚ) < ((⌊v⌋ + 2 : Int) : ℚ) := by
      push_cast
      linarith
    have := Int.cast_lt.mp this
    omega

/-- The interpolation of `calculatePWM` on finite thresholds and a range of at most
`2^53` levels: no `int` operation wraps, no conversion is left to the implementation,
and the result is the minimum plus the floor of the product as `float64` computes
it, which lies within the span. -/
theorem interpolation_core (arch : Arch) (lo hi t : F64) (minPWM maxPWM : Int)
    (hlo : lo.isFinite = true) (hhi : hi.isFinite = true)
    (hlor : lo.representable = true) (hhir : hi.representable = true)
    (hd : (hi - lo).isFinite = true)
    (hmin : minInt ≤ minPWM) (hmax : maxPWM ≤ maxInt) (hmm : minPWM ≤ maxPWM)
    (hspan : maxPWM - minPWM ≤ 2 ^ (53 : Nat))
    (h1 : lo < t) (h2 : t < hi) :
    wrapInt64 (minPWM + F64.toInt arch
        (F64.ofInt (wrapInt64 (maxPWM - minPWM)) * ((t - lo) / (hi - lo)))) =
      minPWM + ⌊roundQ (((maxPWM - minPWM : Int) : ℚ) *
        roundQ (roundQ (t.toRat - lo.toRat) / roundQ (hi.toRat - lo.toRat)))⌋ ∧
    0 ≤ ⌊roundQ (((maxPWM - minPWM : Int) : ℚ) *
        roundQ (roundQ (t.toRat - lo.toRat) / roundQ (hi.toRat - lo.toRat)))⌋ ∧
    ⌊roundQ (((maxPWM - minPWM : Int) : ℚ) *
        roundQ (roundQ (t.toRat - lo.toRat) / roundQ (hi.toRat - lo.toRat)))⌋ ≤
      maxPWM - minPWM := by
  have htf : t.isFinite = true := F64.isFinite_of_between hlo hhi h1 h2
  have hlt1 : lo.toRat < t.toRat := (F64.lt_iff_toRat hlo htf).mp h1
  have hlt2 : t.toRat < hi.toRat := (F64.lt_iff_toRat htf hhi).mp h2
  have hlh : lo.toRat < hi.toRat := hlt1.trans hlt2
  have hbig : (0 : ℚ) < 2 ^ (1024 : Nat) := by positivity
  -- the divisor
  have hsubd : hi - lo = F64.round false (hi.toRat - lo.toRat) := F64.sub_of_lt hhi hlo hlh
  have hDlt : roundQ (hi.toRat - lo.toRat) < 2 ^ (1024 : Nat) := by
    rw [hsubd] at hd
    exact F64.round_lt_of_isFinite hd
  have hDpos : 0 < roundQ (hi.toRat - lo.toRat) :=
    roundQ_pos_of_ge (F64.representable_gap hlor hhir hlh)
  have hdiv : hi - lo = .fin (roundQ (hi.toRat - lo.toRat)) := by
    rw [hsubd, F64.round_of_nonneg hDpos.le hDlt]
  -- the dividend
  have hx0 : 0 ≤ t.toRat - lo.toRat := by linarith
  have hX0 : 0 ≤ roundQ (t.toRat - lo.toRat) := roundQ_nonneg hx0
  have hXD : roundQ (t.toRat - lo.toRat) ≤ roundQ (hi.toRat - lo.toRat) :=
    roundQ_mono_of_nonneg hx0 (by linarith)
  have hnum : t - lo = .fin (roundQ (t.toRat - lo.toRat)) := by
    rw [F64.sub_of_lt htf hlo hlt1, F64.round_of_nonneg hX0 (lt_of_le_of_lt hXD hDlt)]
  -- the ratio
  obtain ⟨hR0, hR1⟩ := floatRatio_bounds hx0 (by linarith : t.toRat - lo.toRat ≤ hi.toRat - lo.toRat) hDpos
  have hone : (1 : ℚ) < 2 ^ (1024 : Nat) := by norm_num
  have hratio : (t - lo) / (hi - lo) =
      .fin (roundQ (roundQ (t.toRat - lo.toRat) / roundQ (hi.toRat - lo.toRat))) := by
    rw [hnum, hdiv, F64.div_fin_fin hX0 hDpos, F64.round_of_nonneg hR0 (lt_of_le_of_lt hR1 hone)]
  -- the span
  have hs0 : 0 ≤ maxPWM - minPWM := by omega
  have hwrap : wrapInt64 (maxPWM - minPWM) = maxPWM - minPWM := by
    apply wrapInt64_of_range
    · unfold minInt
      omega
    · unfold maxInt
      have : (2 : Int) ^ (53 : Nat) = 9007199254740992 := by norm_num
      omega
  obtain ⟨hP0, hP1⟩ := floatProduct_bounds hs0 hspan hR0 hR1
  have hsq : (0 : ℚ) ≤ ((maxPWM - minPWM : Int) : ℚ) := by exact_mod_cast hs0
  have hP53 : ((maxPWM - minPWM : Int) : ℚ) ≤ 2 ^ (53 : Nat) := by exact_mod_cast hspan
  have h53 : (2 : ℚ) ^ (53 : Nat) < 2 ^ (1024 : Nat) := by norm_num
  have hprod : F64.ofInt (wrapInt64 (maxPWM - minPWM)) * ((t - lo) / (hi - lo)) =
      .fin (roundQ (((maxPWM - minPWM : Int) : ℚ) *
        roundQ (roundQ (t.toRat - lo.toRat) / roundQ (hi.toRat - lo.toRat)))) := by
    rw [hwrap, F64.ofInt_of_le hs0 hspan, hratio, F64.mul_fin_fin hsq hR0,
      F64.round_of_nonneg hP0 (by linarith)]
  -- the conversion and the sum
  have hfl0 : 0 ≤ ⌊roundQ (((maxPWM - minPWM : Int) : ℚ) *
      roundQ (roundQ (t.toRat - lo.toRat) / roundQ (hi.toRat - lo.toRat)))⌋ :=
    Int.floor_nonneg.mpr hP0
  have hfl1 : ⌊roundQ (((maxPWM - minPWM : Int) : ℚ) *
      roundQ (roundQ (t.toRat - lo.toRat) / roundQ (hi.toRat - lo.toRat)))⌋ ≤
      maxPWM - minPWM := by
    have := Int.floor_mono hP1
    rwa [Int.floor_intCast] at this
  refine ⟨?_, hfl0, hfl1⟩
  have hmaxv : maxPWM ≤ 9223372036854775807 := hmax
  have hminv : -9223372036854775808 ≤ minPWM := hmin
  rw [hprod, F64.toInt_fin arch hP0 (by unfold maxInt; omega)]
  apply wrapInt64_of_range
  · unfold minInt
    omega
  · unfold maxInt
    omega

theorem calculatePWM_of_le_low (arch : Arch) (c : TempController) (temp : F64)
    (h : temp ≤ c.lowTemp) : c.calculatePWM arch temp = c.fan.GetMinSpeed := by
  simp [TempController.calculatePWM, h]

theorem calculatePWM_of_ge_high (arch : Arch) (c : TempController) (temp : F64)
    (hlt : c.lowTemp < c.highTemp) (h : temp ≥ c.highTemp) :
    c.calculatePWM arch temp = c.fan.GetMaxSpeed := by
  have hnot : ¬ temp ≤ c.lowTemp := F64.not_le_of_lt (F64.lt_of_lt_of_le hlt h)
  simp [TempController.calculatePWM, hnot, h]

theorem calculatePWM_interpolating (arch : Arch) (c : TempController) (temp : F64)
    (h1 : ¬ temp ≤ c.lowTemp) (h2 : ¬ temp ≥ c.highTemp) :
    c.calculatePWM arch temp =
      wrapInt64 (c.fan.GetMinSpeed + F64.toInt arch
        (F64.ofInt (wrapInt64 (c.fan.GetMaxSpeed - c.fan.GetMinSpeed)) *
          ((temp - c.lowTemp) / (c.highTemp - c.lowTemp)))) := by
  simp [TempController.calculatePWM, h1, h2]

/-- Between finite thresholds, on a range of at most `2^53` levels, `calculatePWM` is
the minimum plus the floor of the product as `float64` computes it. -/
theorem calculatePWM_between (arch : Arch) (c : TempController) (temp : F64)
    (hlo : c.lowTemp.isFinite = true) (hhi : c.highTemp.isFinite = true)
    (hlor : c.lowTemp.representable = true) (hhir : c.highTemp.representable = true)
    (hd : (c.highTemp - c.lowTemp).isFinite = true)
    (hmin : minInt ≤ c.fan.GetMinSpeed) (hmax : c.fan.GetMaxSpeed ≤ maxInt)
    (hmm : c.fan.GetMinSpeed ≤ c.fan.GetMaxSpeed)
    (hspan : c.fan.GetMaxSpeed - c.fan.GetMinSpeed ≤ 2 ^ (53 : Nat))
    (h1 : c.lowTemp < temp) (h2 : temp < c.highTemp) :
    c.calculatePWM arch temp = c.fan.GetMinSpeed +
      ⌊roundQ (((c.fan.GetMaxSpeed - c.fan.GetMinSpeed : Int) : ℚ) *
        roundQ (roundQ (temp.toRat - c.lowTemp.toRat) /
          roundQ (c.highTemp.toRat - c.lowTemp.toRat)))⌋ := by
  rw [calculatePWM_interpolating arch c temp (F64.not_le_of_lt h1) (F64.not_le_of_lt h2)]
  exact (interpolation_core arch c.lowTemp c.highTemp temp c.fan.GetMinSpeed
    c.fan.GetMaxSpeed hlo hhi hlor hhir hd hmin hmax hmm hspan h1 h2).1

/-- Between finite thresholds, on a range of at most `2^50` levels and for a temperature
that is a `float64` value, `calculatePWM` is at most one away from the minimum plus
the floor of the exact product. -/
theorem calculatePWM_near_exact (arch : Arch) (c : TempController) (temp : F64)
    (hlo : c.lowTemp.isFinite = true) (hhi : c.highTemp.isFinite = true)
    (hlor : c.lowTemp.representable = true) (hhir : c.highTemp.representable = true)
    (hd : (c.highTemp - c.lowTemp).isFinite = true)
    (hmin : minInt ≤ c.fan.GetMinSpeed) (hmax : c.fan.GetMaxSpeed ≤ maxInt)
    (hmm : c.fan.GetMinSpeed ≤ c.fan.GetMaxSpeed)
    (hspan : c.fan.GetMaxSpeed - c.fan.GetMinSpeed ≤ 2 ^ (50 : Nat))
    (h1 : c.lowTemp < temp) (h2 : temp < c.highTemp)
    (htr : temp.representable = true) :
    c.fan.GetMinSpeed +
        ⌊((c.fan.GetMaxSpeed - c.fan.GetMinSpeed : Int) : ℚ) *
          (temp.toRat - c.lowTemp.toRat) / (c.highTemp.toRat - c.lowTemp.toRat)⌋ - 1 ≤
      c.calculatePWM arch temp ∧
    c.calculatePWM arch temp ≤ c.fan.GetMinSpeed +
        ⌊((c.fan.GetMaxSpeed - c.fan.GetMinSpeed : Int) : ℚ) *
          (temp.toRat - c.lowTemp.toRat) / (c.highTemp.toRat - c.lowTemp.toRat)⌋ + 1 := by
  have hspan53 : c.fan.GetMaxSpeed - c.fan.GetMinSpeed ≤ 2 ^ (53 : Nat) :=
    le_trans hspan (by norm_num)
  have htf : temp.isFinite = true := F64.isFinite_of_between hlo hhi h1 h2
  have hq1 : c.lowTemp.toRat < temp.toRat := (F64.lt_iff_toRat hlo htf).mp h1
  have hq2 : temp.toRat < c.highTemp.toRat := (F64.lt_iff_toRat htf hhi).mp h2
  have hD : 0 < roundQ (c.highTemp.toRat - c.lowTemp.toRat) :=
    roundQ_pos_of_ge (F64.representable_gap hlor hhir (hq1.trans hq2))
  have herr := floatInterpolation_error (a := c.fan.GetMaxSpeed - c.fan.GetMinSpeed)
    (F64.representable_multiple hlor) (F64.representable_multiple hhir)
    (F64.representable_multiple htr) (by omega) hspan hq1 hq2 hD
  obtain ⟨hf1, hf2⟩ := floor_close herr
  rw [calculatePWM_between arch c temp hlo hhi hlor hhir hd hmin hmax hmm hspan53 h1 h2]
  constructor <;> omega

/-- Under the conditions of `calculatePWM_between`, and for every temperature that is
a number, the result lies within the range of the actuator. -/
theorem calculatePWM_bounds (arch : Arch) (c : TempController) (temp : F64)
    (hlo : c.lowTemp.isFinite = true) (hhi : c.highTemp.isFinite = true)
    (hlor : c.lowTemp.representable = true) (hhir : c.highTemp.representable = true)
    (hd : (c.highTemp - c.lowTemp).isFinite = true)
    (hlt : c.lowTemp < c.highTemp)
    (hmin : minInt ≤ c.fan.GetMinSpeed) (hmax : c.fan.GetMaxSpeed ≤ maxInt)
    (hmm : c.fan.GetMinSpeed ≤ c.fan.GetMaxSpeed)
    (hspan : c.fan.GetMaxSpeed - c.fan.GetMinSpeed ≤ 2 ^ (53 : Nat))
    (hnan : temp ≠ .nan) :
    c.fan.GetMinSpeed ≤ c.calculatePWM arch temp ∧
      c.calculatePWM arch temp ≤ c.fan.GetMaxSpeed := by
  by_cases h1 : temp ≤ c.lowTemp
  · rw [calculatePWM_of_le_low arch c temp h1]
    exact ⟨le_refl _, hmm⟩
  · by_cases h2 : temp ≥ c.highTemp
    · rw [calculatePWM_of_ge_high arch c temp hlt h2]
      exact ⟨hmm, le_refl _⟩
    · have hl : c.lowTemp < temp :=
        F64.lt_of_not_le hnan (F64.ne_nan_of_isFinite hlo) h1
      have hh : temp < c.highTemp :=
        F64.lt_of_not_le (F64.ne_nan_of_isFinite hhi) hnan h2
      rw [calculatePWM_interpolating arch c temp h1 h2]
      obtain ⟨he, h0, hs⟩ := interpolation_core arch c.lowTemp c.highTemp temp
        c.fan.GetMinSpeed c.fan.GetMaxSpeed hlo hhi hlor hhir hd hmin hmax hmm hspan hl hh
      rw [he]
      constructor <;> omega

/-- Claim C1: with `lowTemp < highTemp`, a temperature at or below the low threshold
gives the actuator's minimum speed and a temperature at or above the high
threshold gives the actuator's maximum speed. -/
theorem calculatePWM_outside_thresholds (arch : Arch) (c : TempController) (temp : F64)
    (hlt : c.lowTemp < c.highTemp) :
    (temp ≤ c.lowTemp → c.calculatePWM arch temp = c.fan.GetMinSpeed) ∧
    (temp ≥ c.highTemp → c.calculatePWM arch temp = c.fan.GetMaxSpeed) :=
  ⟨calculatePWM_of_le_low arch c temp, calculatePWM_of_ge_high arch c temp hlt⟩

theorem calculatePWM_outside_thresholds_witness :
    exampleController.calculatePWM amd64 (.fin 30) = 50 ∧
    exampleController.calculatePWM amd64 (.fin 80) = 255 :=
  ⟨(calculatePWM_outside_thresholds amd64 exampleController (.fin 30) (by decide!)).1
      (by decide!),
   (calculatePWM_outside_thresholds amd64 exampleController (.fin 80) (by decide!)).2
      (by decide!)⟩

/-- Claim C2 as stated fails: with the thresholds 0.0 and 100.0 and the range 0..100,
all of them exact in `float64`, the temperature 58.0 gives 57 on every
implementation, while `min + floor((max - min) * (temp - lowTemp) / (highTemp - lowTemp))`
is 58: the quotient 58/100 is rounded to a `float64` just below 0.58 before it is
multiplied. -/
theorem calculatePWM_below_exact_floor :
    percentController.lowTemp < percentController.highTemp ∧
    percentController.fan.GetMinSpeed ≤ percentController.fan.GetMaxSpeed ∧
    percentController.lowTemp < F64.fin 58 ∧ F64.fin 58 < percentController.highTemp ∧
    (F64.fin 58 - percentController.lowTemp) /
      (percentController.highTemp - percentController.lowTemp) =
      F64.fin (5224175567749775 / 9007199254740992) ∧
    (5224175567749775 : ℚ) / 9007199254740992 < 58 / 100 ∧
    (∀ arch : Arch, percentController.calculatePWM arch (.fin 58) = 57) ∧
    percentController.fan.GetMinSpeed +
      ⌊((percentController.fan.GetMaxSpeed - percentController.fan.GetMinSpeed : Int) : ℚ) *
        ((58 : ℚ) - percentController.lowTemp.toRat) /
        (percentController.highTemp.toRat - percentController.lowTemp.toRat)⌋ = 58 := by
  refine ⟨by decide!, by decide!, by decide!, by decide!, by decide!, by norm_num, ?_,
    by decide!⟩
  intro arch
  rw [calculatePWM_between arch percentController (.fin 58) (by decide!) (by decide!)
    (by decide!) (by decide!) (by decide!) (by decide!) (by decide!) (by decide!)
    (by decide!) (by decide!) (by decide!)]
  decide!

/-- Claim C2, amended: with finite thresholds `lowTemp < highTemp` whose difference is
finite, and a range `min <= max` of at most `2^53` levels, a temperature strictly
between the thresholds gives `min + floor(p)`, where `p` is the product
`(max - min) * ((temp - lowTemp) / (highTemp - lowTemp))` with each of the four
`float64` operations rounded to nearest; the result does not depend on the
implementation; on a range of at most `2^50` levels it is at most one away from
`min + floor((max - min) * (temp - lowTemp) / (highTemp - lowTemp))`, the floor of the
exact quotient; with thresholds 40.0 and 75.0 and the range 50..255 the temperature
57.5 gives 152. -/
theorem calculatePWM_float_interpolation (arch : Arch) (c : TempController) (temp : F64)
    (hlo : c.lowTemp.isFinite = true) (hhi : c.highTemp.isFinite = true)
    (hlor : c.lowTemp.representable = true) (hhir : c.highTemp.representable = true)
    (hd : (c.highTemp - c.lowTemp).isFinite = true)
    (hmin : minInt ≤ c.fan.GetMinSpeed) (hmax : c.fan.GetMaxSpeed ≤ maxInt)
    (hmm : c.fan.GetMinSpeed ≤ c.fan.GetMaxSpeed)
    (hspan : c.fan.GetMaxSpeed - c.fan.GetMinSpeed ≤ 2 ^ (53 : Nat))
    (h1 : c.lowTemp < temp) (h2 : temp < c.highTemp) :
    c.calculatePWM arch temp = c.fan.GetMinSpeed +
      ⌊roundQ (((c.fan.GetMaxSpeed - c.fan.GetMinSpeed : Int) : ℚ) *
        roundQ (roundQ (temp.toRat - c.lowTemp.toRat) /
          roundQ (c.highTemp.toRat - c.lowTemp.toRat)))⌋ ∧
    (temp.representable = true →
      c.fan.GetMaxSpeed - c.fan.GetMinSpeed ≤ 2 ^ (50 : Nat) →
      c.fan.GetMinSpeed +
          ⌊((c.fan.GetMaxSpeed - c.fan.GetMinSpeed : Int) : ℚ) *
            (temp.toRat - c.lowTemp.toRat) / (c.highTemp.toRat - c.lowTemp.toRat)⌋ - 1 ≤
        c.calculatePWM arch temp ∧
      c.calculatePWM arch temp ≤ c.fan.GetMinSpeed +
          ⌊((c.fan.GetMaxSpeed - c.fan.GetMinSpeed : Int) : ℚ) *
            (temp.toRat - c.lowTemp.toRat) / (c.highTemp.toRat - c.lowTemp.toRat)⌋ + 1) ∧
    (c.lowTemp = .fin 40 → c.highTemp = .fin 75 → c.fan.GetMinSpeed = 50 →
      c.fan.GetMaxSpeed = 255 → c.calculatePWM arch (.fin (115 / 2)) = 152) := by
  refine ⟨?_, ?_, ?_⟩
  · exact calculatePWM_between arch c temp hlo hhi hlor hhir hd hmin hmax hmm hspan h1 h2
  · intro htr h50
    exact calculatePWM_near_exact arch c temp hlo hhi hlor hhir hd hmin hmax hmm h50 h1 h2 htr
  · intro hl hh hmn hmx
    rw [calculatePWM_between arch c (.fin (115 / 2)) hlo hhi hlor hhir hd hmin hmax hmm hspan
      (by rw [hl]; decide!) (by rw [hh]; decide!), hl, hh, hmn, hmx]
    decide!

theorem calculatePWM_float_interpolation_witness :
    exampleController.calculatePWM amd64 (.fin 50) = 108 ∧
    exampleController.calculatePWM amd64 (.fin (115 / 2)) = 152 ∧
    (50 : Int) + ⌊((255 - 50 : Int) : ℚ) * ((50 : ℚ) - 40) / (75 - 40)⌋ - 1 ≤
      exampleController.calculatePWM amd64 (.fin 50) := by
  have h := calculatePWM_float_interpolation amd64 exampleController (.fin 50) (by decide!)
    (by decide!) (by decide!) (by decide!) (by decide!) (by decide!) (by decide!)
    (by decide!) (by decide!) (by decide!) (by decide!)
  refine ⟨?_, h.2.2 rfl rfl rfl rfl, (h.2.1 (by decide!) (by decide!)).1⟩
  rw [h.1]
  decide!

/-- On the range `-2^62..2^62` the difference `max - min` wraps around to `-2^63`; half
way between the thresholds the result is `-2^62 + (-2^62)`. -/
theorem wideRange_interpolation (arch : Arch) :
    wideRangeController.calculatePWM arch (.fin (115 / 2)) = -9223372036854775808 := by
  have hprod : F64.ofInt (wrapInt64 (wideRangeController.fan.GetMaxSpeed -
      wideRangeController.fan.GetMinSpeed)) *
      ((F64.fin (115 / 2) - wideRangeController.lowTemp) /
        (wideRangeController.highTemp - wideRangeController.lowTemp)) =
      .fin (-4611686018427387904) := by decide!
  rw [calculatePWM_interpolating arch wideRangeController (.fin (115 / 2)) (by decide!)
    (by decide!), hprod, F64.toInt_of_range arch (by decide!)]
  decide!

/-- Claim C3 as stated fails: with the thresholds 40.0 and 75.0 and the range
`-2^62..2^62` the difference `max - min` wraps around to `-2^63`, so 40.0 gives the
minimum `-2^62` and the higher temperature 57.5 gives `-2^63`, on every
implementation. -/
theorem calculatePWM_not_monotone_wide_range :
    wideRangeController.lowTemp < wideRangeController.highTemp ∧
    wideRangeController.fan.GetMinSpeed ≤ wideRangeController.fan.GetMaxSpeed ∧
    wideRangeController.lowTemp ≤ F64.fin 40 ∧ F64.fin 40 ≤ F64.fin (115 / 2) ∧
    F64.fin (115 / 2) ≤ wideRangeController.highTemp ∧
    ∀ arch : Arch,
      wideRangeController.calculatePWM arch (.fin 40) = -4611686018427387904 ∧
      wideRangeController.calculatePWM arch (.fin (115 / 2)) = -9223372036854775808 ∧
      ¬ wideRangeController.calculatePWM arch (.fin 40) ≤
        wideRangeController.calculatePWM arch (.fin (115 / 2)) := by
  refine ⟨by decide!, by decide!, by decide!, by decide!, by decide!, ?_⟩
  intro arch
  have h40 : wideRangeController.calculatePWM arch (.fin 40) = -4611686018427387904 :=
    calculatePWM_of_le_low arch wideRangeController (.fin 40) (by decide!)
  rw [h40, wideRange_interpolation arch]
  exact ⟨rfl, rfl, by decide⟩

/-- Claim C3, amended: with finite thresholds `lowTemp < highTemp` whose difference is
finite, and a range `min <= max` of at most `2^53` levels, `calculatePWM` is
monotonically non-decreasing in the temperature: `t1 <= t2` gives
`calculatePWM(t1) <= calculatePWM(t2)`, on every implementation. -/
theorem calculatePWM_monotone (arch : Arch) (c : TempController) (t1 t2 : F64)
    (hlo : c.lowTemp.isFinite = true) (hhi : c.highTemp.isFinite = true)
    (hlor : c.lowTemp.representable = true) (hhir : c.highTemp.representable = true)
    (hd : (c.highTemp - c.lowTemp).isFinite = true)
    (hlt : c.lowTemp < c.highTemp)
    (hmin : minInt ≤ c.fan.GetMinSpeed) (hmax : c.fan.GetMaxSpeed ≤ maxInt)
    (hmm : c.fan.GetMinSpeed ≤ c.fan.GetMaxSpeed)
    (hspan : c.fan.GetMaxSpeed - c.fan.GetMinSpeed ≤ 2 ^ (53 : Nat))
    (h12 : t1 ≤ t2) :
    c.calculatePWM arch t1 ≤ c.calculatePWM arch t2 := by
  obtain ⟨hn1, hn2⟩ := F64.ne_nan_of_le h12
  by_cases h1 : t1 ≤ c.lowTemp
  · rw [calculatePWM_of_le_low arch c t1 h1]
    exact (calculatePWM_bounds arch c t2 hlo hhi hlor hhir hd hlt hmin hmax hmm hspan hn2).1
  · by_cases h2 : t2 ≥ c.highTemp
    · rw [calculatePWM_of_ge_high arch c t2 hlt h2]
      exact (calculatePWM_bounds arch c t1 hlo hhi hlor hhir hd hlt hmin hmax hmm hspan hn1).2
    · have hl1 : c.lowTemp < t1 := F64.lt_of_not_le hn1 (F64.ne_nan_of_isFinite hlo) h1
      have hh2 : t2 < c.highTemp := F64.lt_of_not_le (F64.ne_nan_of_isFinite hhi) hn2 h2
      have hl2 : c.lowTemp < t2 := F64.lt_of_lt_of_le hl1 h12
      have hh1 : t1 < c.highTemp := F64.lt_of_le_of_lt h12 hh2
      have hf1 : t1.isFinite = true := F64.isFinite_of_between hlo hhi hl1 hh1
      have hf2 : t2.isFinite = true := F64.isFinite_of_between hlo hhi hl2 hh2
      have hq1 : c.lowTemp.toRat < t1.toRat := (F64.lt_iff_toRat hlo hf1).mp hl1
      have hq12 : t1.toRat ≤ t2.toRat := (F64.le_iff_toRat hf1 hf2).mp h12
      have hqlh : c.lowTemp.toRat < c.highTemp.toRat := (F64.lt_iff_toRat hlo hhi).mp hlt
      have hD : 0 < roundQ (c.highTemp.toRat - c.lowTemp.toRat) :=
        roundQ_pos_of_ge (F64.representable_gap hlor hhir hqlh)
      rw [calculatePWM_between arch c t1 hlo hhi hlor hhir hd hmin hmax hmm hspan hl1 hh1,
        calculatePWM_between arch c t2 hlo hhi hlor hhir hd hmin hmax hmm hspan hl2 hh2]
      have := Int.floor_mono (floatInterpolation_mono
        (a := c.fan.GetMaxSpeed - c.fan.GetMinSpeed) (by omega) hD hq1.le hq12)
      omega

theorem calculatePWM_monotone_witness :
    exampleController.calculatePWM amd64 (.fin 50) ≤
      exampleController.calculatePWM amd64 (.fin 60) :=
  calculatePWM_monotone amd64 exampleController (.fin 50) (.fin 60) (by decide!) (by decide!)
    (by decide!) (by decide!) (by decide!) (by decide!) (by decide!) (by decide!)
    (by decide!) (by decide!) (by decide!)

/-! ## Rescaling of the discrete actuator -/

theorem nativeLevel_binary (u : Int) :
    CoolingDeviceController.nativeLevel u 1 = if u > 127 then 1 else 0 := by
  simp [CoolingDeviceController.nativeLevel]

/-- For a unified level in `0..255` and a max level up to `maxInt / 255` the product
`speed * maxLevel` that `SetSpeed` forms fits a 64-bit `int`. -/
theorem nativeLevel_product_range (u maxLevel : Int) (h0 : 0 ≤ u) (h255 : u ≤ 255)
    (hm : 0 ≤ maxLevel) (hb : maxLevel ≤ maxInt / 255) :
    minInt ≤ u * maxLevel ∧ u * maxLevel ≤ maxInt := by
  have hnn : 0 ≤ u * maxLevel := mul_nonneg h0 hm
  have hle : u * maxLevel ≤ 255 * maxLevel := mul_le_mul_of_nonneg_right h255 hm
  unfold minInt
  unfold maxInt at hb ⊢
  constructor <;> omega

theorem nativeLevel_proportional (u maxLevel : Int) (h0 : 0 ≤ u) (h255 : u ≤ 255)
    (hm : 0 ≤ maxLevel) (hb : maxLevel ≤ maxInt / 255) (h : maxLevel ≠ 1) :
    CoolingDeviceController.nativeLevel u maxLevel = Int.tdiv (u * maxLevel) 255 := by
  obtain ⟨h1, h2⟩ := nativeLevel_product_range u maxLevel h0 h255 hm hb
  simp [CoolingDeviceController.nativeLevel, h, wrapInt64_of_range h1 h2]

theorem nativeLevel_nonneg (u maxLevel : Int) (hu : 0 ≤ u) (hu2 : u ≤ 255)
    (hm : 0 ≤ maxLevel) (hb : maxLevel ≤ maxInt / 255) :
    0 ≤ CoolingDeviceController.nativeLevel u maxLevel := by
  by_cases h : maxLevel = 1
  · subst h
    rw [nativeLevel_binary]
    split <;> decide
  · rw [nativeLevel_proportional u maxLevel hu hu2 hm hb h]
    exact Int.tdiv_nonneg (mul_nonneg hu hm) (by decide)

theorem nativeLevel_le_max (u maxLevel : Int) (hu : 0 ≤ u) (hu2 : u ≤ 255)
    (hm : 0 ≤ maxLevel) (hb : maxLevel ≤ maxInt / 255) :
    CoolingDeviceController.nativeLevel u maxLevel ≤ maxLevel := by
  by_cases h : maxLevel = 1
  · subst h
    rw [nativeLevel_binary]
    split <;> decide
  · rw [nativeLevel_proportional u maxLevel hu hu2 hm hb h,
      Int.tdiv_eq_ediv (mul_nonneg hu hm) (by decide)]
    have hle : u * maxLevel ≤ 255 * maxLevel := mul_le_mul_of_nonneg_right hu2 hm
    omega

/-- What `(*CoolingDeviceController).SetSpeed` writes: nothing when the computed
level is the remembered one, else the clamped level to `cur_state`. -/
theorem CoolingDeviceController.coolingSetSpeed_writes (cc : CoolingDeviceController)
    (speed : Int) (writeOk : Bool) :
    (cc.SetSpeed speed writeOk).2.2 =
      if CoolingDeviceController.nativeLevel speed cc.cooling.maxState = cc.lastLevel then []
      else [⟨filepathJoin cc.cooling.devicePath "cur_state",
             Itoa (cc.cooling.clampLevel
               (CoolingDeviceController.nativeLevel speed cc.cooling.maxState)) ++ "\n"⟩] := by
  unfold CoolingDeviceController.SetSpeed CoolingDevice.GetMaxLevel
  by_cases h : CoolingDeviceController.nativeLevel speed cc.cooling.maxState = cc.lastLevel
  · simp [h]
  · cases writeOk <;> simp [h, CoolingDevice.SetLevel]

theorem eq_of_mem_ite_nil_singleton {α : Type} {p : Prop} [Decidable p] {w x : α}
    (h : w ∈ (if p then [] else [x])) : w = x := by
  by_cases hp : p
  · simp [hp] at h
  · simpa [hp] using h

theorem clampLevel_of_mem (d : CoolingDevice) (level : Int)
    (h0 : 0 ≤ level) (h1 : level ≤ d.maxState) : d.clampLevel level = level := by
  unfold CoolingDevice.clampLevel
  simp only [not_lt.mpr h0, if_false]
  simp [not_lt.mpr h1]

/-- Claim C4: on a cooling device with exactly two native levels (max level 1) the
native level `SetSpeed` selects for a unified level `u` is 1 if and only if
`u > 127`, else 0, and that level is what a write carries; 200 and 128 select 1,
50 and 127 select 0. -/
theorem binary_device_threshold (cc : CoolingDeviceController) (u : Int) (writeOk : Bool)
    (hbin : cc.cooling.GetMaxLevel = 1) :
    (CoolingDeviceController.nativeLevel u cc.cooling.GetMaxLevel = 1 ↔ u > 127) ∧
    (CoolingDeviceController.nativeLevel u cc.cooling.GetMaxLevel = 0 ↔ ¬ u > 127) ∧
    (∀ w ∈ (cc.SetSpeed u writeOk).2.2,
      w.data = Itoa (if u > 127 then 1 else 0) ++ "\n") ∧
    CoolingDeviceController.nativeLevel 200 cc.cooling.GetMaxLevel = 1 ∧
    CoolingDeviceController.nativeLevel 50 cc.cooling.GetMaxLevel = 0 ∧
    CoolingDeviceController.nativeLevel 127 cc.cooling.GetMaxLevel = 0 ∧
    CoolingDeviceController.nativeLevel 128 cc.cooling.GetMaxLevel = 1 := by
  have hmax : cc.cooling.maxState = 1 := hbin
  rw [hbin]
  refine ⟨?_, ?_, ?_, by decide, by decide, by decide, by decide⟩
  · rw [nativeLevel_binary]
    split <;> simp [*]
  · rw [nativeLevel_binary]
    split <;> simp [*]
  · intro w hw
    rw [CoolingDeviceController.coolingSetSpeed_writes, hmax, nativeLevel_binary] at hw
    have hclamp : cc.cooling.clampLevel (if u > 127 then 1 else 0) =
        (if u > 127 then 1 else 0) := by
      apply clampLevel_of_mem
      · split <;> decide
      · rw [hmax]; split <;> decide
    rw [hclamp] at hw
    rw [eq_of_mem_ite_nil_singleton hw]

theorem binary_device_threshold_witness :
    ((⟨exampleBinaryDevice, false, 0⟩ : CoolingDeviceController).SetSpeed 200 true).2.2 =
      [⟨"/sys/class/thermal/cooling_device0/cur_state", "1\n"⟩] ∧
    (∀ w ∈ ((⟨exampleBinaryDevice, false, 0⟩ : CoolingDeviceController).SetSpeed 200 true).2.2,
      w.data = "1\n") :=
  ⟨by decide,
   (binary_device_threshold ⟨exampleBinaryDevice, false, 0⟩ 200 true (by decide)).2.2.1⟩

/-- Claim C5 as stated fails: with four levels above off, the unified level 100 selects
native level 1 (truncated quotient), whereas the nearest integer to
`100 * 4 / 255 = 1.57` is 2. -/
theorem nativeLevel_not_nearest :
    CoolingDeviceController.nativeLevel 100 exampleLevelDevice.GetMaxLevel = 1 ∧
    round ((100 * 4 : ℚ) / 255) = 2 ∧
    (2 : Int) ≤ exampleLevelDevice.GetMaxLevel ∧
    ((CoolingDeviceController.nativeLevel 100 exampleLevelDevice.GetMaxLevel : Int) ≠
      round (((100 : Int) : ℚ) * ((exampleLevelDevice.GetMaxLevel : Int) : ℚ) / 255)) := by
  refine ⟨by decide, by norm_num [round_eq], by decide, ?_⟩
  have h1 : CoolingDeviceController.nativeLevel 100 exampleLevelDevice.GetMaxLevel = 1 := by
    decide
  have h2 : round (((100 : Int) : ℚ) * ((exampleLevelDevice.GetMaxLevel : Int) : ℚ) / 255)
      = 2 := by
    norm_num [round_eq, exampleLevelDevice, CoolingDevice.GetMaxLevel]
  rw [h1, h2]
  decide

/-- Claim C5, amended: on a cooling device with more than two native levels
(`maxNative ≥ 2`) whose `maxNative` is at most `maxInt / 255`, so that the product
`u * maxNative` fits the 64-bit `int`, and for every unified level `u` in `0..255`,
the native level `SetSpeed` selects is the floor of the exact quotient
`u * maxNative / 255` (the truncated integer quotient), it lies in `0..maxNative`,
and it is what a write carries. -/
theorem nativeLevel_floor (cc : CoolingDeviceController) (u : Int) (writeOk : Bool)
    (hmax : 2 ≤ cc.cooling.GetMaxLevel) (hb : cc.cooling.GetMaxLevel ≤ maxInt / 255)
    (h0 : 0 ≤ u) (h255 : u ≤ 255) :
    CoolingDeviceController.nativeLevel u cc.cooling.GetMaxLevel =
      ⌊((u : ℚ) * (cc.cooling.GetMaxLevel : ℚ)) / 255⌋ ∧
    CoolingDeviceController.nativeLevel u cc.cooling.GetMaxLevel =
      (u * cc.cooling.GetMaxLevel) / 255 ∧
    0 ≤ CoolingDeviceController.nativeLevel u cc.cooling.GetMaxLevel ∧
    CoolingDeviceController.nativeLevel u cc.cooling.GetMaxLevel ≤ cc.cooling.GetMaxLevel ∧
    (∀ w ∈ (cc.SetSpeed u writeOk).2.2,
      w.data = Itoa (CoolingDeviceController.nativeLevel u cc.cooling.GetMaxLevel) ++ "\n") := by
  have hm0 : (0 : Int) ≤ cc.cooling.GetMaxLevel := by omega
  have hne : cc.cooling.GetMaxLevel ≠ 1 := by omega
  have hdiv : CoolingDeviceController.nativeLevel u cc.cooling.GetMaxLevel =
      (u * cc.cooling.GetMaxLevel) / 255 := by
    rw [nativeLevel_proportional _ _ h0 h255 hm0 hb hne,
      Int.tdiv_eq_ediv (mul_nonneg h0 hm0) (by decide)]
  have hnn := nativeLevel_nonneg u cc.cooling.GetMaxLevel h0 h255 hm0 hb
  have hle := nativeLevel_le_max u cc.cooling.GetMaxLevel h0 h255 hm0 hb
  refine ⟨?_, hdiv, hnn, hle, ?_⟩
  · rw [hdiv]
    have := Rat.floor_intCast_div_natCast (u * cc.cooling.GetMaxLevel) 255
    simpa using this.symm
  · intro w hw
    rw [CoolingDeviceController.coolingSetSpeed_writes] at hw
    change CoolingDeviceController.nativeLevel u cc.cooling.maxState ≤ cc.cooling.maxState
      at hle
    change 0 ≤ CoolingDeviceController.nativeLevel u cc.cooling.maxState at hnn
    rw [clampLevel_of_mem _ _ hnn hle] at hw
    rw [eq_of_mem_ite_nil_singleton hw]
    rfl

theorem nativeLevel_floor_witness :
    CoolingDeviceController.nativeLevel 100 4 = ⌊((100 : ℚ) * 4) / 255⌋ ∧
    CoolingDeviceController.nativeLevel 100 4 = 1 ∧
    (∀ w ∈ ((⟨exampleLevelDevice, false, 0⟩ : CoolingDeviceController).SetSpeed 100 true).2.2,
      w.data = "1\n") := by
  have h := nativeLevel_floor ⟨exampleLevelDevice, false, 0⟩ 100 true
    (by decide) (by decide) (by decide) (by decide)
  refine ⟨?_, by decide, h.2.2.2.2⟩
  have h1 := h.1
  simpa [exampleLevelDevice, CoolingDevice.GetMaxLevel] using h1

/-- Claim C6: on a cooling device with `max_state = 4`, `SetSpeed` maps the unified
level 255 to native level 4, 0 to native level 0 and 128 to native level 2, and
these are the levels its writes carry. -/
theorem max_state_four_levels (cc : CoolingDeviceController) (writeOk : Bool)
    (h4 : cc.cooling.maxState = 4) :
    CoolingDeviceController.nativeLevel 255 cc.cooling.GetMaxLevel = 4 ∧
    CoolingDeviceController.nativeLevel 0 cc.cooling.GetMaxLevel = 0 ∧
    CoolingDeviceController.nativeLevel 128 cc.cooling.GetMaxLevel = 2 ∧
    (∀ w ∈ (cc.SetSpeed 255 writeOk).2.2, w.data = "4\n") ∧
    (∀ w ∈ (cc.SetSpeed 0 writeOk).2.2, w.data = "0\n") ∧
    (∀ w ∈ (cc.SetSpeed 128 writeOk).2.2, w.data = "2\n") := by
  have hmax : cc.cooling.GetMaxLevel = 4 := h4
  rw [hmax]
  refine ⟨by decide, by decide, by decide, ?_, ?_, ?_⟩
  · intro w hw
    rw [CoolingDeviceController.coolingSetSpeed_writes, h4] at hw
    rw [eq_of_mem_ite_nil_singleton hw]
    simp only [CoolingDevice.clampLevel, h4]
    decide
  · intro w hw
    rw [CoolingDeviceController.coolingSetSpeed_writes, h4] at hw
    rw [eq_of_mem_ite_nil_singleton hw]
    simp only [CoolingDevice.clampLevel, h4]
    decide
  · intro w hw
    rw [CoolingDeviceController.coolingSetSpeed_writes, h4] at hw
    rw [eq_of_mem_ite_nil_singleton hw]
    simp only [CoolingDevice.clampLevel, h4]
    decide

theorem max_state_four_levels_witness :
    ((⟨exampleLevelDevice, false, 0⟩ : CoolingDeviceController).SetSpeed 255 true).2.2 =
      [⟨"/sys/class/thermal/cooling_device4/cur_state", "4\n"⟩] ∧
    ((⟨exampleLevelDevice, false, 4⟩ : CoolingDeviceController).SetSpeed 0 true).2.2 =
      [⟨"/sys/class/thermal/cooling_device4/cur_state", "0\n"⟩] ∧
    ((⟨exampleLevelDevice, false, 0⟩ : CoolingDeviceController).SetSpeed 128 true).2.2 =
      [⟨"/sys/class/thermal/cooling_device4/cur_state", "2\n"⟩] ∧
    CoolingDeviceController.nativeLevel 128 4 = 2 :=
  ⟨by decide, by decide, by decide,
   (max_state_four_levels ⟨exampleLevelDevice, false, 0⟩ true (by decide)).2.2.1⟩

theorem clampLevel_mono (d : CoolingDevice) (a b : Int) (h : a ≤ b) :
    d.clampLevel a ≤ d.clampLevel b := by
  unfold CoolingDevice.clampLevel
  simp only
  split_ifs <;> omega

theorem nativeLevel_mono (maxLevel u1 u2 : Int) (hm : 0 ≤ maxLevel)
    (hb : maxLevel ≤ maxInt / 255) (h0 : 0 ≤ u1) (h12 : u1 ≤ u2) (h255 : u2 ≤ 255) :
    CoolingDeviceController.nativeLevel u1 maxLevel ≤
      CoolingDeviceController.nativeLevel u2 maxLevel := by
  by_cases h : maxLevel = 1
  · subst h
    rw [nativeLevel_binary, nativeLevel_binary]
    split_ifs <;> omega
  · have h02 : 0 ≤ u2 := le_trans h0 h12
    rw [nativeLevel_proportional _ _ h0 (le_trans h12 h255) hm hb h,
      nativeLevel_proportional _ _ h02 h255 hm hb h,
      Int.tdiv_eq_ediv (mul_nonneg h0 hm) (by decide),
      Int.tdiv_eq_ediv (mul_nonneg h02 hm) (by decide)]
    have hle : u1 * maxLevel ≤ u2 * maxLevel := mul_le_mul_of_nonneg_right h12 hm
    omega

/-- Claim C7 as stated fails: on a fan-typed cooling device that reports
`max_state` 36170086419038337, which `NewDevice` accepts, the product
`255 * max_state` exceeds the 64-bit `int` and wraps around: the unified level 254
selects the native level 36028242942885245 and the higher unified level 255
selects -36170086419038336, for which `SetLevel` writes 0. -/
theorem rescaling_wraps_at_huge_max_state :
    NewDevice "auto" false hugeLevelFS = .ok hugeLevelDevice ∧
    0 ≤ hugeLevelDevice.GetMaxLevel ∧
    CoolingDeviceController.nativeLevel 254 hugeLevelDevice.GetMaxLevel =
      36028242942885245 ∧
    CoolingDeviceController.nativeLevel 255 hugeLevelDevice.GetMaxLevel =
      -36170086419038336 ∧
    ¬ CoolingDeviceController.nativeLevel 254 hugeLevelDevice.GetMaxLevel ≤
      CoolingDeviceController.nativeLevel 255 hugeLevelDevice.GetMaxLevel ∧
    hugeLevelDevice.clampLevel
      (CoolingDeviceController.nativeLevel 254 hugeLevelDevice.GetMaxLevel) =
      36028242942885245 ∧
    hugeLevelDevice.clampLevel
      (CoolingDeviceController.nativeLevel 255 hugeLevelDevice.GetMaxLevel) = 0 :=
  ⟨rfl, by decide, by decide, by decide, by decide, by decide, by decide⟩

/-- Claim C7, amended: the rescaling of the discrete actuator is monotone on every
device whose max level lies in `0..maxInt / 255` (the two-level device included),
where the product `u * maxNative` fits the 64-bit `int`: for unified levels
`0 ≤ u1 ≤ u2 ≤ 255` the native level selected for `u1` is at most the one selected
for `u2`, and so is the level `SetLevel` then writes. -/
theorem rescaling_monotone (d : CoolingDevice) (u1 u2 : Int)
    (hm : 0 ≤ d.GetMaxLevel) (hb : d.GetMaxLevel ≤ maxInt / 255)
    (h0 : 0 ≤ u1) (h12 : u1 ≤ u2) (h255 : u2 ≤ 255) :
    CoolingDeviceController.nativeLevel u1 d.GetMaxLevel ≤
      CoolingDeviceController.nativeLevel u2 d.GetMaxLevel ∧
    d.clampLevel (CoolingDeviceController.nativeLevel u1 d.GetMaxLevel) ≤
      d.clampLevel (CoolingDeviceController.nativeLevel u2 d.GetMaxLevel) := by
  have h := nativeLevel_mono d.GetMaxLevel u1 u2 hm hb h0 h12 h255
  exact ⟨h, clampLevel_mono d _ _ h⟩

theorem rescaling_monotone_witness :
    CoolingDeviceController.nativeLevel 127 exampleBinaryDevice.GetMaxLevel ≤
      CoolingDeviceController.nativeLevel 128 exampleBinaryDevice.GetMaxLevel ∧
    CoolingDeviceController.nativeLevel 63 exampleLevelDevice.GetMaxLevel ≤
      CoolingDeviceController.nativeLevel 64 exampleLevelDevice.GetMaxLevel :=
  ⟨(rescaling_monotone exampleBinaryDevice 127 128
      (by decide) (by decide) (by decide) (by decide) (by decide)).1,
   (rescaling_monotone exampleLevelDevice 63 64
      (by decide) (by decide) (by decide) (by decide) (by decide)).1⟩

/-! ## The PWM actuator -/

theorem clampPWM_eq (fc : FanControllerImpl) (pwm : Int) (h : fc.minPWM ≤ fc.maxPWM) :
    fc.clampPWM pwm = max fc.minPWM (min pwm fc.maxPWM) := by
  unfold FanControllerImpl.clampPWM
  simp only
  split_ifs <;> omega

theorem clampPWM_of_mem (fc : FanControllerImpl) (pwm : Int)
    (h1 : fc.minPWM ≤ pwm) (h2 : pwm ≤ fc.maxPWM) : fc.clampPWM pwm = pwm := by
  unfold FanControllerImpl.clampPWM
  simp only
  split_ifs <;> omega

/-- What `(*FanControllerImpl).SetSpeed` writes: nothing when the clamped value is
the remembered one or lies outside `0..255`, else the clamped value to the PWM
file. -/
theorem FanControllerImpl.pwmSetSpeed_writes (fc : FanControllerImpl) (pwm : Int)
    (writeOk : Bool) :
    (fc.SetSpeed pwm writeOk).2.2 =
      if fc.clampPWM pwm = fc.lastPWM ∨ fc.clampPWM pwm < 0 ∨ fc.clampPWM pwm > 255 then []
      else [⟨fc.fan.pwmPath, Itoa (fc.clampPWM pwm) ++ "\n"⟩] := by
  unfold FanControllerImpl.SetSpeed PWMFan.SetSpeed
  by_cases h : fc.clampPWM pwm = fc.lastPWM
  · simp [h]
  · by_cases h2 : fc.clampPWM pwm < 0 ∨ fc.clampPWM pwm > 255
    · simp [h, h2]
    · cases writeOk <;> simp [h, h2]

/-- Claim C8: for a PWM actuator with `minPWM ≤ maxPWM` and every integer level
passed to `SetSpeed`, whatever `SetSpeed` writes is the level clamped into
`minPWM..maxPWM`, written to the PWM file; that value lies between
`GetMinSpeed()` and `GetMaxSpeed()`. -/
theorem SetSpeed_writes_clamped (fc : FanControllerImpl) (pwm : Int) (writeOk : Bool)
    (hmm : fc.minPWM ≤ fc.maxPWM) :
    ∀ w ∈ (fc.SetSpeed pwm writeOk).2.2,
      w = ⟨fc.fan.pwmPath, Itoa (max fc.minPWM (min pwm fc.maxPWM)) ++ "\n"⟩ ∧
      fc.GetMinSpeed ≤ max fc.minPWM (min pwm fc.maxPWM) ∧
      max fc.minPWM (min pwm fc.maxPWM) ≤ fc.GetMaxSpeed := by
  intro w hw
  rw [FanControllerImpl.pwmSetSpeed_writes, clampPWM_eq fc pwm hmm] at hw
  refine ⟨eq_of_mem_ite_nil_singleton hw, ?_, ?_⟩
  · exact le_max_left _ _
  · exact max_le hmm (min_le_right _ _)

theorem SetSpeed_writes_clamped_witness :
    (exampleFanController.SetSpeed 300 true).2.2 =
      [⟨"/sys/class/hwmon/hwmon0/pwm1", "255\n"⟩] ∧
    (exampleFanController.SetSpeed 10 true).2.2 =
      [⟨"/sys/class/hwmon/hwmon0/pwm1", "50\n"⟩] ∧
    (∀ w ∈ (exampleFanController.SetSpeed 300 true).2.2,
      w = ⟨"/sys/class/hwmon/hwmon0/pwm1", "255\n"⟩ ∧
      exampleFanController.GetMinSpeed ≤ 255 ∧ 255 ≤ exampleFanController.GetMaxSpeed) :=
  ⟨by decide, by decide,
   SetSpeed_writes_clamped exampleFanController 300 true (by decide)⟩

/-! ## Suppression of redundant writes -/

theorem NewFanController_ok {fan : PWMFan} {minPWM maxPWM : Int} {verbose : Bool}
    {fc : FanControllerImpl}
    (h : NewFanController (.ok fan) minPWM maxPWM verbose = .ok fc) :
    fc = { fan := fan, minPWM := minPWM, maxPWM := maxPWM, verbose := verbose,
           lastPWM := 0 } := by
  simp only [NewFanController, Except.ok.injEq] at h
  exact h.symm

theorem NewCoolingDeviceController_ok {dev : CoolingDevice} {verbose : Bool}
    {cc : CoolingDeviceController}
    (h : NewCoolingDeviceController (.ok dev) verbose = .ok cc) :
    cc = { cooling := dev, verbose := verbose, lastLevel := 0 } := by
  simp only [NewCoolingDeviceController, Except.ok.injEq] at h
  exact h.symm

/-- After a `SetSpeed` whose write succeeded, the PWM actuator remembers the value
written. -/
theorem FanControllerImpl.pwmSetSpeed_state (fc : FanControllerImpl) (pwm : Int) :
    (fc.SetSpeed pwm true).2.1 =
      if fc.clampPWM pwm = fc.lastPWM ∨ fc.clampPWM pwm < 0 ∨ fc.clampPWM pwm > 255 then fc
      else { fc with lastPWM := fc.clampPWM pwm } := by
  unfold FanControllerImpl.SetSpeed PWMFan.SetSpeed
  by_cases h : fc.clampPWM pwm = fc.lastPWM
  · simp [h]
  · by_cases h2 : fc.clampPWM pwm < 0 ∨ fc.clampPWM pwm > 255
    · simp [h, h2]
    · simp [h, h2]

/-- After a `SetSpeed` whose write succeeded, the discrete actuator remembers the
level it computed. -/
theorem CoolingDeviceController.coolingSetSpeed_state (cc : CoolingDeviceController) (speed : Int) :
    (cc.SetSpeed speed true).2.1 =
      if CoolingDeviceController.nativeLevel speed cc.cooling.maxState = cc.lastLevel then cc
      else { cc with
        cooling := { cc.cooling with
          curState := (cc.cooling.clampLevel
            (CoolingDeviceController.nativeLevel speed cc.cooling.maxState)) },
        lastLevel := CoolingDeviceController.nativeLevel speed cc.cooling.maxState } := by
  unfold CoolingDeviceController.SetSpeed CoolingDevice.GetMaxLevel
  by_cases h : CoolingDeviceController.nativeLevel speed cc.cooling.maxState = cc.lastLevel
  · simp [h]
  · simp [h, CoolingDevice.SetLevel]

/-- Claim C9 fails on the code: a new actuator remembers 0 as the last value written
although it has written nothing, so a first `SetSpeed` whose target is 0 is taken
for a repetition and skipped, against the comment of `SetSpeed`, by which only a
value that was set before is not set again.  A just-constructed PWM actuator with
range 0..255 asked twice for level 0, and a just-constructed discrete actuator
asked twice for level 0 or for level 50 (native level 0), perform no device write
at all; on the fan `NewDevice` finds running at state 1, the request for level 0
writes nothing and the fan keeps running at state 1. -/
theorem fresh_actuator_level_zero_no_write :
    NewFanController (.ok examplePWMFan) 0 255 false = .ok freshFullRangeFan ∧
    (FanController.pwm freshFullRangeFan).GetMinSpeed ≤ 0 ∧
    0 ≤ (FanController.pwm freshFullRangeFan).GetMaxSpeed ∧
    ((FanController.pwm freshFullRangeFan).setSpeedTwice 0).length = 0 ∧
    NewCoolingDeviceController (.ok exampleLevelDevice) false = .ok freshLevelController ∧
    ((FanController.cooling freshLevelController).setSpeedTwice 0).length = 0 ∧
    ((FanController.cooling freshLevelController).setSpeedTwice 50).length = 0 ∧
    NewDevice "auto" false fanSecondFS = .ok runningLevelDevice ∧
    NewCoolingDeviceController (.ok runningLevelDevice) false =
      .ok ⟨runningLevelDevice, false, 0⟩ ∧
    ((FanController.cooling ⟨runningLevelDevice, false, 0⟩).setSpeedTwice 0).length = 0 ∧
    ((⟨runningLevelDevice, false, 0⟩ : CoolingDeviceController).SetSpeed 0 true).2.1.cooling.curState
      = 1 :=
  ⟨rfl, by decide, by decide, by decide, rfl, by decide, by decide, rfl, rfl, by decide,
    by decide⟩

/-- Away from the target 0 the suppression works as the comment of `SetSpeed` says: for
a just-constructed actuator and a unified level in `0..255` and in the actuator's
range whose target (the level itself for a PWM actuator, the selected native level
for a discrete one) is not 0, two consecutive `SetSpeed` calls with that level, the
device accepting writes, perform exactly one device write: the first call writes
the target, the second writes nothing. -/
theorem fresh_actuator_single_write (fan : PWMFan) (minPWM maxPWM : Int) (verbose : Bool)
    (dev : CoolingDevice) (fc : FanControllerImpl) (cc : CoolingDeviceController)
    (level : Int)
    (hfc : NewFanController (.ok fan) minPWM maxPWM verbose = .ok fc)
    (hcc : NewCoolingDeviceController (.ok dev) verbose = .ok cc)
    (h0 : 0 ≤ level) (h255 : level ≤ 255) :
    (fc.GetMinSpeed ≤ level → level ≤ fc.GetMaxSpeed → level ≠ 0 →
      (fc.SetSpeed level true).2.2 = [⟨fan.pwmPath, Itoa level ++ "\n"⟩] ∧
      ((fc.SetSpeed level true).2.1.SetSpeed level true).2.2 = [] ∧
      ((FanController.pwm fc).setSpeedTwice level).length = 1) ∧
    (CoolingDeviceController.nativeLevel level dev.GetMaxLevel ≠ 0 →
      (cc.SetSpeed level true).2.2 =
        [⟨filepathJoin dev.devicePath "cur_state",
          Itoa (dev.clampLevel (CoolingDeviceController.nativeLevel level dev.GetMaxLevel))
            ++ "\n"⟩] ∧
      ((cc.SetSpeed level true).2.1.SetSpeed level true).2.2 = [] ∧
      ((FanController.cooling cc).setSpeedTwice level).length = 1) := by
  have hfc' := NewFanController_ok hfc
  have hcc' := NewCoolingDeviceController_ok hcc
  subst hfc' hcc'
  constructor
  · intro hmin hmax hne
    have hclamp := clampPWM_of_mem
      { fan := fan, minPWM := minPWM, maxPWM := maxPWM, verbose := verbose, lastPWM := 0 }
      level hmin hmax
    have hcond : ¬ (level = 0 ∨ level < 0 ∨ level > 255) := by omega
    have hw1 : ((FanControllerImpl.mk fan minPWM maxPWM verbose 0).SetSpeed level true).2.2 =
        [⟨fan.pwmPath, Itoa level ++ "\n"⟩] := by
      rw [FanControllerImpl.pwmSetSpeed_writes, hclamp]
      simp [hcond]
    have hs1 : ((FanControllerImpl.mk fan minPWM maxPWM verbose 0).SetSpeed level true).2.1 =
        FanControllerImpl.mk fan minPWM maxPWM verbose level := by
      rw [FanControllerImpl.pwmSetSpeed_state, hclamp]
      simp [hcond]
    have hw2 : ((FanControllerImpl.mk fan minPWM maxPWM verbose level).SetSpeed level true).2.2
        = [] := by
      rw [FanControllerImpl.pwmSetSpeed_writes,
        clampPWM_of_mem (FanControllerImpl.mk fan minPWM maxPWM verbose level) level hmin hmax]
      simp
    refine ⟨hw1, by rw [hs1, hw2], ?_⟩
    simp only [FanController.setSpeedTwice, FanController.SetSpeed]
    rw [hs1, hw1, hw2]
    rfl
  · intro hne
    have hne' : ¬ CoolingDeviceController.nativeLevel level dev.maxState = 0 := hne
    have hw1 : ((CoolingDeviceController.mk dev verbose 0).SetSpeed level true).2.2 =
        [⟨filepathJoin dev.devicePath "cur_state",
          Itoa (dev.clampLevel (CoolingDeviceController.nativeLevel level dev.maxState))
            ++ "\n"⟩] := by
      rw [CoolingDeviceController.coolingSetSpeed_writes]
      simp [hne']
    have hs1 : ((CoolingDeviceController.mk dev verbose 0).SetSpeed level true).2.1 =
        CoolingDeviceController.mk
          { dev with
            curState := (dev.clampLevel
              (CoolingDeviceController.nativeLevel level dev.maxState)) }
          verbose (CoolingDeviceController.nativeLevel level dev.maxState) := by
      rw [CoolingDeviceController.coolingSetSpeed_state]
      simp [hne']
    have hw2 : ((CoolingDeviceController.mk
          { dev with
            curState := (dev.clampLevel
              (CoolingDeviceController.nativeLevel level dev.maxState)) }
          verbose (CoolingDeviceController.nativeLevel level dev.maxState)).SetSpeed
            level true).2.2 = [] := by
      rw [CoolingDeviceController.coolingSetSpeed_writes]
      simp
    refine ⟨hw1, by rw [hs1, hw2], ?_⟩
    simp only [FanController.setSpeedTwice, FanController.SetSpeed]
    rw [hs1, hw1, hw2]
    rfl

theorem fresh_actuator_single_write_witness :
    (exampleFanController.SetSpeed 152 true).2.2 =
      [⟨"/sys/class/hwmon/hwmon0/pwm1", "152\n"⟩] ∧
    ((FanController.pwm exampleFanController).setSpeedTwice 152).length = 1 ∧
    ((FanController.cooling freshLevelController).setSpeedTwice 152).length = 1 := by
  have h := fresh_actuator_single_write examplePWMFan 50 255 false exampleLevelDevice
    exampleFanController freshLevelController 152 rfl rfl (by decide) (by decide)
  exact ⟨(h.1 (by decide) (by decide) (by decide)).1,
    (h.1 (by decide) (by decide) (by decide)).2.2, (h.2 (by decide)).2.2⟩

/-! ## Reading back what `Itoa` writes -/

theorem digitChar_isDigit (k : Nat) (hk : k < 10) : (Nat.digitChar k).isDigit = true := by
  interval_cases k <;> decide

theorem digitChar_toNat (k : Nat) (hk : k < 10) : (Nat.digitChar k).toNat - 48 = k := by
  interval_cases k <;> decide

theorem parseDigits_snoc (cs : List Char) (c : Char) (acc : Nat) :
    parseDigits (cs ++ [c]) acc =
      (parseDigits cs acc).bind
        (fun v => if c.isDigit then some (v * 10 + (c.toNat - 48)) else none) := by
  induction cs generalizing acc with
  | nil => simp [parseDigits]
  | cons d ds ih =>
    by_cases hd : d.isDigit
    · simp [parseDigits, hd, ih]
    · simp [parseDigits, hd]

theorem toDigitsCore_append (fuel n : Nat) (ds : List Char) :
    Nat.toDigitsCore 10 fuel n ds = Nat.toDigitsCore 10 fuel n [] ++ ds := by
  induction fuel generalizing n ds with
  | zero => simp [Nat.toDigitsCore]
  | succ fuel ih =>
    simp only [Nat.toDigitsCore]
    split
    · simp
    · rw [ih (n / 10) (Nat.digitChar (n % 10) :: ds), ih (n / 10) [Nat.digitChar (n % 10)]]
      simp

theorem parseDigits_toDigitsCore (fuel n : Nat) (h : n < fuel) :
    parseDigits (Nat.toDigitsCore 10 fuel n []) 0 = some n := by
  induction fuel generalizing n with
  | zero => omega
  | succ fuel ih =>
    have hlt : n % 10 < 10 := Nat.mod_lt _ (by decide)
    simp only [Nat.toDigitsCore]
    split
    · rename_i hq
      simp only [parseDigits, digitChar_isDigit _ hlt, digitChar_toNat _ hlt, if_true]
      congr 1
      omega
    · rename_i hq
      rw [toDigitsCore_append, parseDigits_snoc, ih (n / 10) (by omega)]
      simp only [Option.bind, digitChar_isDigit _ hlt, digitChar_toNat _ hlt, if_true]
      congr 1
      omega

theorem toDigitsCore_ne_nil (fuel n : Nat) (h : 0 < fuel) :
    Nat.toDigitsCore 10 fuel n [] ≠ [] := by
  cases fuel with
  | zero => omega
  | succ fuel =>
    simp only [Nat.toDigitsCore]
    split
    · simp
    · rw [toDigitsCore_append]
      simp

theorem toDigitsCore_head_digit (fuel n : Nat) (c : Char) (cs : List Char)
    (h : Nat.toDigitsCore 10 fuel n [] = c :: cs) : c.isDigit = true := by
  induction fuel generalizing n c cs with
  | zero => simp [Nat.toDigitsCore] at h
  | succ fuel ih =>
    have hlt : n % 10 < 10 := Nat.mod_lt _ (by decide)
    simp only [Nat.toDigitsCore] at h
    split at h
    · simp only [List.cons.injEq] at h
      rw [← h.1]
      exact digitChar_isDigit _ hlt
    · rw [toDigitsCore_append] at h
      cases hrec : Nat.toDigitsCore 10 fuel (n / 10) [] with
      | nil =>
        rw [hrec] at h
        simp only [List.nil_append, List.cons.injEq] at h
        rw [← h.1]
        exact digitChar_isDigit _ hlt
      | cons e es =>
        rw [hrec] at h
        simp only [List.cons_append, List.cons.injEq] at h
        rw [← h.1]
        exact ih (n / 10) e es hrec

/-- Reading back a natural number printed in decimal. -/
theorem parseDigits_repr (n : Nat) : parseDigits (Nat.repr n).data 0 = some n := by
  have h : (Nat.repr n).data = Nat.toDigitsCore 10 (n + 1) n [] := rfl
  rw [h]
  exact parseDigits_toDigitsCore (n + 1) n (by omega)

theorem parseSigned_repr (n : Nat) (neg : Bool)
    (h : minInt ≤ (if neg then -(n : Int) else (n : Int)) ∧
      (if neg then -(n : Int) else (n : Int)) ≤ maxInt) :
    parseSigned neg (Nat.repr n).data = some (if neg then -(n : Int) else (n : Int)) := by
  have hne : (Nat.repr n).data ≠ [] := toDigitsCore_ne_nil (n + 1) n (by omega)
  unfold parseSigned
  split
  · rename_i heq
    exact absurd heq hne
  · rw [parseDigits_repr]
    simp only [h, and_self, if_true]

theorem Atoi_of_digit_head (s : String) (c : Char) (cs : List Char)
    (hs : s.data = c :: cs) (hc : c.isDigit = true) :
    Atoi s = parseSigned false s.data := by
  have h1 : c ≠ '-' := by
    intro h; rw [h] at hc; exact absurd hc (by decide)
  have h2 : c ≠ '+' := by
    intro h; rw [h] at hc; exact absurd hc (by decide)
  unfold Atoi
  rw [hs]
  split
  · rename_i heq; simp at heq
  · rename_i heq
    simp only [List.cons.injEq] at heq
    exact absurd heq.1 h1
  · rename_i heq
    simp only [List.cons.injEq] at heq
    exact absurd heq.1 h2
  · rfl

/-- Go `strconv.Atoi(strconv.Itoa(m)) = m` for every `int` value `m`. -/
theorem Atoi_Itoa (m : Int) (hlo : minInt ≤ m) (hhi : m ≤ maxInt) :
    Atoi (Itoa m) = some m := by
  cases m with
  | ofNat n =>
    have hdata : (Itoa (Int.ofNat n)).data = Nat.toDigitsCore 10 (n + 1) n [] := rfl
    cases hcs : Nat.toDigitsCore 10 (n + 1) n [] with
    | nil => exact absurd hcs (toDigitsCore_ne_nil (n + 1) n (by omega))
    | cons c cs =>
      rw [Atoi_of_digit_head (Itoa (Int.ofNat n)) c cs (hdata.trans hcs)
        (toDigitsCore_head_digit _ _ c cs hcs)]
      have := parseSigned_repr n false ⟨hlo, hhi⟩
      simpa [Itoa] using this
  | negSucc k =>
    have hdata : (Itoa (Int.negSucc k)).data = '-' :: (Nat.repr (k + 1)).data := rfl
    unfold Atoi
    rw [hdata]
    have hv : (if true = true then -((k + 1 : Nat) : Int) else ((k + 1 : Nat) : Int)) =
        Int.negSucc k := by
      simp [Int.negSucc_eq]
    have := parseSigned_repr (k + 1) true (by rw [hv]; exact ⟨hlo, hhi⟩)
    rw [hv] at this
    exact this

theorem dropLastByte_newline (s : String) : dropLastByte (s ++ "\n") = some s := by
  have hdata : (s ++ "\n").data = s.data ++ ['\n'] := rfl
  unfold dropLastByte
  rw [hdata]
  simp

/-- Reading back, the way `createPWMFan` reads, the line `Close` writes. -/
theorem readMode_Itoa (m : Int) (hlo : minInt ≤ m) (hhi : m ≤ maxInt) :
    readMode (Itoa m ++ "\n") = some m := by
  unfold readMode
  rw [dropLastByte_newline]
  exact Atoi_Itoa m hlo hhi

theorem parseSigned_range (neg : Bool) (ds : List Char) (m : Int)
    (h : parseSigned neg ds = some m) : minInt ≤ m ∧ m ≤ maxInt := by
  unfold parseSigned at h
  split at h
  · simp at h
  · split at h
    · simp at h
    · rename_i n hn
      by_cases hr : minInt ≤ (if neg then -(n : Int) else (n : Int)) ∧
          (if neg then -(n : Int) else (n : Int)) ≤ maxInt
      · simp only [hr, and_self, if_true, Option.some.injEq] at h
        rw [← h]
        exact hr
      · simp only [hr, if_false] at h
        exact absurd h (by simp)

/-- A value `Atoi` returns is an `int`. -/
theorem Atoi_range (s : String) (m : Int) (h : Atoi s = some m) :
    minInt ≤ m ∧ m ≤ maxInt := by
  unfold Atoi at h
  split at h
  · simp at h
  · exact parseSigned_range _ _ _ h
  · exact parseSigned_range _ _ _ h
  · exact parseSigned_range _ _ _ h

theorem readMode_range (data : String) (m : Int) (h : readMode data = some m) :
    minInt ≤ m ∧ m ≤ maxInt := by
  unfold readMode at h
  cases hd : dropLastByte data with
  | none => rw [hd] at h; simp at h
  | some body =>
    rw [hd] at h
    exact Atoi_range body m h

/-! ## Restoring the control mode -/

/-- A successful `createPWMFan` remembers the mode it read. -/
theorem createPWMFan_ok (pwmPath : String) (verbose : Bool) (data : String)
    (writeOk : Bool) (fan : PWMFan) (ws : List DeviceWrite) (m : Int)
    (hmode : readMode data = some m)
    (hcreate : createPWMFan pwmPath verbose (some data) writeOk = (.ok fan, ws)) :
    fan = { pwmPath := pwmPath, enablePath := pwmPath ++ "_enable",
            originalMode := m, verbose := verbose } := by
  unfold readMode at hmode
  unfold createPWMFan at hcreate
  cases hd : dropLastByte data with
  | none => rw [hd] at hmode; simp at hmode
  | some body =>
    rw [hd] at hmode
    simp only [Option.bind] at hmode
    simp only [hd, hmode] at hcreate
    cases writeOk with
    | false => simp at hcreate
    | true =>
      simp only [if_true, Prod.mk.injEq, Except.ok.injEq] at hcreate
      exact hcreate.1.symm

/-- The method `SetSpeed` of the PWM actuator leaves its fan, and with it the
remembered mode, alone. -/
theorem FanControllerImpl.SetSpeed_fan (fc : FanControllerImpl) (pwm : Int)
    (writeOk : Bool) : (fc.SetSpeed pwm writeOk).2.1.fan = fc.fan := by
  unfold FanControllerImpl.SetSpeed PWMFan.SetSpeed
  by_cases h : fc.clampPWM pwm = fc.lastPWM
  · simp [h]
  · by_cases h2 : fc.clampPWM pwm < 0 ∨ fc.clampPWM pwm > 255
    · simp [h, h2]
    · cases writeOk <;> simp [h, h2]

theorem FanControllerImpl.setSpeeds_fan (fc : FanControllerImpl)
    (calls : List (Int × Bool)) : (fc.setSpeeds calls).1.fan = fc.fan := by
  induction calls generalizing fc with
  | nil => rfl
  | cons call rest ih =>
    obtain ⟨pwm, writeOk⟩ := call
    simp only [FanControllerImpl.setSpeeds]
    rw [ih, FanControllerImpl.SetSpeed_fan]

/-- Claim C10: for a PWM actuator constructed while the control-mode file held mode
`m`, and for every sequence of `SetSpeed` calls made afterwards, whatever their
levels and the outcomes of their writes, the actuator still remembers `m`, and
`Close` writes the line of `m` to the control-mode file, a line that reads back
as `m`. -/
theorem Close_writes_original_mode (pwmPath : String) (verbose : Bool) (data : String)
    (createOk : Bool) (fan : PWMFan) (ws : List DeviceWrite) (minPWM maxPWM : Int)
    (fc : FanControllerImpl) (m : Int) (calls : List (Int × Bool)) (closeOk : Bool)
    (hmode : readMode data = some m)
    (hcreate : createPWMFan pwmPath verbose (some data) createOk = (.ok fan, ws))
    (hnew : NewFanController (.ok fan) minPWM maxPWM verbose = .ok fc) :
    (fc.setSpeeds calls).1.fan.originalMode = m ∧
    ((fc.setSpeeds calls).1.Close closeOk).2 =
      [⟨pwmPath ++ "_enable", Itoa m ++ "\n"⟩] ∧
    readMode (Itoa m ++ "\n") = some m := by
  have hfan := createPWMFan_ok pwmPath verbose data createOk fan ws m hmode hcreate
  have hfc := NewFanController_ok hnew
  have hkeep := FanControllerImpl.setSpeeds_fan fc calls
  have hfcfan : fc.fan = fan := by rw [hfc]
  have hrange := readMode_range data m hmode
  refine ⟨?_, ?_, readMode_Itoa m hrange.1 hrange.2⟩
  · rw [hkeep, hfcfan, hfan]
  · unfold FanControllerImpl.Close PWMFan.Close
    rw [hkeep, hfcfan, hfan]
    cases closeOk <;> rfl

theorem Close_writes_original_mode_witness :
    createPWMFan "/sys/class/hwmon/hwmon0/pwm1" false (some "2\n") true =
      (.ok examplePWMFan, [⟨"/sys/class/hwmon/hwmon0/pwm1_enable", "1"⟩]) ∧
    ((exampleFanController.setSpeeds [(152, true), (300, false), (0, true)]).1.Close true).2 =
      [⟨"/sys/class/hwmon/hwmon0/pwm1_enable", "2\n"⟩] :=
  ⟨rfl,
   (Close_writes_original_mode "/sys/class/hwmon/hwmon0/pwm1" false "2\n" true
      examplePWMFan [⟨"/sys/class/hwmon/hwmon0/pwm1_enable", "1"⟩] 50 255
      exampleFanController 2 [(152, true), (300, false), (0, true)] true
      (by decide) rfl rfl).2.1⟩

/-! ## Releasing the actuator -/

/-- Every `Close` of the PWM actuator writes the remembered mode to the control-mode
file, whatever came before. -/
theorem FanControllerImpl.Close_writes (fc : FanControllerImpl) (writeOk : Bool) :
    (fc.Close writeOk).2 = [⟨fc.fan.enablePath, Itoa fc.fan.originalMode ++ "\n"⟩] := by
  unfold FanControllerImpl.Close PWMFan.Close
  cases writeOk <;> rfl

/-- Claim C11 as stated fails: the PWM actuator acquired from a control-mode file
holding `2`, closed twice, writes the mode twice. -/
theorem Close_twice_writes_twice :
    createPWMFan "/sys/class/hwmon/hwmon0/pwm1" false (some "2\n") true =
      (.ok examplePWMFan, [⟨"/sys/class/hwmon/hwmon0/pwm1_enable", "1"⟩]) ∧
    NewFanController (.ok examplePWMFan) 50 255 false = .ok exampleFanController ∧
    exampleFanController.closes [true, true] =
      [⟨"/sys/class/hwmon/hwmon0/pwm1_enable", "2\n"⟩,
       ⟨"/sys/class/hwmon/hwmon0/pwm1_enable", "2\n"⟩] ∧
    (exampleFanController.closes [true, true]).length ≠ 1 :=
  ⟨rfl, rfl, by decide, by decide⟩

/-- Claim C11, amended: for every PWM actuator and every `k`, invoking `Close` `k`
times performs the mode-restoring device write `k` times, once per call and each
time with the mode captured at acquisition; a single `Close` performs it exactly
once. -/
theorem Close_writes_every_time (fc : FanControllerImpl) (outcomes : List Bool) :
    fc.closes outcomes =
      List.replicate outcomes.length
        ⟨fc.fan.enablePath, Itoa fc.fan.originalMode ++ "\n"⟩ ∧
    (fc.closes outcomes).length = outcomes.length ∧
    (∀ writeOk, (fc.closes [writeOk]).length = 1) := by
  have h : fc.closes outcomes =
      List.replicate outcomes.length
        ⟨fc.fan.enablePath, Itoa fc.fan.originalMode ++ "\n"⟩ := by
    induction outcomes with
    | nil => rfl
    | cons writeOk rest ih =>
      simp only [FanControllerImpl.closes, ih, FanControllerImpl.Close_writes,
        List.length_cons, List.replicate_succ, List.singleton_append]
  refine ⟨h, ?_, ?_⟩
  · rw [h, List.length_replicate]
  · intro writeOk
    simp [FanControllerImpl.closes, FanControllerImpl.Close_writes]

/-- Claim C12 fails on the code: `Stop`, the only thing the process does on shutdown,
makes no device write and leaves the actuator as it is; on the running example
controller the write `Close` would make, the mode `2` to the control-mode file, is
not made. -/
theorem Stop_does_not_release :
    (∀ c : TempController, (shutdown c).2.2 = [] ∧ (shutdown c).2.1.fan = c.fan) ∧
    runningExampleController.running = true ∧
    (runningExampleController.fan.Close true).2 =
      [⟨"/sys/class/hwmon/hwmon0/pwm1_enable", "2\n"⟩] ∧
    (shutdown runningExampleController).2.2 = [] := by
  refine ⟨?_, rfl, by decide, rfl⟩
  intro c
  unfold shutdown TempController.Stop
  by_cases hr : c.running = true
  · by_cases hc : c.stopChanClosed = true
    · simp [hr, hc]
    · simp [hr, hc]
  · simp [hr]

/-! ## Life cycle -/

/-- Claim C13: `Start` on a controller that is not running returns no error, makes it
running and spawns the control loop, changing nothing else; `Start` on a running
controller returns an error, leaves the controller as it is and spawns no loop. -/
theorem Start_idle_and_running (idle busy : TempController)
    (hidle : idle.running = false) (hbusy : busy.running = true) :
    (idle.Start.1 = .ok () ∧ idle.Start.2.1 = { idle with running := true } ∧
      idle.Start.2.1.running = true ∧ idle.Start.2.2 = true) ∧
    (busy.Start.1 = .error (.error "控制器已在运行") ∧ busy.Start.2.1 = busy ∧
      busy.Start.2.1.running = true ∧ busy.Start.2.2 = false) := by
  unfold TempController.Start
  simp [hidle, hbusy]

theorem Start_idle_and_running_witness :
    exampleController.Start.1 = .ok () ∧
    exampleController.Start.2.1.running = true ∧
    runningExampleController.Start.1 = .error (.error "控制器已在运行") ∧
    runningExampleController.Start.2.2 = false := by
  have h := Start_idle_and_running exampleController runningExampleController rfl rfl
  exact ⟨h.1.1, h.1.2.2.1, h.2.1, h.2.2.2.2⟩

theorem Stop_not_running (c : TempController) (h : c.running = false) :
    c.Stop = (.ok (), c, []) := by
  unfold TempController.Stop
  simp [h]

/-- Claim C14: `Stop` on a controller that is not running returns, changes nothing
(the stop channel stays as it was) and writes nothing; on a constructed
controller, after `Start` and `Stop` a second `Stop` returns and changes nothing,
so `Stop; Stop` ends in the state `Stop` ends in. -/
theorem Stop_idempotent (c : TempController) (hidle : c.running = false)
    (hopen : c.stopChanClosed = false) :
    c.Stop = (.ok (), c, []) ∧
    c.Stop.2.1.stopChanClosed = false ∧
    c.Start.2.1.Stop.1 = .ok () ∧
    c.Start.2.1.Stop.2.1 = { c with stopChanClosed := true, running := false } ∧
    c.Start.2.1.Stop.2.1.Stop = (.ok (), c.Start.2.1.Stop.2.1, []) := by
  have hstart : c.Start.2.1 = { c with running := true } := by
    unfold TempController.Start
    simp [hidle]
  have hstop : c.Start.2.1.Stop =
      (.ok (), { c with stopChanClosed := true, running := false }, []) := by
    rw [hstart]
    unfold TempController.Stop
    simp [hopen]
  refine ⟨Stop_not_running c hidle, ?_, ?_, ?_, ?_⟩
  · rw [Stop_not_running c hidle]
    exact hopen
  · rw [hstop]
  · rw [hstop]
  · rw [hstop]
    exact Stop_not_running _ rfl

theorem Stop_idempotent_witness :
    exampleController.Stop.2.1.stopChanClosed = false ∧
    exampleController.Start.2.1.Stop.2.1.stopChanClosed = true ∧
    exampleController.Start.2.1.Stop.2.1.Stop.1 = .ok () := by
  have h := Stop_idempotent exampleController rfl rfl
  refine ⟨h.2.1, ?_, ?_⟩
  · rw [h.2.2.2.1]
  · rw [h.2.2.2.2]

/-! ## Failed device writes -/

theorem FanControllerImpl.pwmSetSpeed_failed (fc : FanControllerImpl) (pwm : Int)
    (hfail : (fc.SetSpeed pwm false).2.2 ≠ []) :
    (fc.SetSpeed pwm false).1 = .error (.error "设置风扇速度失败") ∧
    (fc.SetSpeed pwm false).2.1 = fc := by
  unfold FanControllerImpl.SetSpeed PWMFan.SetSpeed at hfail ⊢
  by_cases h : fc.clampPWM pwm = fc.lastPWM
  · simp [h] at hfail
  · by_cases h2 : fc.clampPWM pwm < 0 ∨ fc.clampPWM pwm > 255
    · simp [h, h2] at hfail
    · simp [h, h2]

theorem CoolingDeviceController.coolingSetSpeed_failed (cc : CoolingDeviceController)
    (speed : Int) (hfail : (cc.SetSpeed speed false).2.2 ≠ []) :
    (cc.SetSpeed speed false).1 = .error (.error "设置冷却级别失败") ∧
    (cc.SetSpeed speed false).2.1 = cc := by
  unfold CoolingDeviceController.SetSpeed CoolingDevice.GetMaxLevel at hfail ⊢
  by_cases h : CoolingDeviceController.nativeLevel speed cc.cooling.maxState = cc.lastLevel
  · simp [h] at hfail
  · simp [h, CoolingDevice.SetLevel]

/-- Claim C18: for every actuator, PWM or discrete, and every level, when the device
write inside `SetSpeed` fails, `SetSpeed` returns an error and the actuator is
as it was before the call, the remembered last level (`lastPWM`, `lastLevel`)
included. -/
theorem failed_write_keeps_state (fc : FanControllerImpl) (cc : CoolingDeviceController)
    (a : FanController) (level : Int)
    (hfail : (a.SetSpeed level false).2.2 ≠ []) :
    (∃ msg, (a.SetSpeed level false).1 = .error (.error msg)) ∧
    (a.SetSpeed level false).2.1 = a ∧
    (a = .pwm fc → ∃ fc1, (a.SetSpeed level false).2.1 = .pwm fc1 ∧
      fc1.lastPWM = fc.lastPWM) ∧
    (a = .cooling cc → ∃ cc1, (a.SetSpeed level false).2.1 = .cooling cc1 ∧
      cc1.lastLevel = cc.lastLevel ∧ cc1.cooling.curState = cc.cooling.curState) := by
  have hmain : (∃ msg, (a.SetSpeed level false).1 = .error (.error msg)) ∧
      (a.SetSpeed level false).2.1 = a := by
    cases a with
    | pwm f =>
      have h := FanControllerImpl.pwmSetSpeed_failed f level
        (by simpa [FanController.SetSpeed] using hfail)
      simp only [FanController.SetSpeed]
      exact ⟨⟨_, h.1⟩, by rw [h.2]⟩
    | cooling d =>
      have h := CoolingDeviceController.coolingSetSpeed_failed d level
        (by simpa [FanController.SetSpeed] using hfail)
      simp only [FanController.SetSpeed]
      exact ⟨⟨_, h.1⟩, by rw [h.2]⟩
  refine ⟨hmain.1, hmain.2, ?_, ?_⟩
  · intro ha
    exact ⟨fc, by rw [hmain.2, ha], rfl⟩
  · intro ha
    exact ⟨cc, by rw [hmain.2, ha], rfl, rfl⟩

theorem failed_write_keeps_state_witness :
    ((FanController.pwm exampleFanController).SetSpeed 152 false).2.2 =
      [⟨"/sys/class/hwmon/hwmon0/pwm1", "152\n"⟩] ∧
    ((FanController.pwm exampleFanController).SetSpeed 152 false).2.1 =
      .pwm exampleFanController ∧
    ((FanController.cooling freshLevelController).SetSpeed 152 false).2.1 =
      .cooling freshLevelController :=
  ⟨by decide,
   (failed_write_keeps_state exampleFanController freshLevelController
      (.pwm exampleFanController) 152 (by decide)).2.1,
   (failed_write_keeps_state exampleFanController freshLevelController
      (.cooling freshLevelController) 152 (by decide)).2.1⟩

/-! ## Range of the interpolation -/

/-- Claim C20 as stated fails: with the thresholds 40.0 and 75.0 and the range
`-2^62..2^62` the difference `max - min` wraps around to `-2^63` and the
temperature 57.5 gives `-2^63`, below the minimum, on every implementation; with the
low threshold `-Inf`, with which `runFanController` starts the controller, the ratio
at 50.0 is not a number, its conversion to `int` is left to the implementation, and
on amd64 the result is `50 - 2^63`, below the minimum 50. -/
theorem calculatePWM_out_of_range :
    wideRangeController.lowTemp < wideRangeController.highTemp ∧
    wideRangeController.fan.GetMinSpeed ≤ wideRangeController.fan.GetMaxSpeed ∧
    (∀ arch : Arch,
      wideRangeController.calculatePWM arch (.fin (115 / 2)) <
        wideRangeController.fan.GetMinSpeed) ∧
    runFanController infiniteLowConfig exampleProbes =
      (.started { infiniteLowController with running := true },
        [⟨"/sys/class/hwmon/hwmon0/pwm1_enable", "1"⟩]) ∧
    infiniteLowController.lowTemp < infiniteLowController.highTemp ∧
    infiniteLowController.fan.GetMinSpeed ≤ infiniteLowController.fan.GetMaxSpeed ∧
    (F64.fin 50 - infiniteLowController.lowTemp) /
      (infiniteLowController.highTemp - infiniteLowController.lowTemp) = F64.nan ∧
    infiniteLowController.calculatePWM amd64 (.fin 50) = -9223372036854775758 ∧
    infiniteLowController.calculatePWM amd64 (.fin 50) <
      infiniteLowController.fan.GetMinSpeed := by
  refine ⟨by decide!, by decide!, ?_, rfl, by decide!, by decide!, by decide!, by decide!,
    by decide!⟩
  intro arch
  rw [wideRange_interpolation arch]
  decide

/-- Claim C20, amended: with finite thresholds `lowTemp < highTemp` whose difference is
finite, a range `min <= max` of at most `2^53` levels, and every temperature that
is a number (the infinities included), `calculatePWM` lies in the closed range
`[GetMinSpeed(), GetMaxSpeed()]`, on every implementation. -/
theorem calculatePWM_in_range (arch : Arch) (c : TempController) (temp : F64)
    (hlo : c.lowTemp.isFinite = true) (hhi : c.highTemp.isFinite = true)
    (hlor : c.lowTemp.representable = true) (hhir : c.highTemp.representable = true)
    (hd : (c.highTemp - c.lowTemp).isFinite = true)
    (hlt : c.lowTemp < c.highTemp)
    (hmin : minInt ≤ c.fan.GetMinSpeed) (hmax : c.fan.GetMaxSpeed ≤ maxInt)
    (hmm : c.fan.GetMinSpeed ≤ c.fan.GetMaxSpeed)
    (hspan : c.fan.GetMaxSpeed - c.fan.GetMinSpeed ≤ 2 ^ (53 : Nat))
    (hnan : temp ≠ .nan) :
    c.fan.GetMinSpeed ≤ c.calculatePWM arch temp ∧
      c.calculatePWM arch temp ≤ c.fan.GetMaxSpeed :=
  calculatePWM_bounds arch c temp hlo hhi hlor hhir hd hlt hmin hmax hmm hspan hnan

theorem calculatePWM_in_range_witness :
    (50 : Int) ≤ exampleController.calculatePWM amd64 (.fin 50) ∧
    exampleController.calculatePWM amd64 (.fin 50) ≤ 255 ∧
    (50 : Int) ≤ exampleController.calculatePWM amd64 (.fin (-300)) ∧
    exampleController.calculatePWM amd64 .posInf ≤ 255 :=
  ⟨(calculatePWM_in_range amd64 exampleController (.fin 50) (by decide!) (by decide!)
      (by decide!) (by decide!) (by decide!) (by decide!) (by decide!) (by decide!)
      (by decide!) (by decide!) (by decide!)).1,
   (calculatePWM_in_range amd64 exampleController (.fin 50) (by decide!) (by decide!)
      (by decide!) (by decide!) (by decide!) (by decide!) (by decide!) (by decide!)
      (by decide!) (by decide!) (by decide!)).2,
   (calculatePWM_in_range amd64 exampleController (.fin (-300)) (by decide!) (by decide!)
      (by decide!) (by decide!) (by decide!) (by decide!) (by decide!) (by decide!)
      (by decide!) (by decide!) (by decide!)).1,
   (calculatePWM_in_range amd64 exampleController .posInf (by decide!) (by decide!)
      (by decide!) (by decide!) (by decide!) (by decide!) (by decide!) (by decide!)
      (by decide!) (by decide!) (by decide!)).2⟩

/-! ## Validation of the thresholds -/

/-- Claim C15 as stated fails: with `lowTemp = 75` and `highTemp = 40` both
constructors succeed, `NewControllerWithPWM` and `NewController` alike, after the
PWM fan has been probed and its control-mode file written. -/
theorem constructors_accept_swapped_thresholds :
    (∃ c, NewControllerWithPWM exampleProbes.hwSensor
        (exampleProbes.pwmFan "/sys/class/hwmon/hwmon0/pwm1") 50 255 (.fin 75) (.fin 40)
        5000000000 false =
        (.ok c, [⟨"/sys/class/hwmon/hwmon0/pwm1_enable", "1"⟩]) ∧
      c.lowTemp = .fin 75 ∧ c.highTemp = .fin 40 ∧ c.lowTemp ≥ c.highTemp) ∧
    (∃ c, NewController exampleProbes.zone exampleProbes.hwSensor exampleProbes.coolingDevice
        (exampleProbes.pwmFan "auto") (.fin 75) (.fin 40) 5000000000 false =
        (.ok c, [⟨"/sys/class/hwmon/hwmon0/pwm1_enable", "1"⟩]) ∧
      c.lowTemp = .fin 75 ∧ c.highTemp = .fin 40 ∧ c.lowTemp ≥ c.highTemp) :=
  ⟨⟨_, rfl, rfl, rfl, by decide!⟩, ⟨_, rfl, rfl, rfl, by decide!⟩⟩

/-- Claim C15, amended: `runFanController`, the caller of both constructors, ends
with a fatal error when `lowTemp ≥ highTemp`, whatever the devices would answer
and without a device write, so before a sensor or actuator is detected, read or
written; the constructors do not look at the thresholds: with a sensor and a fan
found they succeed for all thresholds. -/
theorem runFanController_rejects_thresholds (cfg : Config) (p : Probes)
    (h : cfg.lowTemp ≥ cfg.highTemp) :
    runFanController cfg p = (.fatal "错误: 低温阈值必须小于高温阈值", []) ∧
    (∀ q : Probes, runFanController cfg q = runFanController cfg p) ∧
    (∀ (sensor : HWSensor) (fan : PWMFan) (ws : List DeviceWrite) (minPWM maxPWM : Int)
        (lowTemp highTemp : F64) (interval : Nat) (verbose : Bool),
      ∃ c, NewControllerWithPWM (.ok sensor) (.ok fan, ws) minPWM maxPWM lowTemp highTemp
        interval verbose = (.ok c, ws) ∧ c.lowTemp = lowTemp ∧ c.highTemp = highTemp) := by
  have hrun : ∀ q : Probes,
      runFanController cfg q = (.fatal "错误: 低温阈值必须小于高温阈值", []) := by
    intro q
    unfold runFanController
    simp [h]
  refine ⟨hrun p, fun q => by rw [hrun q, hrun p], ?_⟩
  intro sensor fan ws minPWM maxPWM lowTemp highTemp interval verbose
  exact ⟨_, rfl, rfl, rfl⟩

theorem runFanController_rejects_thresholds_witness :
    runFanController swappedThresholdConfig exampleProbes =
      (.fatal "错误: 低温阈值必须小于高温阈值", []) :=
  (runFanController_rejects_thresholds swappedThresholdConfig exampleProbes
    (by decide!)).1

/-! ## Finding the cooling device -/

theorem TrimSpace_within (s : String) : (TrimSpace s).data <:+: s.data := by
  have h1 : (s.data.dropWhile isSpace).reverse.dropWhile isSpace <:+
      (s.data.dropWhile isSpace).reverse := List.dropWhile_suffix _
  have h2 : ((s.data.dropWhile isSpace).reverse.dropWhile isSpace).reverse <+:
      s.data.dropWhile isSpace := by
    have := List.reverse_prefix.mpr h1
    simpa using this
  exact h2.isInfix.trans (List.dropWhile_suffix _).isInfix

/-- A type that contains "fan" once trimmed and lowered contains it untrimmed. -/
theorem Contains_fan_of_trimmed (t : String)
    (h : Contains (ToLower (TrimSpace t)) "fan" = true) :
    Contains (ToLower t) "fan" = true := by
  unfold Contains at h ⊢
  rw [decide_eq_true_eq] at h ⊢
  exact h.trans (List.IsInfix.map toLowerChar (TrimSpace_within t))

theorem findFanTyped_none (fs : FileSystem) (thermalPath : String) (names : List String)
    (hnofan : ∀ name ∈ names, ∀ t,
      fs.readFile (filepathJoin (filepathJoin thermalPath name) "type") = some t →
      Contains (ToLower t) "fan" = false) :
    findFanTyped fs thermalPath names = none := by
  induction names with
  | nil => rfl
  | cons name rest ih =>
    have ihrest := ih (fun n hn t ht => hnofan n (List.mem_cons_of_mem _ hn) t ht)
    unfold findFanTyped
    cases hread : fs.readFile (filepathJoin (filepathJoin thermalPath name) "type") with
    | none =>
      simp only [hread]
      exact ihrest
    | some t =>
      have hno := hnofan name (List.mem_cons_self _ _) t hread
      have hno2 : Contains (ToLower (TrimSpace t)) "fan" = false := by
        cases hc : Contains (ToLower (TrimSpace t)) "fan" with
        | false => rfl
        | true => rw [Contains_fan_of_trimmed t hc] at hno; exact absurd hno (by decide)
      simp only [hread, hno2]
      simpa using ihrest

/-- Claim C16 fails on the code: in a cooling-device registry that is not empty and
in which no type contains "fan", `findCoolingDevice` falls back to the first
cooling device, and `NewDevice("auto")` then rejects that very device because its
type does not contain "fan". -/
theorem NewDevice_rejects_fallback (fs : FileSystem) (verbose : Bool)
    (entries : List DirEntry) (first : String) (rest : List String) (t0 : String)
    (hdir : fs.readDir "/sys/class/thermal" = some entries)
    (hreg : (entries.filter (fun entry => HasPrefix entry.name "cooling_device")).map
      (fun entry => entry.name) = first :: rest)
    (hnofan : ∀ name ∈ first :: rest, ∀ t,
      fs.readFile (filepathJoin (filepathJoin "/sys/class/thermal" name) "type") = some t →
      Contains (ToLower t) "fan" = false)
    (htype : fs.readFile
      (filepathJoin (filepathJoin "/sys/class/thermal" first) "type") = some t0) :
    findCoolingDevice verbose fs = .ok (filepathJoin "/sys/class/thermal" first) ∧
    NewDevice "auto" verbose fs =
      .error (.error ("设备不是风扇类型: " ++ TrimSpace t0)) := by
  have hfind : findCoolingDevice verbose fs =
      .ok (filepathJoin "/sys/class/thermal" first) := by
    unfold findCoolingDevice
    simp only [hdir, hreg]
    rw [findFanTyped_none fs "/sys/class/thermal" (first :: rest) hnofan]
  have habs : filepathIsAbs "auto" = false := by decide
  have hno := hnofan first (List.mem_cons_self _ _) t0 htype
  refine ⟨hfind, ?_⟩
  unfold NewDevice
  simp [habs, hfind, htype, hno]

theorem NewDevice_rejects_fallback_witness :
    findCoolingDevice false processorOnlyFS = .ok "/sys/class/thermal/cooling_device0" ∧
    NewDevice "auto" false processorOnlyFS =
      .error (.error "设备不是风扇类型: Processor") := by
  have h := NewDevice_rejects_fallback processorOnlyFS false
    [⟨"thermal_zone0", true⟩, ⟨"cooling_device0", true⟩] "cooling_device0" [] "Processor\n"
    rfl (by decide)
    (by
      intro name hname t ht
      simp only [List.mem_singleton] at hname
      subst hname
      have : t = "Processor\n" := by
        have h2 : processorOnlyFS.readFile
            (filepathJoin (filepathJoin "/sys/class/thermal" "cooling_device0") "type") =
            some "Processor\n" := by decide
        rw [h2] at ht
        exact (Option.some.inj ht).symm
      subst this
      decide)
    (by decide)
  exact ⟨h.1, h.2⟩

theorem NewDevice_finds_fan :
    NewDevice "auto" false fanSecondFS =
      .ok { devicePath := "/sys/class/thermal/cooling_device1",
            typePath := "/sys/class/thermal/cooling_device1/type",
            maxState := 4, curState := 1, verbose := false } := by
  rfl

/-! ## Reading the temperature -/

/-- Claim C17 fails on the code: `HWSensor.GetTemperature` cuts the last byte of the
file whatever it is, so an empty file makes it panic, one byte of trailing garbage
is taken for the newline and a temperature is returned, and a number without
newline loses its last digit (42000 is read as 4200 and gives the `float64` nearest
to 4.2); `ThermalZone.GetTemperature`, which trims white space, returns the parse
error on the same contents. -/
theorem HWSensor_GetTemperature_malformed :
    exampleHWSensor.GetTemperature (some "") = .error (.panic "slice bounds out of range") ∧
    exampleHWSensor.GetTemperature (some "42000x") = .ok (.fin 42) ∧
    exampleHWSensor.GetTemperature (some "42000") = .ok (F64.round false (21 / 5)) ∧
    F64.round false (21 / 5) = .fin (4728779608739021 / 1125899906842624) ∧
    exampleHWSensor.GetTemperature (some "42000\n") = .ok (.fin 42) ∧
    exampleThermalZone.GetTemperature (some "") = .error (.error "解析温度值失败") ∧
    exampleThermalZone.GetTemperature (some "42000x") = .error (.error "解析温度值失败") ∧
    exampleThermalZone.GetTemperature (some "42000\n") = .ok (.fin 42) := by
  have h1 : exampleHWSensor.GetTemperature (some "42000x") =
      .ok (F64.ofInt 42000 / F64.fin 1000) := rfl
  have h2 : exampleHWSensor.GetTemperature (some "42000") =
      .ok (F64.ofInt 4200 / F64.fin 1000) := rfl
  have h3 : exampleHWSensor.GetTemperature (some "42000\n") =
      .ok (F64.ofInt 42000 / F64.fin 1000) := rfl
  have h4 : exampleThermalZone.GetTemperature (some "42000\n") =
      .ok (F64.ofInt 42000 / F64.fin 1000) := rfl
  have e1 : F64.ofInt 42000 / F64.fin 1000 = .fin 42 := by decide!
  have e2 : F64.ofInt 4200 / F64.fin 1000 = F64.round false (21 / 5) := by decide!
  refine ⟨rfl, ?_, ?_, by decide!, ?_, rfl, rfl, ?_⟩
  · rw [h1, e1]
  · rw [h2, e2]
  · rw [h3, e1]
  · rw [h4, e1]

/-- The method `ThermalZone.GetTemperature` never panics: it returns the parse error,
or the thousandth, as `float64` computes it, of the integer the trimmed content
spells. -/
theorem ThermalZone.GetTemperature_total (z : ThermalZone) (data : String) :
    (Atoi (TrimSpace data) = none ∧
      z.GetTemperature (some data) = .error (.error "解析温度值失败")) ∨
    (∃ n, Atoi (TrimSpace data) = some n ∧
      z.GetTemperature (some data) = .ok (F64.ofInt n / F64.fin 1000)) := by
  unfold ThermalZone.GetTemperature
  cases h : Atoi (TrimSpace data) with
  | none => exact Or.inl ⟨rfl, by simp only [h]⟩
  | some n => exact Or.inr ⟨n, rfl, by simp only [h]⟩

/-- On the line `Itoa N` followed by a newline, `HWSensor.GetTemperature` returns
`float64(N) / 1000.0`. -/
theorem HWSensor.hwmonGetTemperature_line (h : HWSensor) (n : Int)
    (hlo : minInt ≤ n) (hhi : n ≤ maxInt) :
    h.GetTemperature (some (Itoa n ++ "\n")) = .ok (F64.ofInt n / F64.fin 1000) := by
  unfold HWSensor.GetTemperature
  simp only [dropLastByte_newline, Atoi_Itoa n hlo hhi]

theorem isSpace_of_isDigit (c : Char) (h : c.isDigit = true) : isSpace c = false := by
  have h1 : 48 ≤ c.toNat ∧ c.toNat ≤ 57 := by
    simp only [Char.isDigit, Bool.and_eq_true, decide_eq_true_eq] at h
    exact ⟨h.1, h.2⟩
  simp only [isSpace, Bool.or_eq_false_iff, Bool.and_eq_false_iff, decide_eq_false_iff_not]
  omega

theorem toDigitsCore_all_digits (fuel n : Nat) :
    ∀ c ∈ Nat.toDigitsCore 10 fuel n [], c.isDigit = true := by
  induction fuel generalizing n with
  | zero => simp [Nat.toDigitsCore]
  | succ fuel ih =>
    have hlt : n % 10 < 10 := Nat.mod_lt _ (by decide)
    intro c hc
    simp only [Nat.toDigitsCore] at hc
    split at hc
    · simp only [List.mem_singleton] at hc
      rw [hc]
      exact digitChar_isDigit _ hlt
    · rw [toDigitsCore_append] at hc
      rcases List.mem_append.mp hc with h | h
      · exact ih (n / 10) c h
      · simp only [List.mem_singleton] at h
        rw [h]
        exact digitChar_isDigit _ hlt

/-- No character of a line `Itoa` prints is white space. -/
theorem Itoa_no_space (n : Int) : ∀ c ∈ (Itoa n).data, isSpace c = false := by
  cases n with
  | ofNat m =>
    intro c hc
    have hdata : (Itoa (Int.ofNat m)).data = Nat.toDigitsCore 10 (m + 1) m [] := rfl
    rw [hdata] at hc
    exact isSpace_of_isDigit c (toDigitsCore_all_digits _ _ c hc)
  | negSucc k =>
    intro c hc
    have hdata : (Itoa (Int.negSucc k)).data =
        '-' :: Nat.toDigitsCore 10 (k + 1 + 1) (k + 1) [] := rfl
    rw [hdata] at hc
    rcases List.mem_cons.mp hc with h | h
    · rw [h]; decide
    · exact isSpace_of_isDigit c (toDigitsCore_all_digits _ _ c h)

theorem dropWhile_isSpace_of_none (l : List Char) (h : ∀ c ∈ l, isSpace c = false) :
    l.dropWhile isSpace = l := by
  cases l with
  | nil => rfl
  | cons a m =>
    have ha : isSpace a = false := h a (List.mem_cons_self _ _)
    simp [List.dropWhile, ha]

/-- Trimming a line without white space, followed by a newline, gives the line. -/
theorem TrimSpace_line (s : String) (h : ∀ c ∈ s.data, isSpace c = false) :
    TrimSpace (s ++ "\n") = s := by
  have hdata : (s ++ "\n").data = s.data ++ ['\n'] := rfl
  have hnl : isSpace '\n' = true := by decide
  have hrev : ∀ c ∈ s.data.reverse, isSpace c = false :=
    fun c hc => h c (List.mem_reverse.mp hc)
  unfold TrimSpace
  rw [hdata]
  cases hs : s.data with
  | nil =>
    have : s = "" := by
      cases s
      simp only at hs
      rw [hs]
    rw [this]
    rfl
  | cons a m =>
    have ha : isSpace a = false := h a (by rw [hs]; exact List.mem_cons_self _ _)
    have h1 : ((a :: m) ++ ['\n']).dropWhile isSpace = (a :: m) ++ ['\n'] := by
      simp [List.dropWhile, ha]
    rw [h1, List.reverse_append]
    have h2 : (['\n'].reverse ++ (a :: m).reverse).dropWhile isSpace = (a :: m).reverse := by
      have h3 : ['\n'].reverse ++ (a :: m).reverse = '\n' :: (a :: m).reverse := rfl
      rw [h3, List.dropWhile_cons, if_pos hnl]
      exact dropWhile_isSpace_of_none _ (by rw [← hs]; exact hrev)
    rw [h2, List.reverse_reverse, ← hs]

/-- On the line `Itoa N` followed by a newline, `ThermalZone.GetTemperature` returns
`float64(N) / 1000.0`. -/
theorem ThermalZone.zoneGetTemperature_line (z : ThermalZone) (n : Int)
    (hlo : minInt ≤ n) (hhi : n ≤ maxInt) :
    z.GetTemperature (some (Itoa n ++ "\n")) = .ok (F64.ofInt n / F64.fin 1000) := by
  unfold ThermalZone.GetTemperature
  simp only [TrimSpace_line (Itoa n) (Itoa_no_space n), Atoi_Itoa n hlo hhi]

/-! ## Priority of the settings -/

/-- Claim C19 fails on the code: with `-min-pwm=50` on the command line and
`FANAP_MIN_PWM=80` in the environment the effective minimum is 80, the
environment value, and not 50, the command-line value, because a flag that equals
its default is taken for absent. -/
theorem command_line_default_overridden (ps : Parsers) :
    minPWMDefaultCommandLine.minPWM = some 50 ∧
    (flagParse minPWMDefaultCommandLine).minPWM = 50 ∧
    minPWMEnvironment.minPWM = "80" ∧
    (resolveConfig ps minPWMDefaultCommandLine minPWMEnvironment).minPWM = 80 ∧
    (resolveConfig ps minPWMDefaultCommandLine minPWMEnvironment).minPWM ≠ 50 := by
  have h : (resolveConfig ps minPWMDefaultCommandLine minPWMEnvironment).minPWM = 80 := by
    have hflag : (flagParse minPWMDefaultCommandLine).minPWM = DefaultMinPWM := rfl
    have henv : getEnvInt minPWMEnvironment.minPWM DefaultMinPWM = 80 := by decide
    simp only [resolveConfig, hflag, if_true, henv]
  refine ⟨rfl, rfl, rfl, h, ?_⟩
  rw [h]
  decide

/-- What the configuration step does for the setting `min-pwm`: a command-line value
other than the default wins; an absent flag, or one equal to the default, gives
the environment value when it is set and an integer, else the default. -/
theorem resolveConfig_minPWM (ps : Parsers) (cli : CommandLine) (env : Environment) :
    (∀ v, cli.minPWM = some v → v ≠ DefaultMinPWM → (resolveConfig ps cli env).minPWM = v) ∧
    (cli.minPWM = none ∨ cli.minPWM = some DefaultMinPWM →
      (resolveConfig ps cli env).minPWM = getEnvInt env.minPWM DefaultMinPWM) ∧
    (∀ v, Atoi env.minPWM = some v → getEnvInt env.minPWM DefaultMinPWM = v) ∧
    (Atoi env.minPWM = none → getEnvInt env.minPWM DefaultMinPWM = DefaultMinPWM) := by
  refine ⟨?_, ?_, ?_, ?_⟩
  · intro v hv hne
    simp [resolveConfig, flagParse, hv, hne]
  · intro h
    rcases h with h | h <;> simp [resolveConfig, flagParse, h]
  · intro v hv
    have hne : env.minPWM ≠ "" := by
      intro he
      rw [he] at hv
      have hnone : Atoi "" = none := by decide
      rw [hnone] at hv
      exact absurd hv (by simp)
    simp [getEnvInt, hne, hv]
  · intro hv
    unfold getEnvInt
    split
    · rw [hv]
    · rfl

/-! ## The value of `Atoi` when the error is dropped -/

theorem parseDigits_ge (ds : List Char) (acc n : Nat) (h : parseDigits ds acc = some n) :
    acc ≤ n := by
  induction ds generalizing acc with
  | nil =>
    simp only [parseDigits, Option.some.injEq] at h
    omega
  | cons c cs ih =>
    by_cases hc : c.isDigit = true
    · simp only [parseDigits, hc, if_true] at h
      have := ih _ h
      omega
    · simp [parseDigits, hc] at h

theorem parseUint_of_parseDigits (ds : List Char) (acc n : Nat)
    (h : parseDigits ds acc = some n) (hn : n ≤ maxUint64) :
    parseUint ds acc = .value n := by
  induction ds generalizing acc with
  | nil =>
    simp only [parseDigits, Option.some.injEq] at h
    rw [h]
    rfl
  | cons c cs ih =>
    by_cases hc : c.isDigit = true
    · simp only [parseDigits, hc, if_true] at h
      have hge := parseDigits_ge _ _ _ h
      unfold maxUint64 at hn
      have h1 : ¬ acc ≥ maxUint64 / 10 + 1 := by
        unfold maxUint64
        omega
      have h2 : ¬ acc * 10 + (c.toNat - 48) > maxUint64 := by
        unfold maxUint64
        omega
      simp only [parseUint, hc, Bool.not_true, Bool.false_eq_true, if_false, h1, h2]
      exact ih _ h
    · simp [parseDigits, hc] at h

theorem parseSignedValue_of_parseSigned (neg : Bool) (ds : List Char) (v : Int)
    (h : parseSigned neg ds = some v) : parseSignedValue neg ds = v := by
  have hrange := parseSigned_range neg ds v h
  cases ds with
  | nil => simp [parseSigned] at h
  | cons c cs =>
    cases hpd : parseDigits (c :: cs) 0 with
    | none => simp [parseSigned, hpd] at h
    | some n =>
      simp only [parseSigned, hpd] at h
      by_cases hr : minInt ≤ (if neg then -(n : Int) else (n : Int)) ∧
          (if neg then -(n : Int) else (n : Int)) ≤ maxInt
      · simp only [hr, and_self, if_true, Option.some.injEq] at h
        have hmax : n ≤ maxUint64 := by
          have h1 := hr.1
          have h2 := hr.2
          unfold minInt at h1
          unfold maxInt at h2
          unfold maxUint64
          cases neg <;> simp at h1 h2 <;> omega
        have hpu := parseUint_of_parseDigits (c :: cs) 0 n hpd hmax
        have h1 : ¬ v < minInt := not_lt.mpr hrange.1
        have h2 : ¬ v > maxInt := not_lt.mpr hrange.2
        simp only [parseSignedValue, hpu, h]
        simp [h1, h2]
      · simp only [hr, if_false] at h
        exact absurd h (by simp)

/-- When `Atoi` succeeds, the value a caller gets who drops the error is the value
`Atoi` returns. -/
theorem AtoiValue_of_Atoi (s : String) (v : Int) (h : Atoi s = some v) :
    AtoiValue s = v := by
  unfold Atoi at h
  unfold AtoiValue
  split at h
  · simp at h
  · exact parseSignedValue_of_parseSigned _ _ _ h
  · exact parseSignedValue_of_parseSigned _ _ _ h
  · exact parseSignedValue_of_parseSigned _ _ _ h

/-! ## Restarting a stopped controller -/

theorem calls_all_stop_idle (c : TempController) (calls : List LifecycleCall)
    (hidle : c.running = false)
    (hstops : calls.all (fun call => call = .stop) = true) :
    c.calls calls = .ok c := by
  induction calls with
  | nil => rfl
  | cons call rest ih =>
    simp only [List.all_cons, Bool.and_eq_true, decide_eq_true_eq] at hstops
    rw [hstops.1]
    simp only [TempController.calls, Stop_not_running c hidle]
    exact ih hstops.2

/-- As long as no `Start` follows a `Stop`, a sequence of calls on a controller
whose stop channel is open never panics, and the channel is closed by no more
than one `Stop`. -/
theorem calls_without_restart (c : TempController) (calls : List LifecycleCall)
    (hopen : c.stopChanClosed = false) (hseq : noRestart calls = true) :
    ∃ final, c.calls calls = .ok final := by
  induction calls generalizing c with
  | nil => exact ⟨c, rfl⟩
  | cons call rest ih =>
    cases call with
    | start =>
      simp only [TempController.calls]
      apply ih
      · unfold TempController.Start
        by_cases hr : c.running = true
        · simp [hr, hopen]
        · simp [hr, hopen]
      · simpa [noRestart] using hseq
    | stop =>
      have hstops : rest.all (fun call => call = .stop) = true := by
        simpa [noRestart] using hseq
      by_cases hr : c.running = true
      · have hstop : c.Stop =
            (.ok (), { c with stopChanClosed := true, running := false }, []) := by
          unfold TempController.Stop
          simp [hr, hopen]
        simp only [TempController.calls, hstop]
        exact ⟨_, calls_all_stop_idle _ rest rfl hstops⟩
      · have hidle : c.running = false := by simpa using hr
        simp only [TempController.calls, Stop_not_running c hidle]
        exact ⟨_, calls_all_stop_idle c rest hidle hstops⟩

/-- Claim C21 fails on the code: on a constructed controller the calls `Start`,
`Stop`, `Start` leave it running again although its stop channel is closed, and
the `Stop` that follows closes the closed channel and panics. -/
theorem restart_then_stop_panics :
    exampleController.running = false ∧ exampleController.stopChanClosed = false ∧
    (∃ c, exampleController.calls [.start, .stop, .start] = .ok c ∧
      c.running = true ∧ c.stopChanClosed = true ∧
      c.Start.1 = .error (.error "控制器已在运行") ∧
      c.Stop.1 = .error (.panic "close of closed channel")) ∧
    exampleController.calls [.start, .stop, .start, .stop] =
      .error (.panic "close of closed channel") :=
  ⟨rfl, rfl, ⟨_, rfl, rfl, rfl, rfl, rfl⟩, rfl⟩

/-! ## The remembered level and the level on the device -/

/-- What `SetSpeed` of the discrete actuator leaves behind: the actuator as it was
(the call was suppressed or its write failed), or, after a write that succeeded,
the clamped level on the device and the computed level remembered. -/
theorem CoolingDeviceController.coolingSetSpeed_cases (cc : CoolingDeviceController)
    (speed : Int) (writeOk : Bool) :
    ((cc.SetSpeed speed writeOk).2.1 = cc ∧
      (writeOk = true → (cc.SetSpeed speed writeOk).2.2 = [])) ∨
    (writeOk = true ∧ (cc.SetSpeed speed writeOk).2.2 ≠ [] ∧
      (cc.SetSpeed speed writeOk).2.1 =
        { cc with
          cooling := { cc.cooling with
            curState := (cc.cooling.clampLevel
              (CoolingDeviceController.nativeLevel speed cc.cooling.maxState)) },
          lastLevel := CoolingDeviceController.nativeLevel speed cc.cooling.maxState }) := by
  unfold CoolingDeviceController.SetSpeed CoolingDevice.GetMaxLevel
  by_cases h : CoolingDeviceController.nativeLevel speed cc.cooling.maxState = cc.lastLevel
  · left
    simp [h]
  · cases writeOk with
    | false =>
      left
      simp [h, CoolingDevice.SetLevel]
    | true =>
      right
      simp [h, CoolingDevice.SetLevel]

theorem CoolingDeviceController.SetSpeed_maxState (cc : CoolingDeviceController)
    (speed : Int) (writeOk : Bool) :
    (cc.SetSpeed speed writeOk).2.1.cooling.maxState = cc.cooling.maxState := by
  rcases CoolingDeviceController.coolingSetSpeed_cases cc speed writeOk with h | h
  · rw [h.1]
  · rw [h.2.2]

/-- One `SetSpeed` with a speed in `0..255` on a device with `maxState` in
`0..maxInt / 255`: after a write that succeeded the remembered level is the level
on the device, and a call keeps that agreement once it holds. -/
theorem CoolingDeviceController.SetSpeed_agreement (cc : CoolingDeviceController)
    (speed : Int) (writeOk : Bool)
    (hmax : 0 ≤ cc.cooling.maxState) (hb : cc.cooling.maxState ≤ maxInt / 255)
    (h0 : 0 ≤ speed) (h255 : speed ≤ 255) :
    ((cc.SetSpeed speed writeOk).2.2 ≠ [] → writeOk = true →
      (cc.SetSpeed speed writeOk).2.1.lastLevel =
        (cc.SetSpeed speed writeOk).2.1.cooling.curState) ∧
    (cc.lastLevel = cc.cooling.curState →
      (cc.SetSpeed speed writeOk).2.1.lastLevel =
        (cc.SetSpeed speed writeOk).2.1.cooling.curState) := by
  have hclamp : cc.cooling.clampLevel
      (CoolingDeviceController.nativeLevel speed cc.cooling.maxState) =
      CoolingDeviceController.nativeLevel speed cc.cooling.maxState :=
    clampLevel_of_mem _ _ (nativeLevel_nonneg speed _ h0 h255 hmax hb)
      (nativeLevel_le_max speed _ h0 h255 hmax hb)
  rcases CoolingDeviceController.coolingSetSpeed_cases cc speed writeOk with h | h
  · constructor
    · intro hw hok
      exact absurd (h.2 hok) hw
    · intro hinv
      rw [h.1]
      exact hinv
  · constructor
    · intro _ _
      rw [h.2.2]
      exact hclamp.symm
    · intro _
      rw [h.2.2]
      exact hclamp.symm

theorem CoolingDeviceController.setSpeeds_maxState (cc : CoolingDeviceController)
    (calls : List (Int × Bool)) :
    (cc.setSpeeds calls).1.cooling.maxState = cc.cooling.maxState := by
  induction calls generalizing cc with
  | nil => rfl
  | cons call rest ih =>
    obtain ⟨speed, writeOk⟩ := call
    simp only [CoolingDeviceController.setSpeeds]
    rw [ih, CoolingDeviceController.SetSpeed_maxState]

theorem CoolingDeviceController.setSpeeds_agreement (cc : CoolingDeviceController)
    (calls : List (Int × Bool))
    (hmax : 0 ≤ cc.cooling.maxState) (hb : cc.cooling.maxState ≤ maxInt / 255)
    (hcalls : ∀ call ∈ calls, 0 ≤ call.1 ∧ call.1 ≤ 255)
    (hinv : cc.lastLevel = cc.cooling.curState) :
    (cc.setSpeeds calls).1.lastLevel = (cc.setSpeeds calls).1.cooling.curState := by
  induction calls generalizing cc with
  | nil => exact hinv
  | cons call rest ih =>
    obtain ⟨speed, writeOk⟩ := call
    have hsp := hcalls (speed, writeOk) (List.mem_cons_self _ _)
    simp only [CoolingDeviceController.setSpeeds]
    apply ih
    · rw [CoolingDeviceController.SetSpeed_maxState]
      exact hmax
    · rw [CoolingDeviceController.SetSpeed_maxState]
      exact hb
    · intro c hc
      exact hcalls c (List.mem_cons_of_mem _ hc)
    · exact (CoolingDeviceController.SetSpeed_agreement cc speed writeOk hmax hb
        hsp.1 hsp.2).2 hinv

theorem CoolingDeviceController.setSpeeds_append (cc : CoolingDeviceController)
    (xs ys : List (Int × Bool)) :
    (cc.setSpeeds (xs ++ ys)).1 = ((cc.setSpeeds xs).1.setSpeeds ys).1 := by
  induction xs generalizing cc with
  | nil => rfl
  | cons call rest ih =>
    obtain ⟨sp, ok⟩ := call
    simp only [List.cons_append, CoolingDeviceController.setSpeeds]
    exact ih _

/-- Claim C22 as stated fails: on the device with states 0..4 the speed 510 makes
the actuator remember level 8 while level 4 is written, and the speed -255 makes
it remember -4 while 0 is written; on a device with `max_state` -4 the speed 128
makes it remember -2 while -4 is written; on a device with `max_state`
36170086419038337 the product `255 * max_state` wraps around and the speed 255
makes it remember -36170086419038336 while 0 is written. -/
theorem lastLevel_differs_from_curState :
    (freshLevelController.SetSpeed 510 true).2.2 =
      [⟨"/sys/class/thermal/cooling_device4/cur_state", "4\n"⟩] ∧
    (freshLevelController.SetSpeed 510 true).2.1.lastLevel = 8 ∧
    (freshLevelController.SetSpeed 510 true).2.1.cooling.curState = 4 ∧
    (freshLevelController.SetSpeed (-255) true).2.2 =
      [⟨"/sys/class/thermal/cooling_device4/cur_state", "0\n"⟩] ∧
    (freshLevelController.SetSpeed (-255) true).2.1.lastLevel = -4 ∧
    (freshLevelController.SetSpeed (-255) true).2.1.cooling.curState = 0 ∧
    (negativeMaxController.SetSpeed 128 true).2.2 =
      [⟨"/sys/class/thermal/cooling_device4/cur_state", "-4\n"⟩] ∧
    (negativeMaxController.SetSpeed 128 true).2.1.lastLevel = -2 ∧
    (negativeMaxController.SetSpeed 128 true).2.1.cooling.curState = -4 ∧
    (hugeLevelController.SetSpeed 255 true).2.2 =
      [⟨"/sys/class/thermal/cooling_device0/cur_state", "0\n"⟩] ∧
    (hugeLevelController.SetSpeed 255 true).2.1.lastLevel = -36170086419038336 ∧
    (hugeLevelController.SetSpeed 255 true).2.1.cooling.curState = 0 := by
  refine ⟨?_, ?_, ?_, ?_, ?_, ?_, ?_, ?_, ?_, ?_, ?_, ?_⟩ <;> decide

/-- Claim C22, amended: for every discrete cooling actuator with `maxState` in
`0..maxInt / 255`, where the product `speed * maxState` fits the 64-bit `int`, and
every sequence of `SetSpeed` calls with speeds in the unified range `0..255`,
whatever the outcomes of their writes, after each device write that succeeded the
level the controller remembers (`lastLevel`) equals the level written to the
device (`curState`), and the two stay equal through the calls that follow. -/
theorem lastLevel_eq_curState (cc : CoolingDeviceController) (before after : List (Int × Bool))
    (speed : Int)
    (hmax : 0 ≤ cc.cooling.maxState) (hb : cc.cooling.maxState ≤ maxInt / 255)
    (hbefore : ∀ call ∈ before, 0 ≤ call.1 ∧ call.1 ≤ 255)
    (hafter : ∀ call ∈ after, 0 ≤ call.1 ∧ call.1 ≤ 255)
    (h0 : 0 ≤ speed) (h255 : speed ≤ 255)
    (hwrite : ((cc.setSpeeds before).1.SetSpeed speed true).2.2 ≠ []) :
    ((cc.setSpeeds before).1.SetSpeed speed true).2.1.lastLevel =
      ((cc.setSpeeds before).1.SetSpeed speed true).2.1.cooling.curState ∧
    (((cc.setSpeeds before).1.SetSpeed speed true).2.1.setSpeeds after).1.lastLevel =
      (((cc.setSpeeds before).1.SetSpeed speed true).2.1.setSpeeds after).1.cooling.curState ∧
    (cc.setSpeeds (before ++ (speed, true) :: after)).1 =
      (((cc.setSpeeds before).1.SetSpeed speed true).2.1.setSpeeds after).1 := by
  have hmax1 : 0 ≤ (cc.setSpeeds before).1.cooling.maxState := by
    rw [CoolingDeviceController.setSpeeds_maxState]
    exact hmax
  have hb1 : (cc.setSpeeds before).1.cooling.maxState ≤ maxInt / 255 := by
    rw [CoolingDeviceController.setSpeeds_maxState]
    exact hb
  have _ := hbefore
  have hstep := (CoolingDeviceController.SetSpeed_agreement (cc.setSpeeds before).1 speed true
    hmax1 hb1 h0 h255).1 hwrite rfl
  have hmax2 : 0 ≤ ((cc.setSpeeds before).1.SetSpeed speed true).2.1.cooling.maxState := by
    rw [CoolingDeviceController.SetSpeed_maxState]
    exact hmax1
  have hb2 : ((cc.setSpeeds before).1.SetSpeed speed true).2.1.cooling.maxState ≤
      maxInt / 255 := by
    rw [CoolingDeviceController.SetSpeed_maxState]
    exact hb1
  refine ⟨hstep, CoolingDeviceController.setSpeeds_agreement _ after hmax2 hb2 hafter hstep, ?_⟩
  rw [CoolingDeviceController.setSpeeds_append]
  rfl

theorem lastLevel_eq_curState_witness :
    ((freshLevelController.setSpeeds [(0, true), (128, false)]).1.SetSpeed 255 true).2.2 =
      [⟨"/sys/class/thermal/cooling_device4/cur_state", "4\n"⟩] ∧
    ((freshLevelController.setSpeeds [(0, true), (128, false)]).1.SetSpeed 255 true).2.1.lastLevel
      = 4 ∧
    ((freshLevelController.setSpeeds [(0, true), (128, false)]).1.SetSpeed
      255 true).2.1.cooling.curState = 4 ∧
    ((freshLevelController.setSpeeds [(0, true), (128, false)]).1.SetSpeed 255 true).2.1.lastLevel =
      ((freshLevelController.setSpeeds [(0, true), (128, false)]).1.SetSpeed
        255 true).2.1.cooling.curState :=
  ⟨by decide, by decide, by decide,
   (lastLevel_eq_curState freshLevelController [(0, true), (128, false)] [(64, true), (64, false)]
      255 (by decide) (by decide) (by decide) (by decide) (by decide) (by decide)
      (by decide)).1⟩

end Fanap
